import Mathlib

/-! Champollion: the Papyrus source emitter (`Decompiler::PscCoder`).

A shallow embedding of `src/Decompiler/PscCoder.cpp` and the parts of the `Pex` model it
reads, followed by theorems about the emitter.

Conventions of the embedding.

* `std::string` is `String`; a `Char` stands for one `char` of the C++ string.
* A function that writes lines threads the text written so far (`Out`) and returns a
  `Res`: either the new text, or the exception thrown together with the text written before
  the throw.
* Code of the repository that is not part of `PscCoder.cpp` (the `Pex` containers, the
  `Coder` base class, the decompiler proper, the tables of event names) is either a
  structure field or a field of `Env`.
-/

set_option autoImplicit false

namespace Champollion

/-! ## C and C++ library functions used by the emitter -/

/-- The C function `tolower` in the "C" locale: `A`..`Z` go to `a`..`z`. -/
def tolower (c : Char) : Char := c.toLower

/-- The `\d` class of `std::regex` (ECMAScript grammar) over `char`. -/
def isdigit (c : Char) : Bool := c.isDigit

/-- The characters of `s.c_str()` seen as a C string: everything before the first NUL. -/
def c_str (s : String) : List Char := s.data.takeWhile (fun c => c ≠ '\x00')

/-- The comparison loop of `_stricmp` over two C strings (the end of a list is the NUL). -/
def stricmpLoop : List Char → List Char → Int
  | [], [] => 0
  | [], d :: _ => - ((tolower d).toNat : Int)
  | c :: _, [] => ((tolower c).toNat : Int)
  | c :: cs, d :: ds =>
    if tolower c = tolower d then stricmpLoop cs ds
    else ((tolower c).toNat : Int) - ((tolower d).toNat : Int)

/-- The function `_stricmp(a.c_str(), b.c_str())`: zero when the C strings are equal ignoring case. -/
def _stricmp (a b : String) : Int := stricmpLoop (c_str a) (c_str b)

/-- The helper `str_to_lower` (and `std::transform(..., ::tolower)`). -/
def str_to_lower (p_str : String) : String := String.mk (p_str.data.map tolower)

/-- The call `std::replace(s.begin(), s.end(), a, b)`. -/
def std_replace (s : String) (a b : Char) : String :=
  String.mk (s.data.map (fun c => if c = a then b else c))

/-- The call `s.substr(pos, n)`. -/
def substr (s : String) (pos n : Nat) : String := String.mk ((s.data.drop pos).take n)

/-- The call `s.substr(pos)`. -/
def substrFrom (s : String) (pos : Nat) : String := String.mk (s.data.drop pos)

/-! ### Regular expressions

A regular expression is represented by its anchored matcher: `re t = some n` when the
expression matches a prefix of `t`, `n` being the length of the match the backtracking
matcher of `std::regex` selects. Both expressions of the emitter match at least one
character. -/

/-- An anchored matcher. -/
abbrev Regex := List Char → Option Nat

/-- The matcher of `tempRegex = std::regex("::temp\\d+")`: the literal `::temp`, then the longest
non-empty run of digits. -/
def tempRegex : Regex := fun t =>
  match t with
  | ':' :: ':' :: 't' :: 'e' :: 'm' :: 'p' :: rest =>
    if 0 < (rest.takeWhile isdigit).length then some (6 + (rest.takeWhile isdigit).length) else none
  | _ => none

/-- The matcher of `std::regex("::State")`, a literal. -/
def stateRegex : Regex := fun t =>
  match t with
  | ':' :: ':' :: 'S' :: 't' :: 'a' :: 't' :: 'e' :: _ => some 7
  | _ => none

/-- Search of `std::regex_search(line, re)` from the characters `t` on: is there a position at
which the expression matches. -/
def regexSearchFrom (re : Regex) : List Char → Bool
  | [] => (re []).isSome
  | c :: cs => (re (c :: cs)).isSome || regexSearchFrom re cs

/-- The call `std::regex_search(line, re)`. -/
def regex_search (line : String) (re : Regex) : Bool := regexSearchFrom re line.data

/-- The loop of `std::regex_replace`: copy characters up to the leftmost match, put the format text
in its place, go on after the match. The first argument bounds the number of steps; `regex_replace`
starts it with one step per character. -/
def regexReplaceLoop (re : Regex) (fmt : List Char) : Nat → List Char → List Char
  | 0, t => t
  | _ + 1, [] => []
  | fuel + 1, c :: cs =>
    match re (c :: cs) with
    | some n => fmt ++ regexReplaceLoop re fmt fuel (cs.drop (n - 1))
    | none => c :: regexReplaceLoop re fmt fuel cs

/-- The call `std::regex_replace(line, re, fmt)` for a format text without `$`. -/
def regex_replace (line : String) (re : Regex) (fmt : String) : String :=
  String.mk (regexReplaceLoop re fmt.data line.data.length line.data)

/-- The test `line.find("::State") != std::string::npos`. -/
def findState (line : String) : Bool := regexSearchFrom stateRegex line.data

/-! ## The `Pex` model read by the emitter

The containers of `Pex/` are read through their accessors; an accessor becomes a field. -/

namespace Pex

/-- An identifier resolved through the string table (`Pex::StringTable::Index`): the position in
the table and the text found there. `operator==` compares positions: two entries of the table may
hold the same text. -/
structure StringTable.Index where
  m_Index : Nat
  m_String : String
  m_Valid : Bool
deriving DecidableEq, Repr

/-- The accessor `asString()`. -/
def StringTable.Index.asString (a : StringTable.Index) : String := a.m_String

/-- The accessor `asIndex()`. -/
def StringTable.Index.asIndex (a : StringTable.Index) : Nat := a.m_Index

/-- The accessor `isValid()`. -/
def StringTable.Index.isValid (a : StringTable.Index) : Bool := a.m_Valid

/-- Modelled from the spec: `StringTable::Index::operator==` (Pex/StringTable.hpp is not under
src/), the comparison `a == b` of two indices of one string table, by position. -/
def StringTable.Index.eq (a b : StringTable.Index) : Bool := a.m_Index == b.m_Index

/-- The string table of a binary. -/
structure StringTable where
  m_Table : List String
deriving DecidableEq, Repr

/-- Modelled from the spec: `StringTable::findIdentifier` (Pex/StringTable.cpp is not under src/).
The call `findIdentifier(id)`: the index of the first entry holding `id`, an invalid index when
there is none. -/
def StringTable.findIdentifier (t : StringTable) (id : String) : StringTable.Index :=
  if id ∈ t.m_Table then ⟨t.m_Table.indexOf id, id, true⟩ else ⟨0, "", false⟩

/-- The tag `Pex::ValueType`. -/
inductive ValueType
  | None | Identifier | String | Integer | Float | Bool
deriving DecidableEq, Repr

/-- A `Pex::Value`: its type tag and the text `toString()` gives. -/
structure Value where
  getType : ValueType
  toString : String
deriving DecidableEq, Repr

/-- A `Pex::UserFlag` of the binary: its name and its bit mask. -/
structure UserFlag where
  getName : StringTable.Index
  getFlagMask : Nat
deriving DecidableEq, Repr

/-- A `Pex::TypedName`: a parameter or a local. -/
structure TypedName where
  getName : StringTable.Index
  getTypeName : StringTable.Index
deriving DecidableEq, Repr

/-- The opcodes the emitter distinguishes. -/
inductive OpCode
  | RETURN
  | other (code : Nat)
deriving DecidableEq, Repr

/-- A `Pex::Instruction`. -/
structure Instruction where
  getOpCode : OpCode
  getArgs : List Value
deriving DecidableEq, Repr

/-- A `Pex::Function`. -/
structure Function where
  getName : StringTable.Index
  getReturnTypeName : StringTable.Index
  getDocString : StringTable.Index
  getUserFlags : Nat
  isGlobal : Bool
  isNative : Bool
  getParams : List TypedName
  getInstructions : List Instruction
deriving DecidableEq, Repr

/-- A `Pex::Variable` of an object. -/
structure Variable where
  getName : StringTable.Index
  getTypeName : StringTable.Index
  getUserFlags : Nat
  getDefaultValue : Value
  getConstFlag : Bool
deriving DecidableEq, Repr

/-- A `Pex::Property` of an object. -/
structure Property where
  getName : StringTable.Index
  getTypeName : StringTable.Index
  getDocString : StringTable.Index
  getUserFlags : Nat
  hasAutoVar : Bool
  isReadable : Bool
  isWritable : Bool
  getAutoVarName : StringTable.Index
  getReadFunction : Function
  getWriteFunction : Function
deriving DecidableEq, Repr

/-- A `Pex::StructInfo::Member`. -/
structure StructInfo.Member where
  getName : StringTable.Index
  getTypeName : StringTable.Index
  getUserFlags : Nat
  getValue : Value
  getConstFlag : Bool
  getDocString : StringTable.Index
deriving DecidableEq, Repr

/-- A `Pex::StructInfo`. -/
structure StructInfo where
  getName : StringTable.Index
  getMembers : List StructInfo.Member
deriving DecidableEq, Repr

/-- A `Pex::Guard`. -/
structure Guard where
  getName : StringTable.Index
deriving DecidableEq, Repr

/-- A `Pex::State`. -/
structure State where
  getName : StringTable.Index
  getFunctions : List Function
deriving DecidableEq, Repr

/-- A `Pex::Object`. -/
structure Object where
  getName : StringTable.Index
  getParentClassName : StringTable.Index
  getDocString : StringTable.Index
  getUserFlags : Nat
  getConstFlag : Bool
  getAutoStateName : StringTable.Index
  getStructInfos : List StructInfo
  getVariables : List Variable
  getGuards : List Guard
  getProperties : List Property
  getStates : List State
deriving DecidableEq, Repr

/-- The tag `Pex::DebugInfo::FunctionType`. -/
inductive DebugInfo.FunctionType
  | Method | Getter | Setter
deriving DecidableEq, Repr

/-- A `Pex::DebugInfo::FunctionInfo`. -/
structure DebugInfo.FunctionInfo where
  getObjectName : StringTable.Index
  getStateName : StringTable.Index
  getFunctionName : StringTable.Index
  getFunctionType : DebugInfo.FunctionType
  getLineNumbers : List Nat
deriving DecidableEq, Repr

/-- A `Pex::DebugInfo::PropertyGroup`. -/
structure DebugInfo.PropertyGroup where
  getObjectName : StringTable.Index
  getGroupName : StringTable.Index
  getDocString : StringTable.Index
  getUserFlags : Nat
  getNames : List StringTable.Index
deriving DecidableEq, Repr

/-- A `Pex::DebugInfo::StructOrder`. -/
structure DebugInfo.StructOrder where
  getObjectName : StringTable.Index
  getOrderName : StringTable.Index
  getNames : List StringTable.Index
deriving DecidableEq, Repr

/-- The `Pex::DebugInfo` of a binary. -/
structure DebugInfo where
  getModificationTime : Nat
  getFunctionInfos : List DebugInfo.FunctionInfo
  getPropertyGroups : List DebugInfo.PropertyGroup
  getStructOrders : List DebugInfo.StructOrder
deriving DecidableEq, Repr

/-- Modelled from the spec: `DebugInfo::getFunctionInfo` (Pex/DebugInfo.cpp is not under src/),
the map from "(object, state, function) triples" to the debug function info. The call
`getFunctionInfo(object, state, function, type)`: the first function info of that object, state,
function and type; `none` is the null pointer. -/
def DebugInfo.getFunctionInfo (d : DebugInfo) (objectName stateName functionName : StringTable.Index)
    (functionType : DebugInfo.FunctionType) : Option DebugInfo.FunctionInfo :=
  d.getFunctionInfos.find? (fun f =>
    f.getObjectName.eq objectName && f.getStateName.eq stateName &&
    f.getFunctionName.eq functionName && decide (f.getFunctionType = functionType))

/-- Modelled from the spec: the default of the parameter `type` of `getFunctionInfo`
(Pex/DebugInfo.hpp is not under src/): the classification of a plain function. -/
def DebugInfo.defaultFunctionType : DebugInfo.FunctionType := DebugInfo.FunctionType.Method

/-- The tag `Pex::Binary::ScriptType`. -/
inductive Binary.ScriptType
  | Unknown | SkyrimScript | Fallout4Script | StarfieldScript
deriving DecidableEq, Repr

/-- A `Pex::Binary`, as far as the emitter reads it. -/
structure Binary where
  getStringTable : StringTable
  getDebugInfo : DebugInfo
  getUserFlags : List UserFlag
  getObjects : List Object
  getGameType : Binary.ScriptType
deriving DecidableEq, Repr

/-- Modelled from the spec: `findByName` of the variables of an object (Pex/Variable.hpp is not
under src/). The call `findByName(name)`: the first variable of that name; `none` is the null
pointer. -/
def findByName (vars : List Variable) (name : StringTable.Index) : Option Variable :=
  vars.find? (fun v => v.getName.eq name)

end Pex

/-! ## The decompiler, as the emitter sees it -/

/-- A `Decompiler::PscDecompiler` after construction: the vector of decompiled lines it is, and
what its accessors return. -/
structure PscDecompiler where
  lines : List String
  isDebugFunction : Bool
  getLineMap : List (Nat × List Nat)
  getIdsInUse : List Pex.StringTable.Index
deriving DecidableEq, Repr

/-- The loop `for (auto &line : decomp) if (regex_search(line, re)) line = regex_replace(line, re, fmt)`. -/
def replaceInLines (re : Regex) (fmt : String) (decomp : PscDecompiler) : PscDecompiler :=
  { decomp with lines := decomp.lines.map (fun line =>
      if regex_search line re then regex_replace line re fmt else line) }

/-- The loop over the lines for an object named `ScriptObject`:
`if (line.find("::State") != npos) line = regex_replace(line, std::regex("::State"), "__state")`. -/
def replaceStateInLines (decomp : PscDecompiler) : PscDecompiler :=
  { decomp with lines := decomp.lines.map (fun line =>
      if findState line then regex_replace line stateRegex "__state" else line) }

/-- The function `PscCoder::fixupFunction`: the value returned and the decompiler with its lines
as the call leaves them. -/
def fixupFunction (object : Pex.Object) (pex : Pex.Binary) (functionName : String)
    (decomp : PscDecompiler) : Bool × PscDecompiler :=
  let r₁ : Bool × PscDecompiler :=
    if pex.getGameType = Pex.Binary.ScriptType.StarfieldScript then
      if functionName = "warning" ∨
          (_stricmp object.getName.asString "ENV_Hazard_ParentScript" = 0 ∧
            functionName = "GlobalWarning") ∨
          (_stricmp object.getName.asString "ENV_AfflictionScript" = 0 ∧
            functionName = "TraceStats") then
        (true, replaceInLines tempRegex "false" decomp)
      else if _stricmp object.getName.asString "RobotQuestRunner" = 0 then
        if functionName = "UpdateState" then
          (true, replaceInLines tempRegex "None" decomp)
        else if functionName = "MakeQuestNameSave" then
          (true, replaceInLines tempRegex "questName" decomp)
        else (false, decomp)
      else (false, decomp)
    else (false, decomp)
  if _stricmp object.getName.asString "ScriptObject" = 0 then
    (true, replaceStateInLines r₁.2)
  else r₁

/-! ## The emitter -/

/-- What stops a call before its end: a `std::runtime_error` with its message, an exception of the
decompiler, or a step whose behaviour C++ leaves undefined (an index outside a string or vector). -/
inductive Error
  | runtime_error (what : String)
  | decompiler_error (what : String)
  | undefined_behaviour
deriving DecidableEq, Repr

/-- The options of a `PscCoder`. -/
structure PscCoder where
  m_CommentAsm : Bool
  m_WriteHeader : Bool
  m_TraceDecompilation : Bool
  m_DumpTree : Bool
  m_WriteDebugFuncs : Bool
  m_PrintDebugLineNo : Bool
deriving DecidableEq, Repr

/-- The collaborators of the emitter that are not part of `PscCoder.cpp`:
the width of one level of indentation of `Coder::indent`, the constructor of `PscDecompiler`
(run with the tracing options of the coder), and the tables `EventNamesLowerCase` of the three
games. -/
structure Env where
  indentWidth : Nat
  decompile : Pex.Function → Pex.Object → Option Pex.DebugInfo.FunctionInfo →
    Except Error PscDecompiler
  Skyrim_EventNamesLowerCase : List String
  Fallout4_EventNamesLowerCase : List String
  Starfield_EventNamesLowerCase : List String

/-- What the emitter has produced so far: the lines handed to `write`, in order, and (a record kept
beside them, not text) the properties whose declaration line has been written, in order. -/
structure Out where
  lines : List String
  properties : List Pex.Property
deriving DecidableEq, Repr

/-- Nothing written yet. -/
def emptyOut : Out := ⟨[], []⟩

/-- The outcome of a call that writes: it returns, or it throws after having written `out`. -/
inductive Res
  | ok (out : Out)
  | throw (e : Error) (out : Out)
deriving DecidableEq, Repr

/-- What has been written when the call ends, either way. -/
def Res.out : Res → Out
  | Res.ok out => out
  | Res.throw _ out => out

/-- The exception the call ends with, if any. -/
def Res.error : Res → Option Error
  | Res.ok _ => none
  | Res.throw e _ => some e

/-- Sequencing: the next statement runs when the call returned. -/
def Res.andThen (r : Res) (k : Out → Res) : Res :=
  match r with
  | Res.ok out => k out
  | Res.throw e out => Res.throw e out

/-- A range-based `for` loop whose body may throw. -/
def forEach {α : Type} (xs : List α) (body : α → Out → Res) (out : Out) : Res :=
  match xs with
  | [] => Res.ok out
  | x :: rest => (body x out).andThen (forEach rest body)

/-- The call `write(line)` of the `Coder` base class. -/
def write (out : Out) (line : String) : Out := { out with lines := out.lines ++ [line] }

/-- Modelled from the spec: `Coder::indent` (Coder.cpp is not under src/), the start of an
"indented source line": `i` levels of indentation, each `indentWidth` spaces. -/
def indent (env : Env) (i : Nat) : String := String.mk (List.replicate (i * env.indentWidth) ' ')

/-- The function `PscCoder::writeUserFlag`: the stream after the call. -/
def writeUserFlag (stream : String) (flags : Nat) (pex : Pex.Binary) : String :=
  pex.getUserFlags.foldl
    (fun stream flag =>
      if flags &&& flag.getFlagMask ≠ 0 then stream ++ " " ++ flag.getName.asString else stream)
    stream

/-- The function `PscCoder::writeDocString`. -/
def writeDocString (env : Env) (i : Nat) (docString : Pex.StringTable.Index) (out : Out) : Out :=
  if docString.asString ≠ "" then write out (indent env i ++ "\x7b " ++ docString.asString ++ " \x7d")
  else out

/-- The table `prettyTypeNameMap`. -/
def prettyTypeNameMap : List (String × String) :=
  [ ("bool", "Bool"), ("float", "Float"), ("int", "Int"), ("string", "String"), ("var", "Var"),
    ("self", "Self"),
    ("action", "Action"), ("activator", "Activator"), ("activemagiceffect", "ActiveMagicEffect"),
    ("actor", "Actor"), ("actorbase", "ActorBase"), ("actorvalue", "ActorValue"),
    ("alias", "Alias"), ("ammo", "Ammo"), ("apparatus", "Apparatus"), ("armor", "Armor"),
    ("associationtype", "AssociationType"), ("book", "Book"), ("cell", "Cell"),
    ("class", "Class"), ("constructibleobject", "ConstructibleObject"),
    ("container", "Container"), ("debug", "Debug"), ("door", "Door"),
    ("effectshader", "EffectShader"), ("enchantment", "Enchantment"),
    ("encounterzone", "EncounterZone"), ("explosion", "Explosion"), ("faction", "Faction"),
    ("flora", "Flora"), ("form", "Form"), ("formlist", "FormList"), ("furniture", "Furniture"),
    ("game", "Game"), ("globalvariable", "GlobalVariable"), ("hazard", "Hazard"),
    ("idle", "Idle"), ("imagespacemodifier", "ImageSpaceModifier"),
    ("impactdataset", "ImpactDataSet"), ("ingredient", "Ingredient"), ("key", "Key"),
    ("keyword", "Keyword"), ("leveledactor", "LeveledActor"), ("leveleditem", "LeveledItem"),
    ("leveledspell", "LeveledSpell"), ("light", "Light"), ("location", "Location"),
    ("locationalias", "LocationAlias"), ("locationreftype", "LocationRefType"),
    ("magiceffect", "MagicEffect"), ("math", "Math"), ("message", "Message"),
    ("miscobject", "MiscObject"), ("musictype", "MusicType"),
    ("objectreference", "ObjectReference"), ("outfit", "Outfit"), ("package", "Package"),
    ("perk", "Perk"), ("potion", "Potion"), ("projectile", "Projectile"), ("quest", "Quest"),
    ("race", "Race"), ("referencealias", "ReferenceAlias"),
    ("refcollectionalias", "RefCollectionAlias"), ("scene", "Scene"), ("scroll", "Scroll"),
    ("scriptobject", "ScriptObject"), ("shout", "Shout"), ("soulgem", "SoulGem"),
    ("sound", "Sound"), ("soundcategory", "SoundCategory"), ("spell", "Spell"),
    ("static", "Static"), ("talkingactivator", "TalkingActivator"), ("topic", "Topic"),
    ("topicinfo", "TopicInfo"), ("utility", "Utility"), ("visualeffect", "VisualEffect"),
    ("voicetype", "VoiceType"), ("weapon", "Weapon"), ("weather", "Weather"),
    ("wordofpower", "WordOfPower"), ("worldspace", "WorldSpace") ]

/-- The test of `mapType` for an array type: longer than two characters and ending in `[]`. -/
def isArrayType (type : String) : Bool :=
  decide (type.length > 2) && type.data[type.length - 2]? == some '[' &&
    type.data[type.length - 1]? == some ']'

/-- The body of `PscCoder::mapType`, the recursive call for the element type of an array
bounded by a number of steps: at zero only the lookup remains. -/
def mapTypeLoop : Nat → String → String
  | 0, type =>
    match prettyTypeNameMap.lookup (str_to_lower (std_replace type '#' ':')) with
    | some a => a
    | none => std_replace type '#' ':'
  | fuel + 1, type =>
    if isArrayType (std_replace type '#' ':') = true then
      mapTypeLoop fuel
        (substr (std_replace type '#' ':') 0 ((std_replace type '#' ':').length - 2)) ++ "[]"
    else
      match prettyTypeNameMap.lookup (str_to_lower (std_replace type '#' ':')) with
      | some a => a
      | none => std_replace type '#' ':'

/-- The function `PscCoder::mapType`. Each recursive call is on a string two characters shorter,
so one step per character is more than the recursion uses (`mapType_eq` is the equation of the
source without the bound). -/
def mapType (type : String) : String := mapTypeLoop type.length type

/-- The function `PscCoder::isCompilerGeneratedFunc`; both tables of names are local to it. -/
def isCompilerGeneratedFunc (name : String) (object : Pex.Object)
    (scriptType : Pex.Binary.ScriptType) : Bool :=
  let globalCompilerGeneratedFuncs : List String := ["getstate", "gotostate"]
  let starfieldCompilerGeneratedFuncs : List String := []
  if _stricmp object.getName.asString "ScriptObject" = 0 then false
  else if str_to_lower name ∈ globalCompilerGeneratedFuncs then true
  else if scriptType = Pex.Binary.ScriptType.StarfieldScript ∧
      name ∈ starfieldCompilerGeneratedFuncs then true
  else false

/-- Lines 560 to 593 of `writeFunction`: the name the function is written under and whether it is
written as an event. `none` when the `::remote_` rewriting indexes outside the parameter list or
outside the name. -/
def writeFunction_name (env : Env) (function : Pex.Function) (pex : Pex.Binary) (name : String) :
    Option (String × Bool) :=
  let functionName := if name = "" then function.getName.asString else name
  let isEvent : Bool :=
    if functionName.length > 2 ∧ _stricmp (substr functionName 0 2) "on" = 0 then
      match pex.getGameType with
      | Pex.Binary.ScriptType.SkyrimScript =>
        decide (str_to_lower functionName ∈ env.Skyrim_EventNamesLowerCase)
      | Pex.Binary.ScriptType.Fallout4Script =>
        decide (str_to_lower functionName ∈ env.Fallout4_EventNamesLowerCase)
      | Pex.Binary.ScriptType.StarfieldScript =>
        decide (str_to_lower functionName ∈ env.Starfield_EventNamesLowerCase)
      | Pex.Binary.ScriptType.Unknown => false
    else false
  if functionName.length > 9 ∧ _stricmp (substr functionName 0 9) "::remote_" = 0 then
    match function.getParams with
    | [] => none
    | param :: _ =>
      if param.getTypeName.asString.length < (substrFrom functionName 9).length then
        some (String.mk ((substrFrom functionName 9).data.set
          param.getTypeName.asString.length '.'), true)
      else none
  else some (functionName, isEvent)

/-- The parameter list written between the parentheses of a declaration. -/
def writeFunction_params (params : List Pex.TypedName) : String :=
  String.intercalate ", "
    (params.map (fun param => mapType param.getTypeName.asString ++ " " ++ param.getName.asString))

/-- Lines 600 to 629 of `writeFunction`: the declaration up to the `Global` keyword. -/
def writeFunction_decl (env : Env) (i : Nat) (function : Pex.Function) (functionName : String)
    (isEvent : Bool) : String :=
  indent env i ++
    (if _stricmp function.getReturnTypeName.asString "none" ≠ 0 then
      mapType function.getReturnTypeName.asString ++ " " else "") ++
    (if isEvent then "Event " else "Function ") ++ functionName ++ "(" ++
    writeFunction_params function.getParams ++ ")" ++
    (if function.isGlobal then " Global" else "")

/-- The value `linemap[index]` of a `std::map`: the entry, an empty vector when there is none. -/
def lineMapAt (lineMap : List (Nat × List Nat)) (index : Nat) : List Nat :=
  (lineMap.lookup index).getD []

/-- The loop of lines 696 to 702 of `writeFunction` (1074 to 1080 of `getFunctionToWrite`):
`for (i = 0; i < result.size(); ++i) { if (i > 0) line += ","; line += std::to_string(result[i]); }`
from the index `i` on, `result` being the numbers left. -/
def appendLineNumbers : String → Nat → List Nat → String
  | line, _, [] => line
  | line, i, n :: result =>
    appendLineNumbers ((if i > 0 then line ++ "," else line) ++ Nat.repr n) (i + 1) result

/-- Lines 691 to 704 of `writeFunction`: the body line of index `index` as it is written, before
indentation. -/
def writeFunction_line (self : PscCoder) (decomp : PscDecompiler) (index : Nat) (line : String) :
    String :=
  if self.m_PrintDebugLineNo then
    if (lineMapAt decomp.getLineMap index).length > 0 then
      appendLineNumbers (line ++ " ; #DEBUG_LINE_NO:") 0 (lineMapAt decomp.getLineMap index)
    else line
  else line

/-- The body lines as `writeFunction` writes them (lines 688 to 707). -/
def writeFunction_bodyLines (env : Env) (self : PscCoder) (i : Nat) (decomp : PscDecompiler) :
    List String :=
  decomp.lines.enum.map (fun p => indent env (i + 1) ++ writeFunction_line self decomp p.1 p.2)

/-- Lines 685 to 711 of `writeFunction`: the declaration, the docstring, the body and the closing
line of a function that is not native. -/
def writeFunction_body (env : Env) (self : PscCoder) (i : Nat) (function : Pex.Function)
    (pex : Pex.Binary) (stream : String) (isEvent : Bool) (decomp : PscDecompiler) (out : Out) :
    Out :=
  let out := write out (writeUserFlag stream function.getUserFlags pex)
  let out := writeDocString env i function.getDocString out
  let out := { out with lines := out.lines ++ writeFunction_bodyLines env self i decomp }
  if isEvent then write out (indent env i ++ "EndEvent")
  else write out (indent env i ++ "EndFunction")

/-- The function `PscCoder::writeFunction`. The vectors `propsInUse` and `varsInUse` it fills
(lines 639 to 666) are local and never read; they are left out. -/
def writeFunction (env : Env) (self : PscCoder) (i : Nat) (function : Pex.Function)
    (object : Pex.Object) (pex : Pex.Binary)
    (functionInfo : Option Pex.DebugInfo.FunctionInfo) (name : String) (out : Out) : Res :=
  match writeFunction_name env function pex name with
  | none => Res.throw Error.undefined_behaviour out
  | some (functionName, isEvent) =>
    if isCompilerGeneratedFunc functionName object pex.getGameType = true then
      Res.ok (write out (indent env i ++ "; Skipped compiler generated " ++ functionName))
    else
      let stream := writeFunction_decl env i function functionName isEvent
      if function.isNative = true then
        Res.ok (writeDocString env i function.getDocString
          (write out (writeUserFlag (stream ++ " Native") function.getUserFlags pex)))
      else
        match env.decompile function object functionInfo with
        | Except.error e => Res.throw e out
        | Except.ok decomp =>
          if decomp.isDebugFunction = true then
            if (fixupFunction object pex functionName decomp).1 = true then
              Res.ok (writeFunction_body env self i function pex stream isEvent
                (fixupFunction object pex functionName decomp).2
                (write out (indent env i ++ "; Fixup hacks for debug-only function: " ++
                  functionName)))
            else if self.m_WriteDebugFuncs = true then
              Res.ok (writeFunction_body env self i function pex stream isEvent
                (fixupFunction object pex functionName decomp).2
                (write out (indent env i ++ "; WARNING: possibly inoperative debug function " ++
                  functionName ++ "")))
            else
              Res.ok (write out (indent env i ++ "; Skipped inoperative debug function " ++
                functionName))
          else if _stricmp functionName "GotoState" = 0 ∨ _stricmp functionName "GetState" = 0 then
            Res.ok (writeFunction_body env self i function pex stream isEvent
              (fixupFunction object pex functionName decomp).2
              (write out (indent env i ++
                "; Fixup hacks for native ScriptObject::GotoState/GetState")))
          else
            Res.ok (writeFunction_body env self i function pex stream isEvent decomp out)

/-- The function `PscCoder::writeStructMember`. -/
def writeStructMember (env : Env) (member : Pex.StructInfo.Member) (pex : Pex.Binary)
    (out : Out) : Out :=
  let stream := indent env 1 ++ mapType member.getTypeName.asString ++ " " ++
    member.getName.asString
  let stream :=
    if member.getValue.getType ≠ Pex.ValueType.None then
      stream ++ " = " ++ member.getValue.toString
    else stream
  let stream := writeUserFlag stream member.getUserFlags pex
  let stream := if member.getConstFlag then stream ++ " Const" else stream
  writeDocString env 1 member.getDocString (write out stream)

/-- The message of the exception `writeStructs` throws for a name of the debug info. -/
def structMemberNotFound (orderName : Pex.StringTable.Index) : Error :=
  Error.runtime_error
    ("Unable to locate the struct member by the name of '" ++ orderName.asString ++ "'")

/-- Lines 281 to 293 of `writeStructs`: the members in the order of the names of one struct order;
a name no member carries throws. -/
def writeStructs_names (env : Env) (sInfo : Pex.StructInfo) (pex : Pex.Binary)
    (names : List Pex.StringTable.Index) (out : Out) : Res :=
  forEach names
    (fun orderName out =>
      match sInfo.getMembers.find? (fun member => member.getName.eq orderName) with
      | some member => Res.ok (writeStructMember env member pex out)
      | none => Res.throw (structMemberNotFound orderName) out)
    out

/-- Lines 277 to 301 of `writeStructs`: the loop over the struct orders of the debug info for one
struct, with the flag `foundInfo` it sets; a matching order of another size leaves the loop. -/
def writeStructs_orders (env : Env) (object : Pex.Object) (sInfo : Pex.StructInfo)
    (pex : Pex.Binary) : List Pex.DebugInfo.StructOrder → Bool → Out → Bool × Res
  | [], foundInfo, out => (foundInfo, Res.ok out)
  | sOrder :: rest, foundInfo, out =>
    if sOrder.getObjectName.eq object.getName = true ∧
        sOrder.getOrderName.eq sInfo.getName = true then
      if sOrder.getNames.length = sInfo.getMembers.length then
        match writeStructs_names env sInfo pex sOrder.getNames out with
        | Res.ok out => writeStructs_orders env object sInfo pex rest true out
        | Res.throw e out => (true, Res.throw e out)
      else (foundInfo, Res.ok out)
    else writeStructs_orders env object sInfo pex rest foundInfo out

/-- The body of the loop of `writeStructs` for one struct (lines 271 to 310). -/
def writeStructs_struct (env : Env) (object : Pex.Object) (pex : Pex.Binary)
    (sInfo : Pex.StructInfo) (out : Out) : Res :=
  let out := write out (indent env 0 ++ "Struct " ++ sInfo.getName.asString)
  let r : Bool × Res :=
    if pex.getDebugInfo.getStructOrders.length ≠ 0 then
      writeStructs_orders env object sInfo pex pex.getDebugInfo.getStructOrders false out
    else (false, Res.ok out)
  r.2.andThen (fun out =>
    let out :=
      if r.1 = false then
        sInfo.getMembers.foldl (fun out mem => writeStructMember env mem pex out) out
      else out
    Res.ok (write (write out (indent env 0 ++ "EndStruct")) ""))

/-- The function `PscCoder::writeStructs`. -/
def writeStructs (env : Env) (object : Pex.Object) (pex : Pex.Binary) (out : Out) : Res :=
  forEach object.getStructInfos (writeStructs_struct env object pex) out

/-- The function `PscCoder::isPropAutoReadOnly`. -/
def isPropAutoReadOnly (prop : Pex.Property) : Bool :=
  !prop.hasAutoVar && prop.isReadable && !prop.isWritable &&
    prop.getReadFunction.getInstructions.length == 1 &&
    (prop.getReadFunction.getInstructions[0]?.map (fun ins => ins.getOpCode)) ==
      some Pex.OpCode.RETURN &&
    (prop.getReadFunction.getInstructions[0]?.map (fun ins => ins.getArgs.length)) == some 1 &&
    ((prop.getReadFunction.getInstructions[0]?.bind (fun ins => ins.getArgs[0]?)).map
      (fun arg => decide (arg.getType ≠ Pex.ValueType.Identifier))) == some true

/-- The message of the exception `writeProperty` throws for a missing auto variable. -/
def autoVarNotFound : Error := Error.runtime_error "Auto variable for property not found"

/-- Lines 406 to 427 of `writeProperty`: the declaration line of the property, or what stops the
call before the line is written. -/
def writeProperty_decl (env : Env) (i : Nat) (prop : Pex.Property) (object : Pex.Object)
    (pex : Pex.Binary) : Except Error String :=
  let stream := indent env i ++ mapType prop.getTypeName.asString ++ " Property " ++
    prop.getName.asString
  if prop.hasAutoVar = true then
    match Pex.findByName object.getVariables prop.getAutoVarName with
    | none => Except.error autoVarNotFound
    | some var =>
      let stream :=
        if var.getDefaultValue.getType ≠ Pex.ValueType.None then
          stream ++ " = " ++ var.getDefaultValue.toString
        else stream
      let stream := writeUserFlag (stream ++ " Auto") var.getUserFlags pex
      let stream := if var.getConstFlag then stream ++ " Const" else stream
      Except.ok (writeUserFlag stream prop.getUserFlags pex)
  else if isPropAutoReadOnly prop = true then
    match prop.getReadFunction.getInstructions[0]?.bind (fun ins => ins.getArgs[0]?) with
    | none => Except.error Error.undefined_behaviour
    | some arg =>
      Except.ok (writeUserFlag (stream ++ " = " ++ arg.toString ++ " AutoReadOnly")
        prop.getUserFlags pex)
  else Except.ok (writeUserFlag stream prop.getUserFlags pex)

/-- The function `PscCoder::writeProperty`. -/
def writeProperty (env : Env) (self : PscCoder) (i : Nat) (prop : Pex.Property)
    (object : Pex.Object) (pex : Pex.Binary) (out : Out) : Res :=
  let noState := pex.getStringTable.findIdentifier ""
  match writeProperty_decl env i prop object pex with
  | Except.error e => Res.throw e out
  | Except.ok stream =>
    let out : Out := { lines := out.lines ++ [stream], properties := out.properties ++ [prop] }
    let out := writeDocString env i prop.getDocString out
    if prop.hasAutoVar = false ∧ isPropAutoReadOnly prop = false then
      ((if prop.isReadable = true then
          writeFunction env self (i + 1) prop.getReadFunction object pex
            (pex.getDebugInfo.getFunctionInfo object.getName noState prop.getName
              Pex.DebugInfo.FunctionType.Getter) "Get" out
        else Res.ok out).andThen (fun out =>
          if prop.isWritable = true then
            writeFunction env self (i + 1) prop.getWriteFunction object pex
              (pex.getDebugInfo.getFunctionInfo object.getName noState prop.getName
                Pex.DebugInfo.FunctionType.Setter) "Set" out
          else Res.ok out)).andThen (fun out =>
            Res.ok (write out (indent env i ++ "EndProperty")))
    else Res.ok out

/-- The message of the exception `writeProperties` throws for a name of the debug info. -/
def propertyNotFound (propName : Pex.StringTable.Index) : Error :=
  Error.runtime_error ("Unable to locate the property by the name of '" ++ propName.asString ++
    "' referenced in the debug info")

/-- Lines 367 to 379 of `writeProperties`: the properties named by one group, in the order of
the names; a name no property carries throws. -/
def writeProperties_names (env : Env) (self : PscCoder) (propertyIndent : Nat)
    (object : Pex.Object) (pex : Pex.Binary) (names : List Pex.StringTable.Index) (out : Out) :
    Res :=
  forEach names
    (fun propName out =>
      match object.getProperties.find? (fun prop => prop.getName.eq propName) with
      | some prop => writeProperty env self propertyIndent prop object pex out
      | none => Res.throw (propertyNotFound propName) out)
    out

/-- The body of the loop of `writeProperties` over the property groups (lines 356 to 385). -/
def writeProperties_group (env : Env) (self : PscCoder) (object : Pex.Object) (pex : Pex.Binary)
    (propGroup : Pex.DebugInfo.PropertyGroup) (out : Out) : Res :=
  if propGroup.getObjectName.eq object.getName = true then
    if propGroup.getGroupName.asString ≠ "" then
      (writeProperties_names env self 1 object pex propGroup.getNames
        (writeDocString env 0 propGroup.getDocString
          (write out (writeUserFlag (indent env 0 ++ "Group " ++ propGroup.getGroupName.asString)
            propGroup.getUserFlags pex)))).andThen
        (fun out => Res.ok (write (write out (indent env 0 ++ "EndGroup")) ""))
    else writeProperties_names env self 0 object pex propGroup.getNames out
  else Res.ok out

/-- The number `totalProperties` of `writeProperties`: the names the groups of the object list. -/
def totalProperties (object : Pex.Object) (pex : Pex.Binary) : Nat :=
  pex.getDebugInfo.getPropertyGroups.foldl
    (fun total propGroup =>
      if propGroup.getObjectName.eq object.getName = true then total + propGroup.getNames.length
      else total)
    0

/-- The function `PscCoder::writeProperties`. -/
def writeProperties (env : Env) (self : PscCoder) (object : Pex.Object) (pex : Pex.Binary)
    (out : Out) : Res :=
  if pex.getDebugInfo.getPropertyGroups.length ≠ 0 ∧
      totalProperties object pex = object.getProperties.length then
    forEach pex.getDebugInfo.getPropertyGroups (writeProperties_group env self object pex) out
  else
    forEach object.getProperties (fun prop out => writeProperty env self 0 prop object pex out) out

/-! ### `getFunctionToWrite` -/

/-- The call `s.starts_with(p)`. -/
def starts_with (s p : String) : Bool := p.data.isPrefixOf s.data

/-- The call `s.ends_with(p)`. -/
def ends_with (s p : String) : Bool := p.data.isSuffixOf s.data

/-- The struct `PscCoder::FunctionToWrite`. The members of scalar type have no initialiser:
`none` is a member that has not been assigned. -/
structure FunctionToWrite where
  skipped : Option Bool
  isEvent : Option Bool
  debugInfo : Option Pex.DebugInfo.FunctionInfo
  name : Pex.StringTable.Index
  precedingComment : String
  nameAsWritten : String
  declLine : String
  docString : String
  BodyLines : List String
  bodyStartLine : Option Nat
  minimumStartingLine : Option Nat
  propsInUse : List Pex.StringTable.Index
  varsInUse : List Pex.StringTable.Index
deriving DecidableEq, Repr

/-- The declaration `FunctionToWrite func;`: strings and vectors empty, the name an index that is
not valid, the scalars not assigned. -/
def FunctionToWrite.new : FunctionToWrite :=
  { skipped := none, isEvent := none, debugInfo := none, name := ⟨0, "", false⟩,
    precedingComment := "", nameAsWritten := "", declLine := "", docString := "",
    BodyLines := [], bodyStartLine := none, minimumStartingLine := none,
    propsInUse := [], varsInUse := [] }

/-- The function `PscCoder::IsEvent`. For a name starting with `on` the `switch` on the script
type has no case for `Unknown`: the table read is then a pointer without value (`none`). -/
def IsEvent (env : Env) (scriptType : Pex.Binary.ScriptType) (functionName : String) :
    Option Bool :=
  if functionName.length > 2 ∧ _stricmp (substr functionName 0 2) "on" = 0 then
    match scriptType with
    | Pex.Binary.ScriptType.SkyrimScript =>
      some (decide (str_to_lower functionName ∈ env.Skyrim_EventNamesLowerCase))
    | Pex.Binary.ScriptType.Fallout4Script =>
      some (decide (str_to_lower functionName ∈ env.Fallout4_EventNamesLowerCase))
    | Pex.Binary.ScriptType.StarfieldScript =>
      some (decide (str_to_lower functionName ∈ env.Starfield_EventNamesLowerCase))
    | Pex.Binary.ScriptType.Unknown => none
  else some false

/-- Lines 945 to 964 of `getFunctionToWrite`: the name the function is written under and whether
it is an event; `none` when `IsEvent` or the `::remote_` rewriting has no defined behaviour. -/
def getFunctionToWrite_name (env : Env) (function : Pex.Function) (pex : Pex.Binary)
    (name : String) : Option (String × Bool) :=
  let functionName := if name = "" then function.getName.asString else name
  match IsEvent env pex.getGameType functionName with
  | none => none
  | some isEvent =>
    if functionName.length > 9 ∧ _stricmp (substr functionName 0 9) "::remote_" = 0 then
      match function.getParams with
      | [] => none
      | param :: _ =>
        if param.getTypeName.asString.length < (substrFrom functionName 9).length then
          some (String.mk ((substrFrom functionName 9).data.set
            param.getTypeName.asString.length '.'), true)
        else none
    else some (functionName, isEvent)

/-- Lines 1036 to 1061 of `getFunctionToWrite` (639 to 666 of `writeFunction`): the loop over the
identifiers in use, which fills `propsInUse` and `varsInUse`. -/
def getFunctionToWrite_ids (object : Pex.Object) (ids_in_use : List Pex.StringTable.Index)
    (func : FunctionToWrite) : FunctionToWrite :=
  ids_in_use.foldl
    (fun func id =>
      if id.isValid = true then
        if id.asString = "self" then func
        else if starts_with id.asString "::" = true ∧ ends_with id.asString "_var" = true then
          object.getProperties.foldl
            (fun func prop =>
              if prop.getAutoVarName.eq id = true then
                { func with propsInUse := func.propsInUse ++ [prop.getName] }
              else func)
            func
        else
          object.getVariables.foldl
            (fun func var =>
              if var.getName.eq id = true then
                { func with varsInUse := func.varsInUse ++ [id] }
              else func)
            func
      else func)
    func

/-- Lines 1069 to 1087 of `getFunctionToWrite`: the body line of index `index` as it is stored;
an empty line is stored empty, any other line indented. -/
def getFunctionToWrite_line (env : Env) (self : PscCoder) (i : Nat) (decomp : PscDecompiler)
    (index : Nat) (line : String) : String :=
  let line :=
    if self.m_PrintDebugLineNo = true ∧ decomp.getLineMap ≠ [] then
      if (lineMapAt decomp.getLineMap index).length > 0 then
        appendLineNumbers (line ++ " ; #DEBUG_LINE_NO:") 0 (lineMapAt decomp.getLineMap index)
      else line
    else line
  if line = "" then "" else indent env (i + 1) ++ line

/-- Lines 1035 to 1093 of `getFunctionToWrite`: the identifiers in use, the declaration, the
docstring, the body lines and the first line number. The pointer `functionInfo` is read without a
test: `none` has no defined behaviour. -/
def getFunctionToWrite_body (env : Env) (self : PscCoder) (i : Nat) (function : Pex.Function)
    (object : Pex.Object) (pex : Pex.Binary)
    (functionInfo : Option Pex.DebugInfo.FunctionInfo) (stream : String)
    (decomp : PscDecompiler) (func : FunctionToWrite) : Except Error FunctionToWrite :=
  let func := getFunctionToWrite_ids object decomp.getIdsInUse func
  let func := { func with
    declLine := writeUserFlag stream function.getUserFlags pex,
    docString := indent env i ++ "\x7b " ++ function.getDocString.asString ++ " \x7d",
    BodyLines := func.BodyLines ++
      decomp.lines.enum.map (fun p => getFunctionToWrite_line env self i decomp p.1 p.2) }
  match functionInfo with
  | none => Except.error Error.undefined_behaviour
  | some info =>
    match info.getLineNumbers with
    | [] => Except.ok func
    | front :: _ => Except.ok { func with bodyStartLine := some front }

/-- The function `PscCoder::getFunctionToWrite`. -/
def getFunctionToWrite (env : Env) (self : PscCoder) (i : Nat) (function : Pex.Function)
    (object : Pex.Object) (pex : Pex.Binary)
    (functionInfo : Option Pex.DebugInfo.FunctionInfo) (name : String) :
    Except Error FunctionToWrite :=
  match getFunctionToWrite_name env function pex name with
  | none => Except.error Error.undefined_behaviour
  | some (functionName, isEvent) =>
    let func : FunctionToWrite :=
      { FunctionToWrite.new with
        name := function.getName, debugInfo := functionInfo, isEvent := some isEvent,
        nameAsWritten := functionName }
    if isCompilerGeneratedFunc functionName object pex.getGameType = true then
      Except.ok { func with
        skipped := some true,
        precedingComment :=
          indent env i ++ "; Skipped compiler generated debug function " ++ functionName }
    else
      let stream := writeFunction_decl env i function functionName isEvent
      if function.isNative = true then
        Except.ok { func with
          BodyLines := func.BodyLines ++
            [writeUserFlag (stream ++ " Native") function.getUserFlags pex],
          docString := indent env i ++ "\x7b " ++ function.getDocString.asString ++ " \x7d" }
      else
        match env.decompile function object functionInfo with
        | Except.error e => Except.error e
        | Except.ok decomp =>
          if decomp.isDebugFunction = true then
            if (fixupFunction object pex functionName decomp).1 = true then
              getFunctionToWrite_body env self i function object pex functionInfo stream
                (fixupFunction object pex functionName decomp).2
                { func with
                  precedingComment :=
                    indent env i ++ "; Fixup hacks for debug-only function: " ++ functionName }
            else if self.m_WriteDebugFuncs = true then
              getFunctionToWrite_body env self i function object pex functionInfo stream
                (fixupFunction object pex functionName decomp).2
                { func with
                  precedingComment :=
                    indent env i ++ "; WARNING: possibly inoperative debug function " ++
                      functionName ++ "" }
            else
              Except.ok { func with
                skipped := some true,
                precedingComment :=
                  indent env i ++ "; Skipped inoperative debug function " ++ functionName }
          else if _stricmp functionName "GotoState" = 0 ∨ _stricmp functionName "GetState" = 0 then
            getFunctionToWrite_body env self i function object pex functionInfo stream
              (fixupFunction object pex functionName decomp).2
              { func with
                precedingComment :=
                  indent env i ++ "; Fixup hacks for native ScriptObject::GotoState/GetState" }
          else
            getFunctionToWrite_body env self i function object pex functionInfo stream decomp func

/-! ### `writeVariables` -/

/-- The function `PscCoder::writeVariables`. -/
def writeVariables (env : Env) (self : PscCoder) (object : Pex.Object) (pex : Pex.Binary)
    (out : Out) : Out :=
  object.getVariables.foldl
    (fun out var =>
      let name := var.getName.asString
      let compilerGenerated :=
        decide (name.length > 2) && name.data[0]? == some ':' && name.data[1]? == some ':'
      let stream := indent env 0
      let stream := if compilerGenerated = true then stream ++ "; " else stream
      let stream := stream ++ mapType var.getTypeName.asString ++ " " ++ name
      let initialValue := var.getDefaultValue
      let stream :=
        if initialValue.getType ≠ Pex.ValueType.None then
          stream ++ " = " ++ initialValue.toString
        else stream
      let stream := writeUserFlag stream var.getUserFlags pex
      let stream := if var.getConstFlag = true then stream ++ " Const" else stream
      if self.m_CommentAsm = true ∨ compilerGenerated = false then write out stream else out)
    out

/-- The function `PscCoder::makeVariableToWrite`. -/
def makeVariableToWrite (env : Env) (self : PscCoder) (var : Pex.Variable) (pex : Pex.Binary) :
    String :=
  let name := var.getName.asString
  let compilerGenerated :=
    decide (name.length > 2) && name.data[0]? == some ':' && name.data[1]? == some ':'
  let stream := indent env 0
  let stream := if compilerGenerated = true then stream ++ "; " else stream
  let stream := stream ++ mapType var.getTypeName.asString ++ " " ++ name
  let initialValue := var.getDefaultValue
  let stream :=
    if initialValue.getType ≠ Pex.ValueType.None then
      stream ++ " = " ++ initialValue.toString
    else stream
  let stream := writeUserFlag stream var.getUserFlags pex
  let stream := if var.getConstFlag = true then stream ++ " Const" else stream
  if self.m_CommentAsm = true ∨ compilerGenerated = false then stream else ""

/-! ### The prediction of line counts

The counts are `size_t`; they are sums of lengths of strings and lists and of line numbers of 16
bits, so they are taken as natural numbers. -/

/-- The function `PscCoder::countDocStringLineNos`, of the docstring of the item. -/
def countDocStringLineNos (docString : Pex.StringTable.Index) : Nat :=
  if docString.asString = "" then 0
  else docString.asString.data.count '\n' + 1

/-- The function `PscCoder::countPropertyGroupLineNos`. -/
def countPropertyGroupLineNos (_propGroup : Pex.DebugInfo.PropertyGroup) (_object : Pex.Object)
    (_pex : Pex.Binary) (_blank_lines : Bool) : Nat :=
  0

/-- The call `std::max_element(first, last)` on a vector that is not empty: the position of the
first element no other element is larger than (the candidate is replaced when it is smaller than
the element reached). -/
def max_element (xs : List Nat) : Nat :=
  (xs.enum.foldl
    (fun (largest : Nat × Nat) (first : Nat × Nat) =>
      if largest.2 < first.2 then first else largest)
    (0, xs.headD 0)).1

/-- The function `PscCoder::countFunctionLineNos`. -/
def countFunctionLineNos (function : Pex.Function) (_object : Pex.Object) (_pex : Pex.Binary)
    (functionInfo : Option Pex.DebugInfo.FunctionInfo) (_blank_lines : Bool) : Nat :=
  let lineNumbers := 2 + countDocStringLineNos function.getDocString
  match functionInfo with
  | none => lineNumbers
  | some info =>
    let debugLineNos := info.getLineNumbers
    if debugLineNos = [] then lineNumbers
    else
      let max := max_element debugLineNos
      let lineNumbers := lineNumbers + debugLineNos.getD max 0
      lineNumbers + (debugLineNos.length - (max + 1))

/-- The function `PscCoder::countPropertyLineNos`: the count is returned for a property written
on one line, and for the others it is computed and `0` is returned. -/
def countPropertyLineNos (prop : Pex.Property) (object : Pex.Object) (pex : Pex.Binary)
    (blank_lines : Bool) : Nat :=
  let noState := pex.getStringTable.findIdentifier ""
  let lineNumbers := 1 + countDocStringLineNos prop.getDocString
  if isPropAutoReadOnly prop = true ∨ prop.hasAutoVar = true then lineNumbers
  else
    let lineNumbers := lineNumbers + 1
    let lineNumbers :=
      if prop.isReadable = true then
        lineNumbers + countFunctionLineNos prop.getReadFunction object pex
          (pex.getDebugInfo.getFunctionInfo object.getName noState prop.getName
            Pex.DebugInfo.FunctionType.Getter) blank_lines
      else lineNumbers
    let lineNumbers :=
      if prop.isWritable = true then
        lineNumbers + countFunctionLineNos prop.getReadFunction object pex
          (pex.getDebugInfo.getFunctionInfo object.getName noState prop.getName
            Pex.DebugInfo.FunctionType.Setter) blank_lines
      else lineNumbers
    Function.const Nat 0 lineNumbers

/-- The function `PscCoder::countPropertiesLineNos`: the sum over the property groups and the
properties is computed and `0` is returned. -/
def countPropertiesLineNos (object : Pex.Object) (pex : Pex.Binary) (blank_lines : Bool) : Nat :=
  let lineNumbers := 0
  let lineNumbers :=
    pex.getDebugInfo.getPropertyGroups.foldl
      (fun lineNumbers propgroup =>
        let lineNumbers := lineNumbers + (2 + (if blank_lines = true then 1 else 0))
        lineNumbers + (countDocStringLineNos propgroup.getDocString +
          (if blank_lines = true then 1 else 0)))
      lineNumbers
  let lineNumbers :=
    object.getProperties.foldl
      (fun lineNumbers prop =>
        let propcount := countPropertyLineNos prop object pex blank_lines
        let lineNumbers :=
          if propcount > 1 ∧ blank_lines = true then lineNumbers + 1 else lineNumbers
        lineNumbers + propcount)
      lineNumbers
  Function.const Nat 0 lineNumbers

/-- The loop of `PscCoder::countStateLineNos` over the functions of the state without name: the
function info is read through its pointer, `none` when the pointer is null. -/
def countStateLineNos_loose (object : Pex.Object) (pex : Pex.Binary) (state : Pex.State)
    (blank_lines : Bool) : List Pex.Function → Nat → Option Nat
  | [], lineNumbers => some lineNumbers
  | func :: rest, lineNumbers =>
    match pex.getDebugInfo.getFunctionInfo object.getName state.getName func.getName
        Pex.DebugInfo.defaultFunctionType with
    | none => none
    | some info =>
      if info.getFunctionType = Pex.DebugInfo.FunctionType.Getter ∨
          info.getFunctionType = Pex.DebugInfo.FunctionType.Setter then
        countStateLineNos_loose object pex state blank_lines rest lineNumbers
      else
        countStateLineNos_loose object pex state blank_lines rest
          (lineNumbers + countFunctionLineNos func object pex (some info) blank_lines)

/-- The function `PscCoder::countStateLineNos`; `none` when a null pointer is read. -/
def countStateLineNos (state : Pex.State) (object : Pex.Object) (pex : Pex.Binary)
    (blank_lines : Bool) : Option Nat :=
  let lineNumbers := 2
  let name := state.getName.asString
  if name = "" then
    countStateLineNos_loose object pex state blank_lines state.getFunctions lineNumbers
  else
    some (state.getFunctions.foldl
      (fun lineNumbers func =>
        lineNumbers + countFunctionLineNos func object pex
          (pex.getDebugInfo.getFunctionInfo object.getName state.getName func.getName
            Pex.DebugInfo.defaultFunctionType) blank_lines)
      lineNumbers)

/-- The loop of `PscCoder::countStatesLineNos` over the states of the object. -/
def countStatesLineNos_loop (object : Pex.Object) (pex : Pex.Binary) (blank_lines : Bool) :
    List Pex.State → Nat → Option Nat
  | [], lineNumbers => some lineNumbers
  | state :: rest, lineNumbers =>
    match countStateLineNos state object pex blank_lines with
    | none => none
    | some count =>
      countStatesLineNos_loop object pex blank_lines rest
        (lineNumbers + (count + (if blank_lines = true then 1 else 0)))

/-- The function `PscCoder::countStatesLineNos`: the sum over the states is computed and `0` is
returned; `none` when a null pointer is read. -/
def countStatesLineNos (object : Pex.Object) (pex : Pex.Binary) (blank_lines : Bool) :
    Option Nat :=
  (countStatesLineNos_loop object pex blank_lines object.getStates 0).map (Function.const Nat 0)

/-- The struct `PscCoder::StateToWrite`. -/
structure StateToWrite where
  name : Pex.StringTable.Index
  declLine : String
  funcs : List FunctionToWrite

/-- The function `PscCoder::StateToWrite::getLineCount`. -/
def StateToWrite.getLineCount (self : StateToWrite) (_blank_lines : Bool) : Nat :=
  if self.name.asString = "" then 0
  else
    let preceding := if self.name.asString = "" then 0 else 2
    Function.const Nat 0 preceding

/-! ### `Pex::Binary::sort` -/

/-- The mixin `Pex::NamedItem`: what has a name. -/
class Pex.NamedItem (α : Type) where
  getName : α → Pex.StringTable.Index

instance : Pex.NamedItem Pex.Object := ⟨Pex.Object.getName⟩

instance : Pex.NamedItem Pex.UserFlag := ⟨Pex.UserFlag.getName⟩

instance : Pex.NamedItem Pex.Guard := ⟨Pex.Guard.getName⟩

instance : Pex.NamedItem Pex.Property := ⟨Pex.Property.getName⟩

instance : Pex.NamedItem Pex.State := ⟨Pex.State.getName⟩

instance : Pex.NamedItem Pex.StructInfo := ⟨Pex.StructInfo.getName⟩

instance : Pex.NamedItem Pex.Variable := ⟨Pex.Variable.getName⟩

instance : Pex.NamedItem Pex.Function := ⟨Pex.Function.getName⟩

/-- The function `namedLessThan` of Binary.cpp; `operator<` of `std::string` compares
character by character, a proper start of a string being smaller than the string. -/
def namedLessThan {α : Type} [Pex.NamedItem α] (a b : α) : Bool :=
  decide ((Pex.NamedItem.getName a).asString.data < (Pex.NamedItem.getName b).asString.data)

/-- The function `nameIdLessThan` of Binary.cpp. -/
def nameIdLessThan {α : Type} [Pex.NamedItem α] (a b : α) : Bool :=
  decide ((Pex.NamedItem.getName a).asIndex < (Pex.NamedItem.getName b).asIndex)

/-- The call `std::sort(first, last, comp)`: the elements in an order in which no element is
smaller (by `comp`) than one before it. `std::sort` leaves the order of equivalent elements open;
here they keep the order they had. -/
def std_sort {α : Type} (comp : α → α → Bool) (xs : List α) : List α :=
  xs.insertionSort (fun a b => comp b a = false)

/-- The variable `sortFunc` of `Binary::sort`. -/
def Pex.Binary.sortFunc (sortById : Bool) {α : Type} [Pex.NamedItem α] (a b : α) : Bool :=
  if sortById = true then nameIdLessThan a b else namedLessThan a b

/-- The lambda of `Binary::sort` that compares two functions of the state `state` of `obj`. -/
def Pex.Binary.sort_compare (self : Pex.Binary) (sortById : Bool) (obj : Pex.Object)
    (state : Pex.State) (a b : Pex.Function) : Bool :=
  let linesA := self.getDebugInfo.getFunctionInfo obj.getName state.getName a.getName
    Pex.DebugInfo.defaultFunctionType
  let lA :=
    match linesA with
    | none => 0
    | some info => if info.getLineNumbers = [] then 0 else info.getLineNumbers.headD 0
  let linesB := self.getDebugInfo.getFunctionInfo obj.getName state.getName b.getName
    Pex.DebugInfo.defaultFunctionType
  let lB :=
    match linesB with
    | none => 0
    | some info => if info.getLineNumbers = [] then 0 else info.getLineNumbers.headD 0
  if lA = lB then Pex.Binary.sortFunc sortById a b
  else decide (lA < lB)

/-- The function `Pex::Binary::sort`: the binary after the call. -/
def Pex.Binary.sort (self : Pex.Binary) (sortById : Bool) : Pex.Binary :=
  let m_Objects := std_sort (Pex.Binary.sortFunc sortById) self.getObjects
  let m_UserFlags := std_sort (Pex.Binary.sortFunc sortById) self.getUserFlags
  let m_Objects := m_Objects.map (fun obj =>
    let obj : Pex.Object :=
      { obj with
        getGuards := std_sort (Pex.Binary.sortFunc sortById) obj.getGuards,
        getProperties := std_sort (Pex.Binary.sortFunc sortById) obj.getProperties,
        getStates := std_sort (Pex.Binary.sortFunc sortById) obj.getStates,
        getStructInfos := std_sort (Pex.Binary.sortFunc sortById) obj.getStructInfos,
        getVariables := std_sort (Pex.Binary.sortFunc sortById) obj.getVariables }
    { obj with
      getStates := obj.getStates.map (fun state =>
        { state with
          getFunctions :=
            std_sort (self.sort_compare sortById obj state) state.getFunctions }) })
  { self with getObjects := m_Objects, getUserFlags := m_UserFlags }

/-! ### Guard reconstruction

`PscDecompiler::rebuildLocks`, `RemoveUnlocksFromBody` and `LiftLockBody` are declared in
PscDecompiler.hpp; PscDecompiler.cpp and the classes of `Node/` are not under src/. -/

/-- Modelled from the spec: the children of a scope of the syntax tree ("each node owns its
children exclusively"), as far as the guard reconstruction distinguishes the nodes: a lock
acquire and a lock release of a lock target, a `Guard` node "referencing the lock target", the
nodes with bodies (`If` with its `Else` arm, `While`), and any other statement. Each constructor
is one node followed by the nodes after it in the same scope. -/
inductive Node.Scope
  | done
  | statement (text : String) (next : Node.Scope)
  | lock (target : Nat) (next : Node.Scope)
  | unlock (target : Nat) (next : Node.Scope)
  | guard (target : Nat) (body : Node.Scope) (next : Node.Scope)
  | ifElse (condition : String) (body elseBody : Node.Scope) (next : Node.Scope)
  | whileLoop (condition : String) (body : Node.Scope) (next : Node.Scope)
deriving DecidableEq, Repr

/-- Modelled from the spec: `PscDecompiler::RemoveUnlocksFromBody` (PscDecompiler.cpp is not under
src/): "all paired release instructions nested within the guarded range are removed from the
body". -/
def RemoveUnlocksFromBody : Node.Scope → Nat → Node.Scope
  | .done, _ => .done
  | .statement text next, matchingLock =>
    .statement text (RemoveUnlocksFromBody next matchingLock)
  | .lock target next, matchingLock => .lock target (RemoveUnlocksFromBody next matchingLock)
  | .unlock target next, matchingLock =>
    if target = matchingLock then RemoveUnlocksFromBody next matchingLock
    else .unlock target (RemoveUnlocksFromBody next matchingLock)
  | .guard target body next, matchingLock =>
    .guard target (RemoveUnlocksFromBody body matchingLock)
      (RemoveUnlocksFromBody next matchingLock)
  | .ifElse condition body elseBody next, matchingLock =>
    .ifElse condition (RemoveUnlocksFromBody body matchingLock)
      (RemoveUnlocksFromBody elseBody matchingLock) (RemoveUnlocksFromBody next matchingLock)
  | .whileLoop condition body next, matchingLock =>
    .whileLoop condition (RemoveUnlocksFromBody body matchingLock)
      (RemoveUnlocksFromBody next matchingLock)

/-- Modelled from the spec: the "matched lock-acquire and lock-release instruction pairs
surrounding a block range": the nodes that follow an acquire of `target` in its scope, split at
the first release of `target` in that scope into the block range and the nodes after the
release; `none` when the scope has no such release. -/
def matchingUnlock : Node.Scope → Nat → Option (Node.Scope × Node.Scope)
  | .done, _ => none
  | .statement text next, target =>
    (matchingUnlock next target).map (fun p => (.statement text p.1, p.2))
  | .lock t next, target => (matchingUnlock next target).map (fun p => (.lock t p.1, p.2))
  | .unlock t next, target =>
    if t = target then some (.done, next)
    else (matchingUnlock next target).map (fun p => (.unlock t p.1, p.2))
  | .guard t body next, target =>
    (matchingUnlock next target).map (fun p => (.guard t body p.1, p.2))
  | .ifElse condition body elseBody next, target =>
    (matchingUnlock next target).map (fun p => (.ifElse condition body elseBody p.1, p.2))
  | .whileLoop condition body next, target =>
    (matchingUnlock next target).map (fun p => (.whileLoop condition body p.1, p.2))

/-- Modelled from the spec: `PscDecompiler::LiftLockBody` (PscDecompiler.cpp is not under src/):
it "lifts the block into a `Guard` node referencing the lock target", the releases nested in the
block being removed; an acquire without matching release stays as it is. `following` are the
nodes after the acquire in its scope. -/
def LiftLockBody (target : Nat) (following : Node.Scope) : Node.Scope :=
  match matchingUnlock following target with
  | some (body, next) => .guard target (RemoveUnlocksFromBody body target) next
  | none => .lock target following

/-- Modelled from the spec: `PscDecompiler::rebuildLocks` (PscDecompiler.cpp is not under src/),
the Guard/Lock Reconstructor: every acquire with a matching release in its scope, in the bodies
of the nodes of the scope too, is lifted into a `Guard` node. -/
def rebuildLocks : Node.Scope → Node.Scope
  | .done => .done
  | .statement text next => .statement text (rebuildLocks next)
  | .lock target next => LiftLockBody target (rebuildLocks next)
  | .unlock target next => .unlock target (rebuildLocks next)
  | .guard target body next => .guard target (rebuildLocks body) (rebuildLocks next)
  | .ifElse condition body elseBody next =>
    .ifElse condition (rebuildLocks body) (rebuildLocks elseBody) (rebuildLocks next)
  | .whileLoop condition body next => .whileLoop condition (rebuildLocks body) (rebuildLocks next)

/-! ### `makePropertyToWrite` and the indexings of the getter -/

/-- The function `PscCoder::isPropAutoReadOnly` with each `operator[]` made explicit: `&&`
evaluates its right operand only when the left one is true, and `none` is an index that is out
of range. -/
def isPropAutoReadOnly_indexed (prop : Pex.Property) : Option Bool :=
  if prop.hasAutoVar = true then some false
  else if prop.isReadable = false then some false
  else if prop.isWritable = true then some false
  else if prop.getReadFunction.getInstructions.length ≠ 1 then some false
  else
    match prop.getReadFunction.getInstructions[0]? with
    | none => none
    | some first =>
      if first.getOpCode ≠ Pex.OpCode.RETURN then some false
      else
        match prop.getReadFunction.getInstructions[0]? with
        | none => none
        | some second =>
          if second.getArgs.length ≠ 1 then some false
          else
            match prop.getReadFunction.getInstructions[0]? with
            | none => none
            | some third =>
              match third.getArgs[0]? with
              | none => none
              | some arg => some (decide (arg.getType ≠ Pex.ValueType.Identifier))

/-- The struct `PscCoder::PropertyToWrite`; the members of type `bool` have no initialiser. -/
structure PropertyToWrite where
  isAuto : Option Bool
  hasGetter : Option Bool
  hasSetter : Option Bool
  name : Pex.StringTable.Index
  docString : String
  propertyDecl : String
  getter : FunctionToWrite
  setter : FunctionToWrite
deriving DecidableEq, Repr

/-- The declaration `PropertyToWrite propToWrite;`. -/
def PropertyToWrite.new : PropertyToWrite :=
  { isAuto := none, hasGetter := none, hasSetter := none, name := ⟨0, "", false⟩,
    docString := "", propertyDecl := "", getter := FunctionToWrite.new,
    setter := FunctionToWrite.new }

/-- Lines 1261 to 1282 of `makePropertyToWrite`: the declaration of the property, or what stops
the call before it is stored. -/
def makePropertyToWrite_decl (env : Env) (i : Nat) (prop : Pex.Property) (object : Pex.Object)
    (pex : Pex.Binary) : Except Error String :=
  let stream := indent env i
  let isAutoReadOnly := isPropAutoReadOnly prop
  let stream := stream ++ mapType prop.getTypeName.asString ++ " Property " ++
    prop.getName.asString
  if prop.hasAutoVar = true then
    match Pex.findByName object.getVariables prop.getAutoVarName with
    | none => Except.error (Error.runtime_error "Auto variable for property not found")
    | some var =>
      let initialValue := var.getDefaultValue
      let stream :=
        if initialValue.getType ≠ Pex.ValueType.None then
          stream ++ " = " ++ initialValue.toString
        else stream
      let stream := stream ++ " Auto"
      let stream := writeUserFlag stream var.getUserFlags pex
      let stream := if var.getConstFlag = true then stream ++ " Const" else stream
      Except.ok (writeUserFlag stream prop.getUserFlags pex)
  else if isAutoReadOnly = true then
    match prop.getReadFunction.getInstructions[0]? with
    | none => Except.error Error.undefined_behaviour
    | some instruction =>
      match instruction.getArgs[0]? with
      | none => Except.error Error.undefined_behaviour
      | some arg =>
        let stream := stream ++ " = " ++ arg.toString
        let stream := stream ++ " AutoReadOnly"
        Except.ok (writeUserFlag stream prop.getUserFlags pex)
  else Except.ok (writeUserFlag stream prop.getUserFlags pex)

/-- The function `PscCoder::makePropertyToWrite`. -/
def makePropertyToWrite (env : Env) (self : PscCoder) (i : Nat) (prop : Pex.Property)
    (object : Pex.Object) (pex : Pex.Binary) : Except Error PropertyToWrite :=
  let propToWrite : PropertyToWrite := { PropertyToWrite.new with name := prop.getName }
  let noState := pex.getStringTable.findIdentifier ""
  let isAutoReadOnly := isPropAutoReadOnly prop
  match makePropertyToWrite_decl env i prop object pex with
  | Except.error e => Except.error e
  | Except.ok stream =>
    let propToWrite := { propToWrite with
      propertyDecl := stream,
      docString := indent env i ++ "\x7b " ++ prop.getDocString.asString ++ " \x7d" }
    if prop.hasAutoVar = false ∧ isAutoReadOnly = false then
      let withGetter : Except Error PropertyToWrite :=
        if prop.isReadable = true then
          match getFunctionToWrite env self (i + 1) prop.getReadFunction object pex
              (pex.getDebugInfo.getFunctionInfo object.getName noState prop.getName
                Pex.DebugInfo.FunctionType.Getter) "Get" with
          | Except.error e => Except.error e
          | Except.ok getter =>
            Except.ok { propToWrite with hasGetter := some true, getter := getter }
        else Except.ok propToWrite
      match withGetter with
      | Except.error e => Except.error e
      | Except.ok propToWrite =>
        if prop.isWritable = true then
          match getFunctionToWrite env self (i + 1) prop.getWriteFunction object pex
              (pex.getDebugInfo.getFunctionInfo object.getName noState prop.getName
                Pex.DebugInfo.FunctionType.Setter) "Set" with
          | Except.error e => Except.error e
          | Except.ok setter =>
            Except.ok { propToWrite with hasSetter := some true, setter := setter }
        else Except.ok propToWrite
    else Except.ok propToWrite

/-! ## Predicates of the specification -/

/-- The line contains a substring of the form `::temp` followed by one or more digits. -/
def ContainsTemp (line : String) : Prop :=
  ∃ pre ds post : List Char, ds ≠ [] ∧ (∀ d ∈ ds, isdigit d = true) ∧
    line.data = pre ++ "::temp".data ++ ds ++ post

/-- The two strings are equal ignoring the case of ASCII letters. -/
def EqIgnoreCase (a b : String) : Prop := a.data.map tolower = b.data.map tolower

/-- The characters a match of `tempRegex` begins with: `::temp` and one digit. -/
def IsTempChar (c : Char) : Prop := c = ':' ∨ c = 't' ∨ c = 'e' ∨ c = 'm' ∨ c = 'p' ∨ isdigit c = true

/-- The text the allow-list of `fixupFunction` puts in place of a dangling temporary. -/
def fixupText (functionName : String) : String :=
  if functionName = "UpdateState" then "None"
  else if functionName = "MakeQuestNameSave" then "questName"
  else "false"

/-- The lines `writeDocString` writes: one line for a docstring that is not empty. -/
def docStringLines (env : Env) (i : Nat) (docString : Pex.StringTable.Index) : List String :=
  if docString.asString ≠ "" then [indent env i ++ "\x7b " ++ docString.asString ++ " \x7d"] else []

/-- The lines `writeFunction` writes for a function that is not native, after the comment that may
precede them: the declaration with its user flags, the docstring, the body lines of `decomp`, and
the closing line matching the keyword of the declaration. -/
def functionLines (env : Env) (self : PscCoder) (i : Nat) (function : Pex.Function)
    (pex : Pex.Binary) (functionName : String) (isEvent : Bool) (decomp : PscDecompiler) :
    List String :=
  [writeUserFlag (writeFunction_decl env i function functionName isEvent)
      function.getUserFlags pex] ++
    docStringLines env i function.getDocString ++
    writeFunction_bodyLines env self i decomp ++
    [indent env i ++ (if isEvent then "EndEvent" else "EndFunction")]

/-- The struct orders of the debug info `writeStructs` processes for a struct: those of the same
object and struct, up to the first of them whose number of names differs from the number of
members of the struct (there the loop over the struct orders is left). -/
def processedOrders (object : Pex.Object) (sInfo : Pex.StructInfo) (pex : Pex.Binary) :
    List Pex.DebugInfo.StructOrder :=
  (pex.getDebugInfo.getStructOrders.filter (fun sOrder =>
      sOrder.getObjectName.eq object.getName && sOrder.getOrderName.eq sInfo.getName)).takeWhile
    (fun sOrder => decide (sOrder.getNames.length = sInfo.getMembers.length))

/-- No member of the struct carries the name. -/
def memberMissing (sInfo : Pex.StructInfo) (orderName : Pex.StringTable.Index) : Bool :=
  !sInfo.getMembers.any (fun member => member.getName.eq orderName)

/-- The first name, in the order of processing (struct by struct, struct order by struct order,
name by name), that a processed struct order lists and no member of its struct carries. -/
def firstMissingMember (object : Pex.Object) (pex : Pex.Binary) : Option Pex.StringTable.Index :=
  object.getStructInfos.findSome? (fun sInfo =>
    (processedOrders object sInfo pex).findSome? (fun sOrder =>
      sOrder.getNames.find? (memberMissing sInfo)))

/-- The names the property groups of the object list, in the order `writeProperties` goes through
them: group by group, name by name. -/
def groupNames (object : Pex.Object) (pex : Pex.Binary) : List Pex.StringTable.Index :=
  (pex.getDebugInfo.getPropertyGroups.filter (fun propGroup =>
    propGroup.getObjectName.eq object.getName)).flatMap (fun propGroup => propGroup.getNames)

/-- No property of the object carries the name. -/
def propertyMissing (object : Pex.Object) (propName : Pex.StringTable.Index) : Bool :=
  !object.getProperties.any (fun prop => prop.getName.eq propName)

/-- The exception `writeFunction` ends with; it depends neither on the indentation nor on what
has been written. -/
def writeFunction_error (env : Env) (function : Pex.Function) (object : Pex.Object)
    (pex : Pex.Binary) (functionInfo : Option Pex.DebugInfo.FunctionInfo) (name : String) :
    Option Error :=
  match writeFunction_name env function pex name with
  | none => some Error.undefined_behaviour
  | some (functionName, _) =>
    if isCompilerGeneratedFunc functionName object pex.getGameType = true then none
    else if function.isNative = true then none
    else
      match env.decompile function object functionInfo with
      | Except.error e => some e
      | Except.ok _ => none

/-- The exception `writeProperty` ends with; it depends neither on the indentation nor on what
has been written. -/
def writeProperty_error (env : Env) (prop : Pex.Property) (object : Pex.Object)
    (pex : Pex.Binary) : Option Error :=
  match writeProperty_decl env 0 prop object pex with
  | Except.error e => some e
  | Except.ok _ =>
    if prop.hasAutoVar = false ∧ isPropAutoReadOnly prop = false then
      (if prop.isReadable = true then
        writeFunction_error env prop.getReadFunction object pex
          (pex.getDebugInfo.getFunctionInfo object.getName (pex.getStringTable.findIdentifier "")
            prop.getName Pex.DebugInfo.FunctionType.Getter) "Get"
      else none).or
      (if prop.isWritable = true then
        writeFunction_error env prop.getWriteFunction object pex
          (pex.getDebugInfo.getFunctionInfo object.getName (pex.getStringTable.findIdentifier "")
            prop.getName Pex.DebugInfo.FunctionType.Setter) "Set"
      else none)
    else none

/-- The exception the loop of `writeProperties` over the names of a group ends with at one name. -/
def propertyName_error (env : Env) (object : Pex.Object) (pex : Pex.Binary)
    (propName : Pex.StringTable.Index) : Option Error :=
  match object.getProperties.find? (fun prop => prop.getName.eq propName) with
  | some prop => writeProperty_error env prop object pex
  | none => some (propertyNotFound propName)

/-- The properties the loop of `writeProperties` over the names of a group writes at one name. -/
def propertyNamed (object : Pex.Object) (propName : Pex.StringTable.Index) : List Pex.Property :=
  (object.getProperties.find? (fun prop => prop.getName.eq propName)).toList

/-- The identifier is valid, is not `self` and has the form of an auto variable. -/
def IsAutoVarId (id : Pex.StringTable.Index) : Prop :=
  id.isValid = true ∧ id.asString ≠ "self" ∧
    (starts_with id.asString "::" = true ∧ ends_with id.asString "_var" = true)

/-- The identifier is valid, is not `self` and has not the form of an auto variable. -/
def IsPlainVarId (id : Pex.StringTable.Index) : Prop :=
  id.isValid = true ∧ id.asString ≠ "self" ∧
    ¬ (starts_with id.asString "::" = true ∧ ends_with id.asString "_var" = true)

instance (id : Pex.StringTable.Index) : Decidable (IsAutoVarId id) := by
  unfold IsAutoVarId; infer_instance

instance (id : Pex.StringTable.Index) : Decidable (IsPlainVarId id) := by
  unfold IsPlainVarId; infer_instance

/-- The suffix of a body line for the debug line numbers: for an entry of the line map that
exists and is not empty, the text ` ; #DEBUG_LINE_NO:` and the numbers of the entry in order with
a comma between them; for an empty or missing entry, nothing. -/
def debugLineNoSuffix (entry : Option (List Nat)) : String :=
  match entry with
  | some (n :: ns) => " ; #DEBUG_LINE_NO:" ++ String.intercalate "," ((n :: ns).map Nat.repr)
  | _ => ""

/-- The declaration line of a property whose auto variable is `var`: type, name, the initial value
of the variable if it has one, the keyword `Auto`, the flags of the variable and of the
property. -/
def autoPropertyLine (env : Env) (i : Nat) (prop : Pex.Property) (var : Pex.Variable)
    (pex : Pex.Binary) : String :=
  writeUserFlag
    ((writeUserFlag
        (indent env i ++ mapType prop.getTypeName.asString ++ " Property " ++
          prop.getName.asString ++
          (if var.getDefaultValue.getType ≠ Pex.ValueType.None then
            " = " ++ var.getDefaultValue.toString else "") ++ " Auto")
        var.getUserFlags pex) ++ (if var.getConstFlag = true then " Const" else ""))
    prop.getUserFlags pex

/-- The declaration line of a property that is `AutoReadOnly` with the literal `arg`. -/
def autoReadOnlyPropertyLine (env : Env) (i : Nat) (prop : Pex.Property) (arg : Pex.Value)
    (pex : Pex.Binary) : String :=
  writeUserFlag
    (indent env i ++ mapType prop.getTypeName.asString ++ " Property " ++
      prop.getName.asString ++ " = " ++ arg.toString ++ " AutoReadOnly")
    prop.getUserFlags pex

/-- The declaration line of a property with accessors. -/
def fullPropertyLine (env : Env) (i : Nat) (prop : Pex.Property) (pex : Pex.Binary) : String :=
  writeUserFlag
    (indent env i ++ mapType prop.getTypeName.asString ++ " Property " ++ prop.getName.asString)
    prop.getUserFlags pex

/-- The lines `writeFunction` writes for the getter of a property, at the level `i + 1`. -/
def getterLines (env : Env) (self : PscCoder) (i : Nat) (prop : Pex.Property)
    (object : Pex.Object) (pex : Pex.Binary) : List String :=
  (writeFunction env self (i + 1) prop.getReadFunction object pex
    (pex.getDebugInfo.getFunctionInfo object.getName (pex.getStringTable.findIdentifier "")
      prop.getName Pex.DebugInfo.FunctionType.Getter) "Get" emptyOut).out.lines

/-- The lines `writeFunction` writes for the setter of a property, at the level `i + 1`. -/
def setterLines (env : Env) (self : PscCoder) (i : Nat) (prop : Pex.Property)
    (object : Pex.Object) (pex : Pex.Binary) : List String :=
  (writeFunction env self (i + 1) prop.getWriteFunction object pex
    (pex.getDebugInfo.getFunctionInfo object.getName (pex.getStringTable.findIdentifier "")
      prop.getName Pex.DebugInfo.FunctionType.Setter) "Set" emptyOut).out.lines

/-- The variable is compiler generated: its name is longer than two characters and starts with
`::`. -/
def IsCompilerGeneratedVar (var : Pex.Variable) : Prop :=
  2 < var.getName.asString.length ∧ "::".data <+: var.getName.asString.data

instance (var : Pex.Variable) : Decidable (IsCompilerGeneratedVar var) := by
  unfold IsCompilerGeneratedVar; infer_instance

/-- The declaration of a variable: type, name, the initial value if there is one, the flags. -/
def variableDecl (var : Pex.Variable) (pex : Pex.Binary) : String :=
  mapType var.getTypeName.asString ++ " " ++ var.getName.asString ++
    (if var.getDefaultValue.getType ≠ Pex.ValueType.None then
      " = " ++ var.getDefaultValue.toString else "") ++
    writeUserFlag "" var.getUserFlags pex ++
    (if var.getConstFlag = true then " Const" else "")

/-- The line of a variable: its declaration, after `; ` when it is compiler generated. -/
def variableLine (var : Pex.Variable) (pex : Pex.Binary) : String :=
  (if IsCompilerGeneratedVar var then "; " else "") ++ variableDecl var pex

/-- The struct orders of the debug info for the object and the struct, in the order of the debug
info. -/
def matchingOrders (object : Pex.Object) (sInfo : Pex.StructInfo) (pex : Pex.Binary) :
    List Pex.DebugInfo.StructOrder :=
  pex.getDebugInfo.getStructOrders.filter (fun sOrder =>
    sOrder.getObjectName.eq object.getName && sOrder.getOrderName.eq sInfo.getName)

/-- The members of the struct in the order of the names: for each name the first member that
carries it. -/
def orderedMembers (sInfo : Pex.StructInfo) (names : List Pex.StringTable.Index) :
    List Pex.StructInfo.Member :=
  names.filterMap (fun orderName =>
    sInfo.getMembers.find? (fun member => member.getName.eq orderName))

/-- The lines of one member of a struct: its declaration and its docstring. -/
def memberLines (env : Env) (pex : Pex.Binary) (member : Pex.StructInfo.Member) : List String :=
  (writeStructMember env member pex emptyOut).lines

/-- The lines of a struct whose members are written in the order `written`: the members between
the lines `Struct <name>` and `EndStruct`, and an empty line. -/
def structLines (env : Env) (pex : Pex.Binary) (sInfo : Pex.StructInfo)
    (written : List Pex.StructInfo.Member) : List String :=
  ["Struct " ++ sInfo.getName.asString] ++ written.flatMap (memberLines env pex) ++
    ["EndStruct", ""]

/-- The position in the string table of the name of a member. -/
def memberKey (member : Pex.StructInfo.Member) : Nat := member.getName.asIndex

/-- Every function of a state without name of the object has a function info in the debug info:
the case in which `countStatesLineNos` reads no null pointer. -/
def LooseFunctionsHaveInfo (object : Pex.Object) (pex : Pex.Binary) : Prop :=
  ∀ state ∈ object.getStates, state.getName.asString = "" →
    ∀ func ∈ state.getFunctions,
      (pex.getDebugInfo.getFunctionInfo object.getName state.getName func.getName
        Pex.DebugInfo.defaultFunctionType).isSome = true

instance (object : Pex.Object) (pex : Pex.Binary) :
    Decidable (LooseFunctionsHaveInfo object pex) := by
  unfold LooseFunctionsHaveInfo; infer_instance

/-- The first original line number of the debug function info of a function of the state of the
object, taken as 0 when the function has no debug function info or an empty list of lines. -/
def firstLine (pex : Pex.Binary) (objName stateName : Pex.StringTable.Index)
    (f : Pex.Function) : Nat :=
  match pex.getDebugInfo.getFunctionInfo objName stateName f.getName
      Pex.DebugInfo.defaultFunctionType with
  | none => 0
  | some info => info.getLineNumbers.headD 0

/-- The order of two names: by position in the string table when `sortById` is set, by text
otherwise. -/
def NameLE (sortById : Bool) (a b : Pex.StringTable.Index) : Prop :=
  if sortById = true then a.asIndex ≤ b.asIndex else a.asString.data ≤ b.asString.data

/-- The order of the functions of a state: by first line, then by name. -/
def FunctionLE (pex : Pex.Binary) (sortById : Bool) (objName stateName : Pex.StringTable.Index)
    (a b : Pex.Function) : Prop :=
  firstLine pex objName stateName a < firstLine pex objName stateName b ∨
    (firstLine pex objName stateName a = firstLine pex objName stateName b ∧
      NameLE sortById a.getName b.getName)

/-- No acquire of the scope, nor of the bodies of its nodes, has a matching release: there is
nothing left to lift. -/
def Node.Scope.Guarded : Node.Scope → Prop
  | .done => True
  | .statement _ next => next.Guarded
  | .lock target next => matchingUnlock next target = none ∧ next.Guarded
  | .unlock _ next => next.Guarded
  | .guard _ body next => body.Guarded ∧ next.Guarded
  | .ifElse _ body elseBody next => body.Guarded ∧ elseBody.Guarded ∧ next.Guarded
  | .whileLoop _ body next => body.Guarded ∧ next.Guarded

/-- The scope, or the body of one of its nodes, holds a release of `target`. -/
def Node.Scope.hasUnlock : Node.Scope → Nat → Bool
  | .done, _ => false
  | .statement _ next, target => next.hasUnlock target
  | .lock _ next, target => next.hasUnlock target
  | .unlock t next, target => decide (t = target) || next.hasUnlock target
  | .guard _ body next, target => body.hasUnlock target || next.hasUnlock target
  | .ifElse _ body elseBody next, target =>
    body.hasUnlock target || elseBody.hasUnlock target || next.hasUnlock target
  | .whileLoop _ body next, target => body.hasUnlock target || next.hasUnlock target

/-- The keyword of the declaration of a function: `Event ` for an event, `Function ` otherwise. -/
def declKeyword (isEvent : Bool) : String := if isEvent = true then "Event " else "Function "

/-- The closing line of a function at the level `i`: `EndEvent` for an event, `EndFunction`
otherwise. -/
def closingLine (env : Env) (i : Nat) (isEvent : Bool) : String :=
  indent env i ++ (if isEvent = true then "EndEvent" else "EndFunction")

/-- What precedes the keyword in the declaration of a function: the indentation and the return
type, unless it is `None`. -/
def declFront (env : Env) (i : Nat) (function : Pex.Function) : String :=
  indent env i ++
    (if _stricmp function.getReturnTypeName.asString "none" ≠ 0 then
      mapType function.getReturnTypeName.asString ++ " " else "")

/-- The comments `writeFunction` may write before the declaration of a function it does not
skip. -/
def fixupComments (env : Env) (i : Nat) (functionName : String) : List (List String) :=
  [[], [indent env i ++ "; Fixup hacks for debug-only function: " ++ functionName],
    [indent env i ++ "; WARNING: possibly inoperative debug function " ++ functionName],
    [indent env i ++ "; Fixup hacks for native ScriptObject::GotoState/GetState"]]

/-- The name `writeFunction` and `getFunctionToWrite` start from: the argument `name`, or the
name of the function when the argument is empty. -/
def givenName (function : Pex.Function) (name : String) : String :=
  if name = "" then function.getName.asString else name

/-- The text after the 9-character start `::remote_` of a name, with the character at the index
`n` replaced by `.`. -/
def remoteName (functionName : String) (n : Nat) : String :=
  String.mk ((functionName.data.drop 9).set n '.')

/-- The comparator is a strict weak ordering: it is irreflexive and transitive, and so is the
relation of two elements neither of which is smaller than the other. -/
def StrictWeakOrdering {α : Type} (comp : α → α → Bool) : Prop :=
  (∀ a, comp a a = false) ∧
  (∀ a b c, comp a b = true → comp b c = true → comp a c = true) ∧
  (∀ a b c, (comp a b = false ∧ comp b a = false) → (comp b c = false ∧ comp c b = false) →
    (comp a c = false ∧ comp c a = false))

/-! ## Sample data -/

/-- A valid index holding `s` at position `n`. -/
def sampleIndex (n : Nat) (s : String) : Pex.StringTable.Index := ⟨n, s, true⟩

/-- A function without parameters, instructions, flags or docstring. -/
def sampleFunction (name returnType : String) : Pex.Function :=
  { getName := sampleIndex 10 name, getReturnTypeName := sampleIndex 11 returnType,
    getDocString := sampleIndex 0 "", getUserFlags := 0, isGlobal := false, isNative := false,
    getParams := [], getInstructions := [] }

/-- An object of the given name with nothing in it. -/
def sampleObject (name : String) : Pex.Object :=
  { getName := sampleIndex 1 name, getParentClassName := sampleIndex 0 "",
    getDocString := sampleIndex 0 "", getUserFlags := 0, getConstFlag := false,
    getAutoStateName := sampleIndex 0 "", getStructInfos := [], getVariables := [],
    getGuards := [], getProperties := [], getStates := [] }

/-- A binary of the given game without debug information, user flags or objects. -/
def sampleBinary (game : Pex.Binary.ScriptType) : Pex.Binary :=
  { getStringTable := ⟨[""]⟩, getDebugInfo := ⟨0, [], [], []⟩, getUserFlags := [],
    getObjects := [], getGameType := game }

/-- A decompiler holding the given lines, with an empty line map and no identifier in use. -/
def sampleDecomp (lines : List String) (isDebugFunction : Bool) : PscDecompiler :=
  { lines := lines, isDebugFunction := isDebugFunction, getLineMap := [], getIdsInUse := [] }

/-- A property of type `Int` without docstring or flags; its auto variable, when it has one, is
`::<name>_var`, and its accessors are empty functions. -/
def sampleProperty (n : Nat) (name : String) (hasAutoVar : Bool) : Pex.Property :=
  { getName := sampleIndex n name, getTypeName := sampleIndex 20 "Int",
    getDocString := sampleIndex 0 "", getUserFlags := 0, hasAutoVar := hasAutoVar,
    isReadable := false, isWritable := false,
    getAutoVarName := sampleIndex (n + 100) ("::" ++ name ++ "_var"),
    getReadFunction := sampleFunction "Get" "Int",
    getWriteFunction := sampleFunction "Set" "None" }

/-- The object `sampleObject name` with the given properties (and no variable). -/
def sampleObjectWith (name : String) (props : List Pex.Property) : Pex.Object :=
  { sampleObject name with getProperties := props }

/-- The binary `sampleBinary game` with the given property groups in its debug info. -/
def sampleBinaryWith (game : Pex.Binary.ScriptType) (groups : List Pex.DebugInfo.PropertyGroup) :
    Pex.Binary :=
  { sampleBinary game with getDebugInfo := ⟨0, [], groups, []⟩ }

/-- A property group of the object `objectName` without group name, listing the given names. -/
def sampleGroup (objectName : String) (names : List Pex.StringTable.Index) :
    Pex.DebugInfo.PropertyGroup :=
  { getObjectName := sampleIndex 1 objectName, getGroupName := sampleIndex 0 "",
    getDocString := sampleIndex 0 "", getUserFlags := 0, getNames := names }

/-- A struct member of type `Int` without value, flags or docstring. -/
def sampleMember (n : Nat) (name : String) : Pex.StructInfo.Member :=
  { getName := sampleIndex n name, getTypeName := sampleIndex 20 "Int", getUserFlags := 0,
    getValue := ⟨Pex.ValueType.None, ""⟩, getConstFlag := false,
    getDocString := sampleIndex 0 "" }

/-- The object `Foo` with one struct `Point` of members `x` and `y`. -/
def sampleStructObject : Pex.Object :=
  { sampleObject "Foo" with
    getStructInfos := [⟨sampleIndex 30 "Point", [sampleMember 31 "x", sampleMember 32 "y"]⟩] }

/-- A Skyrim binary whose debug info has one struct order, for the struct `Point` of `Foo`. -/
def sampleStructBinary (names : List Pex.StringTable.Index) : Pex.Binary :=
  { sampleBinary Pex.Binary.ScriptType.SkyrimScript with
    getDebugInfo := ⟨0, [], [], [⟨sampleIndex 1 "Foo", sampleIndex 30 "Point", names⟩]⟩ }

/-- An environment with two spaces per level of indentation, a decompiler that returns `decomp`
for every function, and empty tables of event names. -/
def sampleEnv (decomp : PscDecompiler) : Env :=
  { indentWidth := 2, decompile := fun _ _ _ => Except.ok decomp,
    Skyrim_EventNamesLowerCase := [], Fallout4_EventNamesLowerCase := [],
    Starfield_EventNamesLowerCase := [] }

/-- A coder with the given values of `writeDebugFuncs` and `printDebugLineNo`, its other options
unset. -/
def sampleCoder (writeDebugFuncs printDebugLineNo : Bool) : PscCoder :=
  { m_CommentAsm := false, m_WriteHeader := false, m_TraceDecompilation := false,
    m_DumpTree := true, m_WriteDebugFuncs := writeDebugFuncs,
    m_PrintDebugLineNo := printDebugLineNo }

/-- The function info of the samples: one line number. -/
def sampleFunctionInfo : Pex.DebugInfo.FunctionInfo :=
  { getObjectName := sampleIndex 1 "Foo", getStateName := sampleIndex 0 "",
    getFunctionName := sampleIndex 10 "Heal", getFunctionType := Pex.DebugInfo.FunctionType.Method,
    getLineNumbers := [12] }

/-- An object `Foo` with the auto property `Health`, its auto variable `::Health_var` and a
variable `count`. -/
def sampleInUseObject : Pex.Object :=
  { sampleObject "Foo" with
    getVariables :=
      [⟨sampleIndex 102 "::Health_var", sampleIndex 20 "Int", 0, ⟨Pex.ValueType.None, ""⟩, false⟩,
       ⟨sampleIndex 40 "count", sampleIndex 20 "Int", 0, ⟨Pex.ValueType.None, ""⟩, false⟩],
    getProperties := [sampleProperty 2 "Health" true] }

/-- A decompiler holding one line, with the given identifiers in use. -/
def sampleInUseDecomp (ids : List Pex.StringTable.Index) : PscDecompiler :=
  { lines := ["count = ::Health_var"], isDebugFunction := false, getLineMap := [],
    getIdsInUse := ids }

/-- What `getFunctionToWrite` returns for the sample function `Heal`. -/
def sampleInUseResult : FunctionToWrite :=
  { skipped := none, isEvent := some false, debugInfo := some sampleFunctionInfo,
    name := sampleIndex 10 "Heal", precedingComment := "", nameAsWritten := "Heal",
    declLine := "Function Heal()", docString := "\x7b  \x7d",
    BodyLines := ["  count = ::Health_var"], bodyStartLine := some 12,
    minimumStartingLine := none, propsInUse := [sampleIndex 2 "Health"],
    varsInUse := [sampleIndex 40 "count"] }

/-- A readable property `Health` with the empty getter of the samples. -/
def sampleGetterProperty : Pex.Property :=
  { sampleProperty 2 "Health" false with isReadable := true }

/-- A readable property `MaxHealth` whose getter returns the literal `100`. -/
def sampleLiteralProperty : Pex.Property :=
  { sampleProperty 3 "MaxHealth" false with
    isReadable := true,
    getReadFunction :=
      { sampleFunction "Get" "Int" with
        getInstructions := [⟨Pex.OpCode.RETURN, [⟨Pex.ValueType.Integer, "100"⟩]⟩] } }

/-- The variables of the samples: `count`, the compiler-generated `::Health_var`, and `total`
with the initial value `5`. -/
def sampleVariables : List Pex.Variable :=
  [⟨sampleIndex 40 "count", sampleIndex 20 "Int", 0, ⟨Pex.ValueType.None, ""⟩, false⟩,
   ⟨sampleIndex 102 "::Health_var", sampleIndex 20 "Int", 0, ⟨Pex.ValueType.None, ""⟩, false⟩,
   ⟨sampleIndex 41 "total", sampleIndex 20 "Int", 0, ⟨Pex.ValueType.Integer, "5"⟩, false⟩]

/-- A coder with the given value of `commentAsm`, its other options unset. -/
def sampleAsmCoder (commentAsm : Bool) : PscCoder :=
  { sampleCoder false false with m_CommentAsm := commentAsm }

/-- The struct `Point` of the object `sampleStructObject`. -/
def samplePoint : Pex.StructInfo :=
  ⟨sampleIndex 30 "Point", [sampleMember 31 "x", sampleMember 32 "y"]⟩

/-- An auto property `Health` with a docstring of two lines. -/
def sampleDocProperty : Pex.Property :=
  { sampleProperty 2 "Health" true with getDocString := sampleIndex 50 "the health\nof the actor" }

/-- A binary with one object `Foo` whose state `Busy` has the functions `Zeta` (no line
information), `Beta` (first line 30), `Alpha` (first line 10) and `Eta` (no line information). -/
def sampleSortBinary : Pex.Binary :=
  { sampleBinary Pex.Binary.ScriptType.SkyrimScript with
    getDebugInfo :=
      ⟨0,
        [⟨sampleIndex 1 "Foo", sampleIndex 60 "Busy", sampleIndex 72 "Beta",
            Pex.DebugInfo.FunctionType.Method, [30, 31]⟩,
          ⟨sampleIndex 1 "Foo", sampleIndex 60 "Busy", sampleIndex 73 "Alpha",
            Pex.DebugInfo.FunctionType.Method, [10]⟩],
        [], []⟩,
    getObjects :=
      [{ sampleObject "Foo" with
          getStates :=
            [⟨sampleIndex 60 "Busy",
              [{ sampleFunction "Zeta" "None" with getName := sampleIndex 71 "Zeta" },
                { sampleFunction "Beta" "None" with getName := sampleIndex 72 "Beta" },
                { sampleFunction "Alpha" "None" with getName := sampleIndex 73 "Alpha" },
                { sampleFunction "Eta" "None" with getName := sampleIndex 70 "Eta" }]⟩] }] }

/-- A function body that acquires the lock 1 and releases it on both exit paths. -/
def sampleLockedBody : Node.Scope :=
  .lock 1 (.statement "count += 1"
    (.ifElse "count > 10" (.unlock 1 (.statement "Return" .done)) .done
      (.statement "Notify()" (.unlock 1 (.statement "Return" .done)))))

/-- A native function `GetState` without parameters. -/
def sampleNativeFunction (name : String) : Pex.Function :=
  { sampleFunction name "Int" with isNative := true }

/-- The environment `sampleEnv decomp` with `oninit` as the one event name of Skyrim. -/
def sampleEventEnv (decomp : PscDecompiler) : Env :=
  { sampleEnv decomp with Skyrim_EventNamesLowerCase := ["oninit"] }

/-- The function `::remote_Actor_OnHit` with one parameter `akSender` of type `Actor`. -/
def sampleRemoteFunction (isNative : Bool) : Pex.Function :=
  { sampleFunction "::remote_Actor_OnHit" "None" with
    isNative := isNative,
    getParams := [⟨sampleIndex 80 "akSender", sampleIndex 81 "Actor"⟩] }

/-! ## Library functions: lemmas -/

theorem tolower_cases (c : Char) :
    (tolower c = c ∧ ¬ (65 ≤ c.toNat ∧ c.toNat ≤ 90)) ∨
    (65 ≤ c.toNat ∧ c.toNat ≤ 90 ∧ (tolower c).toNat = c.toNat + 32) := by
  by_cases h : 65 ≤ c.toNat ∧ c.toNat ≤ 90
  · right
    refine ⟨h.1, h.2, ?_⟩
    have hc : c = Char.ofNat c.toNat := (Char.ofNat_toNat c).symm
    obtain ⟨h1, h2⟩ := h
    generalize c.toNat = n at hc h1 h2
    subst hc
    interval_cases n <;> decide
  · left
    refine ⟨?_, h⟩
    simp only [tolower, Char.toLower]
    simp only [ge_iff_le]
    rw [if_neg h]

theorem tolower_eq_nul_iff (c : Char) : tolower c = '\x00' ↔ c = '\x00' := by
  constructor
  · intro h
    rcases tolower_cases c with ⟨h1, _⟩ | ⟨_, _, h3⟩
    · rw [← h1]; exact h
    · rw [h] at h3
      have : ('\x00' : Char).toNat = 0 := by decide
      omega
  · intro h
    subst h
    decide

theorem stricmpLoop_eq_zero_of_map_eq :
    ∀ a b : List Char, a.map tolower = b.map tolower → stricmpLoop a b = 0
  | [], [], _ => rfl
  | [], _ :: _, h => by simp at h
  | _ :: _, [], h => by simp at h
  | c :: cs, d :: ds, h => by
    simp only [List.map_cons, List.cons.injEq] at h
    simp only [stricmpLoop, h.1, if_true]
    exact stricmpLoop_eq_zero_of_map_eq cs ds h.2

theorem takeWhile_nul_map_tolower :
    ∀ a b : List Char, a.map tolower = b.map tolower →
      (a.takeWhile (fun c => c ≠ '\x00')).map tolower =
        (b.takeWhile (fun c => c ≠ '\x00')).map tolower
  | [], [], _ => rfl
  | [], _ :: _, h => by simp at h
  | _ :: _, [], h => by simp at h
  | c :: cs, d :: ds, h => by
    simp only [List.map_cons, List.cons.injEq] at h
    have ih := takeWhile_nul_map_tolower cs ds h.2
    by_cases hc : c = '\x00'
    · have hd : d = '\x00' := by
        rw [← tolower_eq_nul_iff, ← h.1, tolower_eq_nul_iff]; exact hc
      simp [List.takeWhile, hc, hd]
    · have hd : d ≠ '\x00' := by
        intro hd
        apply hc
        rw [← tolower_eq_nul_iff, h.1, tolower_eq_nul_iff]; exact hd
      simpa [List.takeWhile, hc, hd, h.1] using ih

/-- Strings equal ignoring case compare equal under `_stricmp`. -/
theorem stricmp_eq_zero_of_eqIgnoreCase (a b : String) (h : EqIgnoreCase a b) :
    _stricmp a b = 0 :=
  stricmpLoop_eq_zero_of_map_eq _ _ (takeWhile_nul_map_tolower _ _ h)

/-! ## Regular expressions: lemmas -/

theorem tempRegex_isSome_iff (t : List Char) :
    (tempRegex t).isSome = true ↔
      ∃ d rest, isdigit d = true ∧ t = ':' :: ':' :: 't' :: 'e' :: 'm' :: 'p' :: d :: rest := by
  constructor
  · intro h
    unfold tempRegex at h
    split at h
    · next rest =>
      cases rest with
      | nil => simp at h
      | cons d rest =>
        by_cases hd : isdigit d = true
        · exact ⟨d, rest, hd, rfl⟩
        · simp [List.takeWhile, hd] at h
    · simp at h
  · rintro ⟨d, rest, hd, rfl⟩
    simp [tempRegex, List.takeWhile, hd]

theorem tempRegex_cons_of_ne (c : Char) (cs : List Char) (h : c ≠ ':') :
    tempRegex (c :: cs) = none := by
  cases hr : tempRegex (c :: cs) with
  | none => rfl
  | some n =>
    have : (tempRegex (c :: cs)).isSome = true := by simp [hr]
    obtain ⟨d, rest, _, ht⟩ := (tempRegex_isSome_iff _).1 this
    simp only [List.cons.injEq] at ht
    exact absurd ht.1 h

theorem tempRegex_nil : tempRegex [] = none := rfl

/-- A match found in `a ++ b` when no character of `a` is a colon lies in `b`. -/
theorem regexSearchFrom_temp_append_of_no_colon (a b : List Char) (ha : ∀ c ∈ a, c ≠ ':')
    (h : regexSearchFrom tempRegex (a ++ b) = true) : regexSearchFrom tempRegex b = true := by
  induction a with
  | nil => simpa using h
  | cons c cs ih =>
    have hc : c ≠ ':' := ha c (List.mem_cons_self _ _)
    simp only [List.cons_append, regexSearchFrom, tempRegex_cons_of_ne c _ hc, Option.isSome_none,
      Bool.false_or] at h
    exact ih (fun x hx => ha x (List.mem_cons_of_mem _ hx)) h

/-- A prefix of the text after replacement, made of characters other than the first of the
format text, is a prefix of the text before replacement. -/
theorem prefix_of_prefix_regexReplaceLoop (re : Regex) (f : Char) (fmt : List Char) :
    ∀ (p : List Char) (fuel : Nat) (t : List Char), (∀ c ∈ p, c ≠ f) →
      p <+: regexReplaceLoop re (f :: fmt) fuel t → p <+: t
  | [], _, _, _, _ => List.nil_prefix
  | a :: p, 0, t, _, h => by simpa [regexReplaceLoop] using h
  | a :: p, fuel + 1, [], _, h => by simp [regexReplaceLoop] at h
  | a :: p, fuel + 1, c :: cs, hp, h => by
    unfold regexReplaceLoop at h
    cases hr : re (c :: cs) with
    | some n =>
      rw [hr] at h
      simp only [List.cons_append, List.cons_prefix_cons] at h
      exact absurd h.1 (hp a (List.mem_cons_self _ _))
    | none =>
      rw [hr] at h
      simp only [List.cons_prefix_cons] at h
      simp only [List.cons_prefix_cons]
      exact ⟨h.1, prefix_of_prefix_regexReplaceLoop re f fmt p fuel cs
        (fun x hx => hp x (List.mem_cons_of_mem _ hx)) h.2⟩

theorem tempRegex_isSome_of_start (d : Char) (hd : isdigit d = true) (t : List Char)
    (h : [':', ':', 't', 'e', 'm', 'p', d] <+: t) : (tempRegex t).isSome = true := by
  obtain ⟨rest, rfl⟩ := h
  exact (tempRegex_isSome_iff _).2 ⟨d, rest, hd, rfl⟩

theorem tempChars_ne (f : Char) (hf : ¬ IsTempChar f) (d : Char) (hd : isdigit d = true) :
    ∀ c ∈ [':', ':', 't', 'e', 'm', 'p', d], c ≠ f := by
  intro c hc hcf
  subst hcf
  apply hf
  simp only [List.mem_cons, List.mem_singleton, List.not_mem_nil, or_false] at hc
  unfold IsTempChar
  rcases hc with h | h | h | h | h | h | h <;> simp [h, hd]

/-- Replacing the matches of any expression by a format text that has no colon and does not begin
with a character of `::temp<digit>` creates no match of `tempRegex`. -/
theorem regexSearchFrom_temp_of_replace (re : Regex) (f : Char) (fmt : List Char)
    (hf : ¬ IsTempChar f) (hfmt : ∀ c ∈ f :: fmt, c ≠ ':') :
    ∀ (fuel : Nat) (t : List Char),
      regexSearchFrom tempRegex (regexReplaceLoop re (f :: fmt) fuel t) = true →
        regexSearchFrom tempRegex t = true
  | 0, t, h => by simpa [regexReplaceLoop] using h
  | fuel + 1, [], h => by simpa [regexReplaceLoop] using h
  | fuel + 1, c :: cs, h => by
    cases hr : re (c :: cs) with
    | some n =>
      have h' : regexSearchFrom tempRegex
          ((f :: fmt) ++ regexReplaceLoop re (f :: fmt) fuel (cs.drop (n - 1))) = true := by
        simpa [regexReplaceLoop, hr] using h
      have h2 := regexSearchFrom_temp_append_of_no_colon _ _ hfmt h'
      have h3 := regexSearchFrom_temp_of_replace re f fmt hf hfmt fuel _ h2
      have h4 : ∀ (k : Nat) (l : List Char), regexSearchFrom tempRegex (l.drop k) = true →
          regexSearchFrom tempRegex l = true := by
        intro k
        induction k with
        | zero => intro l hl; simpa using hl
        | succ k ih =>
          intro l hl
          cases l with
          | nil => simpa using hl
          | cons x xs =>
            simp only [List.drop_succ_cons] at hl
            simp only [regexSearchFrom, Bool.or_eq_true]
            exact Or.inr (ih xs hl)
      simp only [regexSearchFrom, Bool.or_eq_true]
      exact Or.inr (h4 _ _ h3)
    | none =>
      have h' : regexSearchFrom tempRegex (c :: regexReplaceLoop re (f :: fmt) fuel cs) = true := by
        simpa [regexReplaceLoop, hr] using h
      simp only [regexSearchFrom, Bool.or_eq_true] at h' ⊢
      rcases h' with h' | h'
      · left
        obtain ⟨d, rest, hd, ht⟩ := (tempRegex_isSome_iff _).1 h'
        have hp : [':', ':', 't', 'e', 'm', 'p', d] <+:
            regexReplaceLoop re (f :: fmt) (fuel + 1) (c :: cs) := by
          simp only [regexReplaceLoop, hr]
          rw [ht]
          exact ⟨rest, rfl⟩
        exact tempRegex_isSome_of_start d hd _
          (prefix_of_prefix_regexReplaceLoop re f fmt _ _ _ (tempChars_ne f hf d hd) hp)
      · right
        exact regexSearchFrom_temp_of_replace re f fmt hf hfmt fuel cs h'

/-- After `regex_replace` with `tempRegex` and such a format text, `tempRegex` matches nowhere. -/
theorem regexSearchFrom_temp_replace_temp (f : Char) (fmt : List Char)
    (hf : ¬ IsTempChar f) (hfmt : ∀ c ∈ f :: fmt, c ≠ ':') :
    ∀ (fuel : Nat) (t : List Char), t.length ≤ fuel →
      regexSearchFrom tempRegex (regexReplaceLoop tempRegex (f :: fmt) fuel t) = false
  | 0, t, h => by
    have : t = [] := List.length_eq_zero.1 (Nat.le_zero.1 h)
    subst this
    rfl
  | fuel + 1, [], _ => rfl
  | fuel + 1, c :: cs, h => by
    have hlen : cs.length ≤ fuel := by simpa using h
    cases hr : tempRegex (c :: cs) with
    | some n =>
      have hdrop : (cs.drop (n - 1)).length ≤ fuel := by
        rw [List.length_drop]; omega
      have ih := regexSearchFrom_temp_replace_temp f fmt hf hfmt fuel _ hdrop
      cases hs : regexSearchFrom tempRegex (regexReplaceLoop tempRegex (f :: fmt) (fuel + 1) (c :: cs)) with
      | false => rfl
      | true =>
        have h' : regexSearchFrom tempRegex
            ((f :: fmt) ++ regexReplaceLoop tempRegex (f :: fmt) fuel (cs.drop (n - 1))) = true := by
          simpa [regexReplaceLoop, hr] using hs
        have h2 := regexSearchFrom_temp_append_of_no_colon _ _ hfmt h'
        rw [ih] at h2
        exact absurd h2 (by decide)
    | none =>
      have ih := regexSearchFrom_temp_replace_temp f fmt hf hfmt fuel cs hlen
      cases hs : regexSearchFrom tempRegex (regexReplaceLoop tempRegex (f :: fmt) (fuel + 1) (c :: cs)) with
      | false => rfl
      | true =>
        have h' : regexSearchFrom tempRegex
            (c :: regexReplaceLoop tempRegex (f :: fmt) fuel cs) = true := by
          simpa [regexReplaceLoop, hr] using hs
        simp only [regexSearchFrom, Bool.or_eq_true, ih, or_false] at h'
        simp only [Bool.false_eq_true, or_false] at h'
        obtain ⟨d, rest, hd, ht⟩ := (tempRegex_isSome_iff _).1 h'
        have hp : [':', ':', 't', 'e', 'm', 'p', d] <+:
            regexReplaceLoop tempRegex (f :: fmt) (fuel + 1) (c :: cs) := by
          simp only [regexReplaceLoop, hr]
          rw [ht]
          exact ⟨rest, rfl⟩
        have := tempRegex_isSome_of_start d hd _
          (prefix_of_prefix_regexReplaceLoop tempRegex f fmt _ _ _ (tempChars_ne f hf d hd) hp)
        rw [hr] at this
        exact absurd this (by decide)

/-- A match of `tempRegex` at the start of `x` is found by the search in `pre ++ x`. -/
theorem regexSearchFrom_append_of_isSome (re : Regex) (x : List Char) (hx : (re x).isSome = true) :
    ∀ pre : List Char, regexSearchFrom re (pre ++ x) = true
  | [] => by
    cases x with
    | nil => simpa [regexSearchFrom] using hx
    | cons c cs => simp [regexSearchFrom, hx]
  | c :: pre => by
    simp only [List.cons_append, regexSearchFrom, Bool.or_eq_true]
    exact Or.inr (regexSearchFrom_append_of_isSome re x hx pre)

/-- A line that contains `::temp` and digits is one in which `tempRegex` is found. -/
theorem regex_search_of_containsTemp (line : String) (h : ContainsTemp line) :
    regex_search line tempRegex = true := by
  obtain ⟨pre, ds, post, hne, hds, hl⟩ := h
  cases ds with
  | nil => exact absurd rfl hne
  | cons d ds =>
    unfold regex_search
    rw [hl]
    have hx : (tempRegex ("::temp".data ++ (d :: ds) ++ post)).isSome = true :=
      (tempRegex_isSome_iff _).2 ⟨d, ds ++ post, hds d (List.mem_cons_self _ _), rfl⟩
    have := regexSearchFrom_append_of_isSome tempRegex _ hx pre
    simpa [List.append_assoc] using this

theorem replaceInLines_temp_clean (fmt : String) (f : Char) (rest : List Char)
    (hdata : fmt.data = f :: rest) (hf : ¬ IsTempChar f) (hfmt : ∀ c ∈ f :: rest, c ≠ ':')
    (decomp : PscDecompiler) :
    ∀ line ∈ (replaceInLines tempRegex fmt decomp).lines, regex_search line tempRegex = false := by
  intro line hline
  simp only [replaceInLines, List.mem_map] at hline
  obtain ⟨l, _, rfl⟩ := hline
  by_cases hs : regex_search l tempRegex = true
  · rw [if_pos hs]
    unfold regex_search regex_replace
    rw [hdata]
    exact regexSearchFrom_temp_replace_temp f rest hf hfmt _ _ (Nat.le_refl _)
  · rw [if_neg hs]
    simpa using hs

theorem replaceStateInLines_temp_clean (decomp : PscDecompiler)
    (h : ∀ line ∈ decomp.lines, regex_search line tempRegex = false) :
    ∀ line ∈ (replaceStateInLines decomp).lines, regex_search line tempRegex = false := by
  intro line hline
  simp only [replaceStateInLines, List.mem_map] at hline
  obtain ⟨l, hl, rfl⟩ := hline
  by_cases hs : findState l = true
  · rw [if_pos hs]
    cases hr : regex_search (regex_replace l stateRegex "__state") tempRegex with
    | false => rfl
    | true =>
      unfold regex_search regex_replace at hr
      have := regexSearchFrom_temp_of_replace stateRegex '_' "_state".data
        (by unfold IsTempChar; decide) (by decide) _ _ hr
      have h2 := h l hl
      unfold regex_search at h2
      rw [h2] at this
      exact absurd this (by decide)
  · rw [if_neg hs]
    exact h l hl

/-! ## `fixupFunction` -/

/-- C1. When `fixupFunction` returns false it leaves the decompiler, and so every decompiled
line, exactly as it was: a function that is not on the allow-list is never rewritten. -/
theorem fixupFunction_false_unchanged (object : Pex.Object) (pex : Pex.Binary)
    (functionName : String) (decomp : PscDecompiler)
    (h : (fixupFunction object pex functionName decomp).1 = false) :
    (fixupFunction object pex functionName decomp).2 = decomp ∧
      (fixupFunction object pex functionName decomp).2.lines = decomp.lines := by
  unfold fixupFunction at h ⊢
  split_ifs at h ⊢ <;> simp_all

theorem fixupFunction_false_unchanged_witness :
    (fixupFunction (sampleObject "Foo") (sampleBinary Pex.Binary.ScriptType.SkyrimScript) "warning"
        (sampleDecomp ["x = ::temp1"] true)).1 = false ∧
      ((fixupFunction (sampleObject "Foo") (sampleBinary Pex.Binary.ScriptType.SkyrimScript)
          "warning" (sampleDecomp ["x = ::temp1"] true)).2 = sampleDecomp ["x = ::temp1"] true ∧
        (fixupFunction (sampleObject "Foo") (sampleBinary Pex.Binary.ScriptType.SkyrimScript)
          "warning" (sampleDecomp ["x = ::temp1"] true)).2.lines = ["x = ::temp1"]) :=
  ⟨by decide, fixupFunction_false_unchanged _ _ _ _ (by decide)⟩

/-- C2, as stated, fails. In a Starfield script the function `warning` is rewritten under every
object name, and in an object named `ScriptObject` the text `::State` is rewritten under every
function name. -/
theorem fixupFunction_scope_counterexample :
    (∀ object : Pex.Object,
      (fixupFunction object (sampleBinary Pex.Binary.ScriptType.StarfieldScript) "warning"
        (sampleDecomp ["::temp1"] true)).2.lines ≠ ["::temp1"]) ∧
    (∀ functionName : String,
      (fixupFunction (sampleObject "ScriptObject")
        (sampleBinary Pex.Binary.ScriptType.SkyrimScript) functionName
        (sampleDecomp ["::State"] true)).2.lines ≠ ["::State"]) := by
  constructor
  · intro object
    have h1 : replaceInLines tempRegex "false" (sampleDecomp ["::temp1"] true) =
        sampleDecomp ["false"] true := by decide
    have h2 : replaceStateInLines (sampleDecomp ["false"] true) = sampleDecomp ["false"] true := by
      decide
    have hg : (sampleBinary Pex.Binary.ScriptType.StarfieldScript).getGameType =
        Pex.Binary.ScriptType.StarfieldScript := rfl
    unfold fixupFunction
    simp only [hg, true_or, if_true, h1]
    split_ifs
    · rw [h2]; decide
    · decide
  · intro functionName
    have h0 : _stricmp (sampleObject "ScriptObject").getName.asString "ScriptObject" = 0 := by
      decide
    have hg : (sampleBinary Pex.Binary.ScriptType.SkyrimScript).getGameType ≠
        Pex.Binary.ScriptType.StarfieldScript := by decide
    have h2 : replaceStateInLines (sampleDecomp ["::State"] true) =
        sampleDecomp ["__state"] true := by decide
    unfold fixupFunction
    simp only [h0, if_true, if_neg hg, h2]
    decide

/-- C2, amended. Unless the script is a Starfield script and the function is `warning`, there is
an object name under which `fixupFunction` leaves the decompiled lines unchanged; and unless the
object is named `ScriptObject` (ignoring case), there is a function name under which it leaves
them unchanged. -/
theorem fixupFunction_scope (object : Pex.Object) (pex : Pex.Binary) (functionName : String)
    (decomp : PscDecompiler)
    (hfn : ¬ (pex.getGameType = Pex.Binary.ScriptType.StarfieldScript ∧ functionName = "warning"))
    (hobj : _stricmp object.getName.asString "ScriptObject" ≠ 0) :
    (∃ object' : Pex.Object, (fixupFunction object' pex functionName decomp).2 = decomp) ∧
    (∃ functionName' : String, (fixupFunction object pex functionName' decomp).2 = decomp) := by
  constructor
  · refine ⟨sampleObject "", ?_⟩
    have h1 : _stricmp (sampleObject "").getName.asString "ENV_Hazard_ParentScript" ≠ 0 := by decide
    have h2 : _stricmp (sampleObject "").getName.asString "ENV_AfflictionScript" ≠ 0 := by decide
    have h3 : _stricmp (sampleObject "").getName.asString "RobotQuestRunner" ≠ 0 := by decide
    have h4 : _stricmp (sampleObject "").getName.asString "ScriptObject" ≠ 0 := by decide
    unfold fixupFunction
    by_cases hg : pex.getGameType = Pex.Binary.ScriptType.StarfieldScript
    · have hw : functionName ≠ "warning" := fun h => hfn ⟨hg, h⟩
      simp [hg, hw, h1, h2, h3, h4]
    · simp [hg, h4]
  · refine ⟨"", ?_⟩
    unfold fixupFunction
    simp [hobj]

theorem fixupFunction_scope_witness :
    (∃ object' : Pex.Object,
      (fixupFunction object' (sampleBinary Pex.Binary.ScriptType.StarfieldScript) "TraceStats"
        (sampleDecomp ["::temp1"] true)).2 = sampleDecomp ["::temp1"] true) ∧
    (∃ functionName' : String,
      (fixupFunction (sampleObject "ENV_AfflictionScript")
        (sampleBinary Pex.Binary.ScriptType.StarfieldScript) functionName'
        (sampleDecomp ["::temp1"] true)).2 = sampleDecomp ["::temp1"] true) :=
  fixupFunction_scope (sampleObject "ENV_AfflictionScript")
    (sampleBinary Pex.Binary.ScriptType.StarfieldScript) "TraceStats"
    (sampleDecomp ["::temp1"] true) (by decide) (by decide)

/-- C3. For a Starfield script and an allow-listed function (`warning`; `GlobalWarning` of
`ENV_Hazard_ParentScript`; `TraceStats` of `ENV_AfflictionScript`; `UpdateState` or
`MakeQuestNameSave` of `RobotQuestRunner`, object names compared ignoring case) `fixupFunction`
returns true, afterwards no decompiled line contains `::temp` followed by digits, and the lines
are those of `regex_replace` with the text of the rule (`false`, `None`, `questName`), followed
by the `::State` rule when the object is named `ScriptObject`. -/
theorem fixupFunction_allowlisted (object : Pex.Object) (pex : Pex.Binary) (functionName : String)
    (decomp : PscDecompiler)
    (hgame : pex.getGameType = Pex.Binary.ScriptType.StarfieldScript)
    (hallow : functionName = "warning" ∨
      (EqIgnoreCase object.getName.asString "ENV_Hazard_ParentScript" ∧
        functionName = "GlobalWarning") ∨
      (EqIgnoreCase object.getName.asString "ENV_AfflictionScript" ∧
        functionName = "TraceStats") ∨
      (EqIgnoreCase object.getName.asString "RobotQuestRunner" ∧
        (functionName = "UpdateState" ∨ functionName = "MakeQuestNameSave"))) :
    (fixupFunction object pex functionName decomp).1 = true ∧
    (∀ line ∈ (fixupFunction object pex functionName decomp).2.lines, ¬ ContainsTemp line) ∧
    (fixupFunction object pex functionName decomp).2 =
      (if _stricmp object.getName.asString "ScriptObject" = 0 then
        replaceStateInLines (replaceInLines tempRegex (fixupText functionName) decomp)
      else replaceInLines tempRegex (fixupText functionName) decomp) := by
  have hclean : ∀ line ∈ (replaceInLines tempRegex (fixupText functionName) decomp).lines,
      regex_search line tempRegex = false := by
    unfold fixupText
    split_ifs
    · exact replaceInLines_temp_clean "None" 'N' "one".data rfl
        (by unfold IsTempChar; decide) (by decide) decomp
    · exact replaceInLines_temp_clean "questName" 'q' "uestName".data rfl
        (by unfold IsTempChar; decide) (by decide) decomp
    · exact replaceInLines_temp_clean "false" 'f' "alse".data rfl
        (by unfold IsTempChar; decide) (by decide) decomp
  have hres : fixupFunction object pex functionName decomp =
      (true, if _stricmp object.getName.asString "ScriptObject" = 0 then
        replaceStateInLines (replaceInLines tempRegex (fixupText functionName) decomp)
      else replaceInLines tempRegex (fixupText functionName) decomp) := by
    unfold fixupFunction fixupText
    rcases hallow with h | ⟨ho, h⟩ | ⟨ho, h⟩ | ⟨ho, h | h⟩
    · subst h
      simp only [hgame, true_or, if_true]
      split_ifs <;> first | rfl | (exfalso; revert ‹_›; decide)
    · subst h
      have hs := stricmp_eq_zero_of_eqIgnoreCase _ _ ho
      simp only [hgame, hs, true_and, true_or, or_true, if_true]
      split_ifs <;> first | rfl | (exfalso; revert ‹_›; decide)
    · subst h
      have hs := stricmp_eq_zero_of_eqIgnoreCase _ _ ho
      simp only [hgame, hs, true_and, true_or, or_true, if_true]
      split_ifs <;> first | rfl | (exfalso; revert ‹_›; decide)
    · subst h
      have hs := stricmp_eq_zero_of_eqIgnoreCase _ _ ho
      have e1 : ("UpdateState" = "warning") = False := by decide
      have e2 : ("UpdateState" = "GlobalWarning") = False := by decide
      have e3 : ("UpdateState" = "TraceStats") = False := by decide
      simp only [hgame, hs, e1, e2, e3, and_false, or_false, if_true, if_false]
      split_ifs <;> rfl
    · subst h
      have hs := stricmp_eq_zero_of_eqIgnoreCase _ _ ho
      have e1 : ("MakeQuestNameSave" = "warning") = False := by decide
      have e2 : ("MakeQuestNameSave" = "GlobalWarning") = False := by decide
      have e3 : ("MakeQuestNameSave" = "TraceStats") = False := by decide
      have e4 : ("MakeQuestNameSave" = "UpdateState") = False := by decide
      simp only [hgame, hs, e1, e2, e3, e4, and_false, or_false, if_true, if_false]
      split_ifs <;> rfl
  rw [hres]
  refine ⟨rfl, ?_, rfl⟩
  intro line hline hc
  have hs := regex_search_of_containsTemp line hc
  have hfalse : regex_search line tempRegex = false := by
    simp only at hline
    split_ifs at hline
    · exact replaceStateInLines_temp_clean _ hclean line hline
    · exact hclean line hline
  rw [hfalse] at hs
  exact absurd hs (by decide)

theorem fixupFunction_allowlisted_witness :
    (fixupFunction (sampleObject "robotQUESTrunner")
        (sampleBinary Pex.Binary.ScriptType.StarfieldScript) "UpdateState"
        (sampleDecomp ["a = ::temp12 + ::temp3x", "::temp::temp7"] true)).2.lines =
      ["a = None + Nonex", "::tempNone"] ∧
    ((fixupFunction (sampleObject "robotQUESTrunner")
        (sampleBinary Pex.Binary.ScriptType.StarfieldScript) "UpdateState"
        (sampleDecomp ["a = ::temp12 + ::temp3x", "::temp::temp7"] true)).1 = true ∧
    (∀ line ∈ (fixupFunction (sampleObject "robotQUESTrunner")
        (sampleBinary Pex.Binary.ScriptType.StarfieldScript) "UpdateState"
        (sampleDecomp ["a = ::temp12 + ::temp3x", "::temp::temp7"] true)).2.lines,
      ¬ ContainsTemp line) ∧
    (fixupFunction (sampleObject "robotQUESTrunner")
        (sampleBinary Pex.Binary.ScriptType.StarfieldScript) "UpdateState"
        (sampleDecomp ["a = ::temp12 + ::temp3x", "::temp::temp7"] true)).2 =
      (if _stricmp (sampleObject "robotQUESTrunner").getName.asString "ScriptObject" = 0 then
        replaceStateInLines (replaceInLines tempRegex (fixupText "UpdateState")
          (sampleDecomp ["a = ::temp12 + ::temp3x", "::temp::temp7"] true))
      else replaceInLines tempRegex (fixupText "UpdateState")
          (sampleDecomp ["a = ::temp12 + ::temp3x", "::temp::temp7"] true))) :=
  ⟨by decide, fixupFunction_allowlisted _ _ _ _ rfl
    (Or.inr (Or.inr (Or.inr ⟨by unfold EqIgnoreCase; decide, Or.inl rfl⟩)))⟩

/-! ## `writeFunction` -/

theorem writeDocString_lines (env : Env) (i : Nat) (docString : Pex.StringTable.Index)
    (out : Out) :
    writeDocString env i docString out =
      { lines := out.lines ++ docStringLines env i docString, properties := out.properties } := by
  unfold writeDocString docStringLines write
  split_ifs <;> simp

theorem writeFunction_body_lines (env : Env) (self : PscCoder) (i : Nat) (function : Pex.Function)
    (pex : Pex.Binary) (functionName : String) (isEvent : Bool) (decomp : PscDecompiler)
    (out : Out) :
    writeFunction_body env self i function pex
        (writeFunction_decl env i function functionName isEvent) isEvent decomp out =
      { lines := out.lines ++ functionLines env self i function pex functionName isEvent decomp,
        properties := out.properties } := by
  unfold writeFunction_body functionLines
  simp only [writeDocString_lines, write]
  cases isEvent <;> simp [List.append_assoc]

theorem digitChar_ne_colon (n : Nat) (h : n < 10) : Nat.digitChar n ≠ ':' := by
  interval_cases n <;> decide

theorem toDigitsCore_ne_colon :
    ∀ (fuel n : Nat) (ds : List Char), (∀ c ∈ ds, c ≠ ':') →
      ∀ c ∈ Nat.toDigitsCore 10 fuel n ds, c ≠ ':'
  | 0, _, ds, h => by simpa [Nat.toDigitsCore] using h
  | fuel + 1, n, ds, h => by
    have hd : ∀ c ∈ Nat.digitChar (n % 10) :: ds, c ≠ ':' := by
      intro c hc
      rcases List.mem_cons.1 hc with rfl | hc
      · exact digitChar_ne_colon _ (Nat.mod_lt _ (by decide))
      · exact h c hc
    unfold Nat.toDigitsCore
    simp only
    split_ifs
    · exact hd
    · exact toDigitsCore_ne_colon fuel (n / 10) _ hd

theorem repr_ne_colon (n : Nat) : ∀ c ∈ (Nat.repr n).data, c ≠ ':' := by
  unfold Nat.repr Nat.toDigits List.asString
  exact toDigitsCore_ne_colon _ _ _ (by simp)

theorem intercalate_go_ne_colon (sep : String) (hsep : ∀ c ∈ sep.data, c ≠ ':') :
    ∀ (xs : List String) (acc : String), (∀ c ∈ acc.data, c ≠ ':') →
      (∀ x ∈ xs, ∀ c ∈ x.data, c ≠ ':') →
      ∀ c ∈ (String.intercalate.go acc sep xs).data, c ≠ ':'
  | [], acc, hacc, _ => by simpa [String.intercalate.go] using hacc
  | x :: xs, acc, hacc, hxs => by
    unfold String.intercalate.go
    apply intercalate_go_ne_colon sep hsep xs
    · intro c hc
      simp only [String.data_append, List.mem_append] at hc
      rcases hc with (hc | hc) | hc
      · exact hacc c hc
      · exact hsep c hc
      · exact hxs x (List.mem_cons_self _ _) c hc
    · exact fun y hy => hxs y (List.mem_cons_of_mem _ hy)

theorem intercalate_ne_colon (sep : String) (hsep : ∀ c ∈ sep.data, c ≠ ':') (xs : List String)
    (hxs : ∀ x ∈ xs, ∀ c ∈ x.data, c ≠ ':') :
    ∀ c ∈ (String.intercalate sep xs).data, c ≠ ':' := by
  cases xs with
  | nil => simp [String.intercalate]
  | cons x xs =>
    unfold String.intercalate
    exact intercalate_go_ne_colon sep hsep xs x (hxs x (List.mem_cons_self _ _))
      (fun y hy => hxs y (List.mem_cons_of_mem _ hy))

theorem prefix_of_prefix_append_cons (c : Char) (b : List Char) :
    ∀ (a q : List Char), (∀ x ∈ q, x ≠ c) → q <+: a ++ c :: b → q <+: a
  | _, [], _, _ => List.nil_prefix
  | [], x :: q, hq, h => by
    simp only [List.nil_append, List.cons_prefix_cons] at h
    exact absurd h.1 (hq x (List.mem_cons_self _ _))
  | y :: a, x :: q, hq, h => by
    simp only [List.cons_append, List.cons_prefix_cons] at h ⊢
    exact ⟨h.1, prefix_of_prefix_append_cons c b a q
      (fun z hz => hq z (List.mem_cons_of_mem _ hz)) h.2⟩

/-- A match of `tempRegex` in `a ++ c :: b`, where `c` is no character of `::temp<digit>`, lies in
`a` or in `b`. -/
theorem regexSearchFrom_temp_append_cons (c : Char) (hc : ¬ IsTempChar c) (b : List Char) :
    ∀ a : List Char, regexSearchFrom tempRegex (a ++ c :: b) = true →
      regexSearchFrom tempRegex a = true ∨ regexSearchFrom tempRegex b = true
  | [], h => by
    have hc' : c ≠ ':' := fun h' => hc (Or.inl h')
    simp only [List.nil_append, regexSearchFrom, tempRegex_cons_of_ne c b hc', Option.isSome_none,
      Bool.false_or] at h
    exact Or.inr h
  | y :: a, h => by
    simp only [List.cons_append, regexSearchFrom, Bool.or_eq_true] at h ⊢
    rcases h with h | h
    · obtain ⟨d, rest, hd, ht⟩ := (tempRegex_isSome_iff _).1 h
      have hp : [':', ':', 't', 'e', 'm', 'p', d] <+: (y :: a) ++ c :: b := ⟨rest, ht.symm⟩
      exact Or.inl (Or.inl (tempRegex_isSome_of_start d hd _
        (prefix_of_prefix_append_cons c b _ _ (tempChars_ne c hc d hd) hp)))
    · rcases regexSearchFrom_temp_append_cons c hc b a h with h | h
      · exact Or.inl (Or.inr h)
      · exact Or.inr h

theorem regexSearchFrom_temp_of_no_colon (a : List Char) (ha : ∀ c ∈ a, c ≠ ':') :
    regexSearchFrom tempRegex a = false := by
  cases h : regexSearchFrom tempRegex a with
  | false => rfl
  | true =>
    have := regexSearchFrom_temp_append_of_no_colon a [] ha (by simpa using h)
    exact absurd this (by decide)

/-- The suffix `writeFunction` appends for the debug line numbers holds no match. -/
theorem regexSearchFrom_temp_debugLineNo (ns : List Nat) :
    regexSearchFrom tempRegex
      ("; #DEBUG_LINE_NO:".data ++ (String.intercalate "," (ns.map Nat.repr)).data) = false := by
  have hz : ∀ c ∈ (String.intercalate "," (ns.map Nat.repr)).data, c ≠ ':' := by
    apply intercalate_ne_colon
    · decide
    · intro x hx
      obtain ⟨n, _, rfl⟩ := List.mem_map.1 hx
      exact repr_ne_colon n
  cases h : regexSearchFrom tempRegex
      ("; #DEBUG_LINE_NO:".data ++ (String.intercalate "," (ns.map Nat.repr)).data) with
  | false => rfl
  | true =>
    have h1 : regexSearchFrom tempRegex
        ("; #DEBUG_LINE_NO".data ++ ':' :: (String.intercalate "," (ns.map Nat.repr)).data) =
        true := by
      simpa using h
    have h2 := regexSearchFrom_temp_append_of_no_colon _ _ (by decide) h1
    cases hz' : (String.intercalate "," (ns.map Nat.repr)).data with
    | nil =>
      rw [hz'] at h2
      exact absurd h2 (by decide)
    | cons z zs =>
      rw [hz'] at h2 hz
      have h3 := regexSearchFrom_temp_of_no_colon (z :: zs) hz
      have h4 : (tempRegex (':' :: z :: zs)).isSome = true := by
        have h5 : ((tempRegex (':' :: z :: zs)).isSome ||
            regexSearchFrom tempRegex (z :: zs)) = true := h2
        rw [h3] at h5
        simpa using h5
      obtain ⟨d, rest, _, ht⟩ := (tempRegex_isSome_iff _).1 h4
      simp only [List.cons.injEq] at ht
      exact absurd ht.2.1 (hz z (List.mem_cons_self _ _))

theorem intercalate_go_append (sep : String) :
    ∀ (xs : List String) (acc x : String),
      String.intercalate.go (acc ++ x) sep xs = acc ++ String.intercalate.go x sep xs
  | [], _, _ => rfl
  | y :: ys, acc, x => by
    unfold String.intercalate.go
    rw [← intercalate_go_append sep ys acc (x ++ sep ++ y), String.append_assoc,
      String.append_assoc, String.append_assoc]

theorem appendLineNumbers_succ (i : Nat) :
    ∀ (result : List Nat) (line : String),
      appendLineNumbers line (i + 1) result =
        String.intercalate.go line "," (result.map Nat.repr)
  | [], _ => rfl
  | n :: result, line => by
    unfold appendLineNumbers
    rw [if_pos (Nat.succ_pos i), appendLineNumbers_succ (i + 1) result, List.map_cons]
    rfl

/-- The loop over the line numbers appends them separated by commas. -/
theorem appendLineNumbers_eq (line : String) (result : List Nat) :
    appendLineNumbers line 0 result = line ++ String.intercalate "," (result.map Nat.repr) := by
  cases result with
  | nil => simp [appendLineNumbers, String.intercalate]
  | cons n result =>
    unfold appendLineNumbers
    rw [if_neg (Nat.lt_irrefl 0), appendLineNumbers_succ 0 result, List.map_cons,
      intercalate_go_append]
    rfl

theorem writeFunction_line_eq (self : PscCoder) (decomp : PscDecompiler) (index : Nat)
    (line : String) :
    writeFunction_line self decomp index line =
      if self.m_PrintDebugLineNo = true then
        if (lineMapAt decomp.getLineMap index).length > 0 then
          line ++ " ; #DEBUG_LINE_NO:" ++
            String.intercalate "," ((lineMapAt decomp.getLineMap index).map Nat.repr)
        else line
      else line := by
  unfold writeFunction_line
  rw [appendLineNumbers_eq]

/-- The body lines `writeFunction` writes hold no `::temp<digits>` when the lines of the
decompiler hold none: neither the indentation nor the line numbers add one. -/
theorem writeFunction_bodyLines_clean (env : Env) (self : PscCoder) (i : Nat)
    (decomp : PscDecompiler)
    (h : ∀ line ∈ decomp.lines, regex_search line tempRegex = false) :
    ∀ line ∈ writeFunction_bodyLines env self i decomp, ¬ ContainsTemp line := by
  intro line hline hc
  have hs := regex_search_of_containsTemp line hc
  simp only [writeFunction_bodyLines, List.mem_map] at hline
  obtain ⟨⟨index, l⟩, hmem, rfl⟩ := hline
  have hl : regex_search l tempRegex = false := h l (List.snd_mem_of_mem_enumFrom hmem)
  unfold regex_search at hs hl
  simp only [String.data_append, indent] at hs
  have h1 := regexSearchFrom_temp_append_of_no_colon _ _
    (by intro c hc; rw [List.eq_of_mem_replicate hc]; decide) hs
  rw [writeFunction_line_eq] at h1
  split_ifs at h1
  · simp only [String.data_append, List.append_assoc] at h1
    have h2 : regexSearchFrom tempRegex (l.data ++ ' ' ::
        ("; #DEBUG_LINE_NO:".data ++
          (String.intercalate "," ((lineMapAt decomp.getLineMap index).map Nat.repr)).data)) =
        true := by
      simpa using h1
    rcases regexSearchFrom_temp_append_cons ' ' (by unfold IsTempChar; decide) _ _ h2 with h3 | h3
    · rw [hl] at h3; exact absurd h3 (by decide)
    · rw [regexSearchFrom_temp_debugLineNo] at h3; exact absurd h3 (by decide)
  · rw [hl] at h1; exact absurd h1 (by decide)
  · rw [hl] at h1; exact absurd h1 (by decide)

theorem fixupFunction_true_clean (object : Pex.Object) (pex : Pex.Binary) (functionName : String)
    (decomp : PscDecompiler) (hobj : _stricmp object.getName.asString "ScriptObject" ≠ 0)
    (hfixed : (fixupFunction object pex functionName decomp).1 = true) :
    ∀ line ∈ (fixupFunction object pex functionName decomp).2.lines,
      regex_search line tempRegex = false := by
  have cFalse := replaceInLines_temp_clean "false" 'f' "alse".data rfl
    (by unfold IsTempChar; decide) (by decide) decomp
  have cNone := replaceInLines_temp_clean "None" 'N' "one".data rfl
    (by unfold IsTempChar; decide) (by decide) decomp
  have cQuest := replaceInLines_temp_clean "questName" 'q' "uestName".data rfl
    (by unfold IsTempChar; decide) (by decide) decomp
  unfold fixupFunction at hfixed ⊢
  simp only [if_neg hobj] at hfixed ⊢
  split_ifs at hfixed ⊢ <;> assumption

/-- C4, as stated, fails. For a debug function of an object named `ScriptObject` that is not on
the allow-list, `fixupFunction` returns true without touching the temporaries: the marker is
written and the body line after it still contains `::temp3`. -/
theorem writeFunction_marker_counterexample :
    writeFunction (sampleEnv (sampleDecomp ["Debug.Trace(::temp3)"] true)) (sampleCoder false false)
        0 (sampleFunction "Log" "None") (sampleObject "ScriptObject")
        (sampleBinary Pex.Binary.ScriptType.SkyrimScript) none "" emptyOut =
      Res.ok ⟨["; Fixup hacks for debug-only function: Log", "Function Log()",
        "  Debug.Trace(::temp3)", "EndFunction"], []⟩ ∧
    ContainsTemp "  Debug.Trace(::temp3)" :=
  ⟨by decide, ⟨"  Debug.Trace(".data, ['3'], [')'], by decide, by decide, by decide⟩⟩

/-- C4, amended. Whenever `writeFunction` writes the marker comment
`; Fixup hacks for debug-only function: <name>` (a function that is not skipped as compiler
generated, not native, classified as a debug function, for which `fixupFunction` returns true)
and the object is not named `ScriptObject` (ignoring case), what it writes is the marker, the
declaration, the docstring, the body lines and the closing line, and no body line contains
`::temp` followed by digits. -/
theorem writeFunction_marker_clean (env : Env) (self : PscCoder) (i : Nat)
    (function : Pex.Function) (object : Pex.Object) (pex : Pex.Binary)
    (functionInfo : Option Pex.DebugInfo.FunctionInfo) (name : String) (out : Out)
    (functionName : String) (isEvent : Bool) (decomp : PscDecompiler)
    (hname : writeFunction_name env function pex name = some (functionName, isEvent))
    (hgen : isCompilerGeneratedFunc functionName object pex.getGameType = false)
    (hnative : function.isNative = false)
    (hdecomp : env.decompile function object functionInfo = Except.ok decomp)
    (hdebug : decomp.isDebugFunction = true)
    (hfixed : (fixupFunction object pex functionName decomp).1 = true)
    (hobj : _stricmp object.getName.asString "ScriptObject" ≠ 0) :
    writeFunction env self i function object pex functionInfo name out =
      Res.ok
        { lines := out.lines ++
            [indent env i ++ "; Fixup hacks for debug-only function: " ++ functionName] ++
            functionLines env self i function pex functionName isEvent
              (fixupFunction object pex functionName decomp).2,
          properties := out.properties } ∧
    ∀ line ∈ writeFunction_bodyLines env self i (fixupFunction object pex functionName decomp).2,
      ¬ ContainsTemp line := by
  constructor
  · unfold writeFunction
    simp only [hname, hgen, hnative, hdecomp, hdebug, hfixed, if_true, Bool.false_eq_true,
      if_false, writeFunction_body_lines, write]
  · exact writeFunction_bodyLines_clean env self i _
      (fixupFunction_true_clean object pex functionName decomp hobj hfixed)

theorem writeFunction_marker_clean_witness :
    writeFunction (sampleEnv (sampleDecomp ["Debug.Trace(::temp3)", "Return"] true))
        (sampleCoder false false) 0 (sampleFunction "warning" "None") (sampleObject "Foo")
        (sampleBinary Pex.Binary.ScriptType.StarfieldScript) none "" emptyOut =
      Res.ok ⟨["; Fixup hacks for debug-only function: warning", "Function warning()",
        "  Debug.Trace(false)", "  Return", "EndFunction"], []⟩ ∧
    (writeFunction (sampleEnv (sampleDecomp ["Debug.Trace(::temp3)", "Return"] true))
        (sampleCoder false false) 0 (sampleFunction "warning" "None") (sampleObject "Foo")
        (sampleBinary Pex.Binary.ScriptType.StarfieldScript) none "" emptyOut =
      Res.ok
        { lines := emptyOut.lines ++
            [indent (sampleEnv (sampleDecomp ["Debug.Trace(::temp3)", "Return"] true)) 0 ++
              "; Fixup hacks for debug-only function: " ++ "warning"] ++
            functionLines (sampleEnv (sampleDecomp ["Debug.Trace(::temp3)", "Return"] true))
              (sampleCoder false false) 0 (sampleFunction "warning" "None")
              (sampleBinary Pex.Binary.ScriptType.StarfieldScript) "warning" false
              (fixupFunction (sampleObject "Foo")
                (sampleBinary Pex.Binary.ScriptType.StarfieldScript) "warning"
                (sampleDecomp ["Debug.Trace(::temp3)", "Return"] true)).2,
          properties := emptyOut.properties } ∧
    ∀ line ∈ writeFunction_bodyLines
        (sampleEnv (sampleDecomp ["Debug.Trace(::temp3)", "Return"] true))
        (sampleCoder false false) 0
        (fixupFunction (sampleObject "Foo")
          (sampleBinary Pex.Binary.ScriptType.StarfieldScript) "warning"
          (sampleDecomp ["Debug.Trace(::temp3)", "Return"] true)).2,
      ¬ ContainsTemp line) :=
  ⟨by decide,
    writeFunction_marker_clean _ _ 0 _ _ _ none "" emptyOut "warning" false
      (sampleDecomp ["Debug.Trace(::temp3)", "Return"] true)
      (by decide) (by decide) (by decide) rfl rfl (by decide) (by decide)⟩

/-- C5. For a function that is not skipped as compiler generated, not native, classified as a debug
function and for which `fixupFunction` returns false, `writeFunction` follows `writeDebugFuncs`:
unset, it writes the single line `; Skipped inoperative debug function <name>`; set, it writes
`; WARNING: possibly inoperative debug function <name>`, then the declaration, the docstring, the
body lines of the decompiler as it constructed them, and the closing line. -/
theorem writeFunction_debug_policy (env : Env) (self : PscCoder) (i : Nat)
    (function : Pex.Function) (object : Pex.Object) (pex : Pex.Binary)
    (functionInfo : Option Pex.DebugInfo.FunctionInfo) (name : String) (out : Out)
    (functionName : String) (isEvent : Bool) (decomp : PscDecompiler)
    (hname : writeFunction_name env function pex name = some (functionName, isEvent))
    (hgen : isCompilerGeneratedFunc functionName object pex.getGameType = false)
    (hnative : function.isNative = false)
    (hdecomp : env.decompile function object functionInfo = Except.ok decomp)
    (hdebug : decomp.isDebugFunction = true)
    (hfixed : (fixupFunction object pex functionName decomp).1 = false) :
    writeFunction env self i function object pex functionInfo name out =
      (if self.m_WriteDebugFuncs = true then
        Res.ok
          { lines := out.lines ++
              [indent env i ++ "; WARNING: possibly inoperative debug function " ++
                functionName] ++
              functionLines env self i function pex functionName isEvent decomp,
            properties := out.properties }
      else
        Res.ok
          { lines := out.lines ++
              [indent env i ++ "; Skipped inoperative debug function " ++ functionName],
            properties := out.properties }) := by
  have hsame := (fixupFunction_false_unchanged object pex functionName decomp hfixed).1
  unfold writeFunction
  simp only [hname, hgen, hnative, hdecomp, hdebug, hfixed, hsame, if_true, Bool.false_eq_true,
    if_false, writeFunction_body_lines, write, String.append_empty]

theorem writeFunction_debug_policy_witness :
    writeFunction (sampleEnv (sampleDecomp ["Debug.Trace(::temp3)"] true)) (sampleCoder true true)
        1 (sampleFunction "Log" "Int") (sampleObject "Foo")
        (sampleBinary Pex.Binary.ScriptType.StarfieldScript) none "" emptyOut =
      (if (sampleCoder true true).m_WriteDebugFuncs = true then
        Res.ok
          { lines := emptyOut.lines ++
              [indent (sampleEnv (sampleDecomp ["Debug.Trace(::temp3)"] true)) 1 ++
                "; WARNING: possibly inoperative debug function " ++ "Log"] ++
              functionLines (sampleEnv (sampleDecomp ["Debug.Trace(::temp3)"] true))
                (sampleCoder true true) 1 (sampleFunction "Log" "Int")
                (sampleBinary Pex.Binary.ScriptType.StarfieldScript) "Log" false
                (sampleDecomp ["Debug.Trace(::temp3)"] true),
            properties := emptyOut.properties }
      else
        Res.ok
          { lines := emptyOut.lines ++
              [indent (sampleEnv (sampleDecomp ["Debug.Trace(::temp3)"] true)) 1 ++
                "; Skipped inoperative debug function " ++ "Log"],
            properties := emptyOut.properties }) ∧
    writeFunction (sampleEnv (sampleDecomp ["Debug.Trace(::temp3)"] true)) (sampleCoder false true)
        1 (sampleFunction "Log" "None") (sampleObject "Foo")
        (sampleBinary Pex.Binary.ScriptType.StarfieldScript) none "" emptyOut =
      Res.ok ⟨["  ; Skipped inoperative debug function Log"], []⟩ :=
  ⟨writeFunction_debug_policy _ _ 1 _ _ _ none "" emptyOut "Log" false
      (sampleDecomp ["Debug.Trace(::temp3)"] true)
      (by decide) (by decide) (by decide) rfl rfl (by decide),
    by decide⟩

/-! ## Loops that may throw -/

theorem Res.error_andThen (r : Res) (k : Out → Res) :
    (r.andThen k).error = match r with
      | Res.ok out => (k out).error
      | Res.throw e _ => some e := by
  cases r <;> rfl

/-- The exception a loop ends with is that of the first element whose body throws, when whether
the body throws does not depend on what has been written. -/
theorem forEach_error {α : Type} (body : α → Out → Res) (f : α → Option Error)
    (hbody : ∀ x out, (body x out).error = f x) :
    ∀ (xs : List α) (out : Out), (forEach xs body out).error = xs.findSome? f
  | [], _ => rfl
  | x :: xs, out => by
    unfold forEach
    rw [Res.error_andThen, List.findSome?_cons]
    have hx := hbody x out
    cases hb : body x out with
    | ok out' =>
      rw [hb] at hx
      simp only [Res.error] at hx
      rw [← hx]
      exact forEach_error body f hbody xs out'
    | throw e out' =>
      rw [hb] at hx
      simp only [Res.error] at hx
      rw [← hx]

theorem findSome?_map_comp {α β γ : Type} (g : α → Option β) (h : β → γ) :
    ∀ xs : List α, xs.findSome? (fun x => (g x).map h) = (xs.findSome? g).map h
  | [] => rfl
  | x :: xs => by
    rw [List.findSome?_cons, List.findSome?_cons]
    cases hg : g x with
    | none => simpa using findSome?_map_comp g h xs
    | some b => simp

theorem findSome?_find? {α : Type} (p : α → Bool) (e : α → Error) :
    ∀ xs : List α, xs.findSome? (fun x => if p x = true then some (e x) else none) =
      (xs.find? p).map e
  | [] => rfl
  | x :: xs => by
    rw [List.findSome?_cons, List.find?_cons]
    by_cases hp : p x = true
    · simp [hp]
    · simp only [hp, Bool.false_eq_true, if_false]
      exact findSome?_find? p e xs

/-! ## `writeStructs` -/

theorem find?_member_eq_none (sInfo : Pex.StructInfo) (orderName : Pex.StringTable.Index) :
    sInfo.getMembers.find? (fun member => member.getName.eq orderName) = none ↔
      memberMissing sInfo orderName = true := by
  unfold memberMissing
  simp [List.find?_eq_none]

theorem writeStructs_names_error (env : Env) (sInfo : Pex.StructInfo) (pex : Pex.Binary)
    (names : List Pex.StringTable.Index) (out : Out) :
    (writeStructs_names env sInfo pex names out).error =
      (names.find? (memberMissing sInfo)).map structMemberNotFound := by
  unfold writeStructs_names
  rw [forEach_error _ (fun orderName =>
    if memberMissing sInfo orderName = true then some (structMemberNotFound orderName) else none)]
  · exact findSome?_find? _ _ names
  · intro orderName out
    cases hf : sInfo.getMembers.find? (fun member => member.getName.eq orderName) with
    | none =>
      have := (find?_member_eq_none sInfo orderName).1 hf
      simp [this, Res.error]
    | some member =>
      have : memberMissing sInfo orderName = false := by
        cases hm : memberMissing sInfo orderName with
        | false => rfl
        | true =>
          rw [(find?_member_eq_none sInfo orderName).2 hm] at hf
          exact absurd hf (by simp)
      simp [this, Res.error]

theorem writeStructs_orders_error (env : Env) (object : Pex.Object) (sInfo : Pex.StructInfo)
    (pex : Pex.Binary) :
    ∀ (orders : List Pex.DebugInfo.StructOrder) (foundInfo : Bool) (out : Out),
      (writeStructs_orders env object sInfo pex orders foundInfo out).2.error =
        (((orders.filter (fun sOrder =>
            sOrder.getObjectName.eq object.getName && sOrder.getOrderName.eq sInfo.getName)).takeWhile
          (fun sOrder => decide (sOrder.getNames.length = sInfo.getMembers.length))).findSome?
            (fun sOrder => sOrder.getNames.find? (memberMissing sInfo))).map structMemberNotFound
  | [], _, _ => rfl
  | sOrder :: rest, foundInfo, out => by
    unfold writeStructs_orders
    by_cases hm : sOrder.getObjectName.eq object.getName = true ∧
        sOrder.getOrderName.eq sInfo.getName = true
    · have hm' : (sOrder.getObjectName.eq object.getName &&
          sOrder.getOrderName.eq sInfo.getName) = true := by simp [hm.1, hm.2]
      have hf : List.filter (fun sOrder : Pex.DebugInfo.StructOrder =>
          sOrder.getObjectName.eq object.getName && sOrder.getOrderName.eq sInfo.getName)
          (sOrder :: rest) = sOrder :: List.filter (fun sOrder : Pex.DebugInfo.StructOrder =>
          sOrder.getObjectName.eq object.getName && sOrder.getOrderName.eq sInfo.getName) rest := by
        rw [List.filter_cons, if_pos hm']
      rw [if_pos hm, hf]
      by_cases hl : sOrder.getNames.length = sInfo.getMembers.length
      · rw [if_pos hl, List.takeWhile_cons_of_pos (by simpa using hl), List.findSome?_cons]
        have hn := writeStructs_names_error env sInfo pex sOrder.getNames out
        cases hr : writeStructs_names env sInfo pex sOrder.getNames out with
        | ok out' =>
          rw [hr] at hn
          simp only [Res.error] at hn
          have hnone : sOrder.getNames.find? (memberMissing sInfo) = none := by
            cases hf : sOrder.getNames.find? (memberMissing sInfo) with
            | none => rfl
            | some n => rw [hf] at hn; simp at hn
          simp only [hnone]
          exact writeStructs_orders_error env object sInfo pex rest true out'
        | throw e out' =>
          rw [hr] at hn
          simp only [Res.error] at hn
          cases hf : sOrder.getNames.find? (memberMissing sInfo) with
          | none => rw [hf] at hn; simp at hn
          | some n =>
            rw [hf] at hn
            simp only [Res.error, Option.map_some']
            exact hn
      · rw [if_neg hl, List.takeWhile_cons_of_neg (by simpa using hl)]
        rfl
    · have hm' : ¬ (sOrder.getObjectName.eq object.getName &&
          sOrder.getOrderName.eq sInfo.getName) = true := by
        simpa using hm
      have hf : List.filter (fun sOrder : Pex.DebugInfo.StructOrder =>
          sOrder.getObjectName.eq object.getName && sOrder.getOrderName.eq sInfo.getName)
          (sOrder :: rest) = List.filter (fun sOrder : Pex.DebugInfo.StructOrder =>
          sOrder.getObjectName.eq object.getName && sOrder.getOrderName.eq sInfo.getName) rest := by
        rw [List.filter_cons, if_neg hm']
      rw [if_neg hm, hf]
      exact writeStructs_orders_error env object sInfo pex rest foundInfo out

theorem writeStructs_struct_error (env : Env) (object : Pex.Object) (pex : Pex.Binary)
    (sInfo : Pex.StructInfo) (out : Out) :
    (writeStructs_struct env object pex sInfo out).error =
      ((processedOrders object sInfo pex).findSome?
        (fun sOrder => sOrder.getNames.find? (memberMissing sInfo))).map structMemberNotFound := by
  unfold writeStructs_struct processedOrders
  simp only
  rw [Res.error_andThen]
  by_cases h0 : pex.getDebugInfo.getStructOrders.length ≠ 0
  · simp only [if_pos h0]
    rw [← writeStructs_orders_error env object sInfo pex pex.getDebugInfo.getStructOrders false
      (write out (indent env 0 ++ "Struct " ++ sInfo.getName.asString))]
    cases (writeStructs_orders env object sInfo pex pex.getDebugInfo.getStructOrders false
      (write out (indent env 0 ++ "Struct " ++ sInfo.getName.asString))).2 <;> rfl
  · simp only [if_neg h0]
    have : pex.getDebugInfo.getStructOrders = [] := by
      apply List.eq_nil_of_length_eq_zero
      simpa using h0
    rw [this]
    rfl

/-- C6. `writeStructs` throws exactly when a struct order it processes (same object and struct,
as many names as the struct has members, no order of another size before it) lists a name no
member of the struct carries; the exception is the runtime error
`Unable to locate the struct member by the name of '<name>'` for the first such name. A struct
order whose number of names differs from the number of members is never among those processed. -/
theorem writeStructs_error (env : Env) (object : Pex.Object) (pex : Pex.Binary) (out : Out) :
    (writeStructs env object pex out).error =
      (firstMissingMember object pex).map structMemberNotFound ∧
    ((∃ e, (writeStructs env object pex out).error = some e) ↔
      ∃ sInfo ∈ object.getStructInfos, ∃ sOrder ∈ processedOrders object sInfo pex,
        ∃ orderName ∈ sOrder.getNames,
          ∀ member ∈ sInfo.getMembers, member.getName.eq orderName = false) ∧
    (∀ sInfo ∈ object.getStructInfos, ∀ sOrder ∈ processedOrders object sInfo pex,
      sOrder.getObjectName.eq object.getName = true ∧
      sOrder.getOrderName.eq sInfo.getName = true ∧
      sOrder.getNames.length = sInfo.getMembers.length) := by
  have herr : (writeStructs env object pex out).error =
      (firstMissingMember object pex).map structMemberNotFound := by
    unfold writeStructs firstMissingMember
    rw [forEach_error _ _ (writeStructs_struct_error env object pex)]
    exact findSome?_map_comp _ _ _
  refine ⟨herr, ?_, ?_⟩
  · rw [herr]
    unfold firstMissingMember
    constructor
    · rintro ⟨e, he⟩
      cases h1 : object.getStructInfos.findSome? (fun sInfo =>
          (processedOrders object sInfo pex).findSome? (fun sOrder =>
            sOrder.getNames.find? (memberMissing sInfo))) with
      | none => rw [h1] at he; simp at he
      | some n =>
        obtain ⟨sInfo, hs, h2⟩ := List.exists_of_findSome?_eq_some h1
        obtain ⟨sOrder, ho, h3⟩ := List.exists_of_findSome?_eq_some h2
        have h4 := List.find?_some h3
        have h5 := List.mem_of_find?_eq_some h3
        refine ⟨sInfo, hs, sOrder, ho, n, h5, ?_⟩
        intro member hmem
        unfold memberMissing at h4
        simp only [Bool.not_eq_true', List.any_eq_false] at h4
        simpa using h4 member hmem
    · rintro ⟨sInfo, hs, sOrder, ho, n, hn, hmiss⟩
      have h4 : memberMissing sInfo n = true := by
        unfold memberMissing
        simp only [Bool.not_eq_true', List.any_eq_false]
        intro member hmem
        simpa using hmiss member hmem
      have h3 : (sOrder.getNames.find? (memberMissing sInfo)).isSome = true := by
        rw [List.find?_isSome]
        exact ⟨n, hn, h4⟩
      have h2 : ((processedOrders object sInfo pex).findSome? (fun sOrder =>
          sOrder.getNames.find? (memberMissing sInfo))).isSome = true := by
        rw [List.findSome?_isSome_iff]
        exact ⟨sOrder, ho, h3⟩
      have h1 : (object.getStructInfos.findSome? (fun sInfo =>
          (processedOrders object sInfo pex).findSome? (fun sOrder =>
            sOrder.getNames.find? (memberMissing sInfo)))).isSome = true := by
        rw [List.findSome?_isSome_iff]
        exact ⟨sInfo, hs, h2⟩
      obtain ⟨n', hn'⟩ := Option.isSome_iff_exists.1 h1
      exact ⟨structMemberNotFound n', by rw [hn']; rfl⟩
  · intro sInfo _ sOrder ho
    unfold processedOrders at ho
    have h1 := List.mem_takeWhile_imp ho
    have h2 := (List.takeWhile_prefix _).subset ho
    simp only [List.mem_filter, Bool.and_eq_true] at h2
    exact ⟨h2.2.1, h2.2.2, by simpa using h1⟩

theorem writeStructs_error_witness :
    writeStructs (sampleEnv (sampleDecomp [] false)) sampleStructObject
        (sampleStructBinary [sampleIndex 32 "y", sampleIndex 33 "z"]) emptyOut =
      Res.throw (Error.runtime_error "Unable to locate the struct member by the name of 'z'")
        ⟨["Struct Point", "  Int y"], []⟩ ∧
    writeStructs (sampleEnv (sampleDecomp [] false)) sampleStructObject
        (sampleStructBinary [sampleIndex 33 "z"]) emptyOut =
      Res.ok ⟨["Struct Point", "  Int x", "  Int y", "EndStruct", ""], []⟩ ∧
    (writeStructs (sampleEnv (sampleDecomp [] false)) sampleStructObject
        (sampleStructBinary [sampleIndex 32 "y", sampleIndex 33 "z"]) emptyOut).error =
      (firstMissingMember sampleStructObject
        (sampleStructBinary [sampleIndex 32 "y", sampleIndex 33 "z"])).map structMemberNotFound :=
  ⟨by decide, by decide,
    (writeStructs_error (sampleEnv (sampleDecomp [] false)) sampleStructObject
      (sampleStructBinary [sampleIndex 32 "y", sampleIndex 33 "z"]) emptyOut).1⟩

/-! ## `writeProperty` -/

/-- C9. `writeProperty` for a property with an auto variable that no variable of the object
carries throws the runtime error `Auto variable for property not found` before it writes anything
for the property: what has been written is what was written before the call. -/
theorem writeProperty_autoVar_missing (env : Env) (self : PscCoder) (i : Nat)
    (prop : Pex.Property) (object : Pex.Object) (pex : Pex.Binary) (out : Out)
    (hauto : prop.hasAutoVar = true)
    (hnone : ∀ var ∈ object.getVariables, var.getName.eq prop.getAutoVarName = false) :
    writeProperty env self i prop object pex out =
      Res.throw (Error.runtime_error "Auto variable for property not found") out ∧
    (writeProperty env self i prop object pex out).out = out := by
  have hfind : Pex.findByName object.getVariables prop.getAutoVarName = none := by
    unfold Pex.findByName
    rw [List.find?_eq_none]
    intro var hvar
    simp [hnone var hvar]
  have h : writeProperty env self i prop object pex out =
      Res.throw (Error.runtime_error "Auto variable for property not found") out := by
    unfold writeProperty writeProperty_decl
    simp only [hauto, if_true, hfind, autoVarNotFound]
  rw [h]
  exact ⟨rfl, rfl⟩

theorem writeProperty_autoVar_missing_witness :
    writeProperty (sampleEnv (sampleDecomp [] false)) (sampleCoder false false) 0
        (sampleProperty 2 "Health" true) (sampleObjectWith "Foo" [sampleProperty 2 "Health" true])
        (sampleBinary Pex.Binary.ScriptType.SkyrimScript) ⟨["Int Property Mana Auto"], []⟩ =
      Res.throw (Error.runtime_error "Auto variable for property not found")
        ⟨["Int Property Mana Auto"], []⟩ ∧
    (writeProperty (sampleEnv (sampleDecomp [] false)) (sampleCoder false false) 0
        (sampleProperty 2 "Health" true) (sampleObjectWith "Foo" [sampleProperty 2 "Health" true])
        (sampleBinary Pex.Binary.ScriptType.SkyrimScript) ⟨["Int Property Mana Auto"], []⟩).out =
      ⟨["Int Property Mana Auto"], []⟩ :=
  writeProperty_autoVar_missing _ _ 0 _ _ _ _ rfl (by decide)

/-! ## `mapType` -/

theorem length_std_replace (s : String) (a b : Char) : (std_replace s a b).length = s.length := by
  unfold std_replace
  rw [String.length_mk, List.length_map]
  rfl

theorem length_substr (s : String) (n : Nat) : (substr s 0 n).length = min n s.length := by
  unfold substr
  rw [String.length_mk, List.drop_zero, List.length_take]
  rfl

theorem isArrayType_length {type : String} (h : isArrayType type = true) : 2 < type.length := by
  unfold isArrayType at h
  rw [Bool.and_eq_true, Bool.and_eq_true] at h
  exact of_decide_eq_true h.1.1

theorem mapTypeLoop_succ (fuel : Nat) (type : String) :
    mapTypeLoop (fuel + 1) type =
      if isArrayType (std_replace type '#' ':') = true then
        mapTypeLoop fuel
          (substr (std_replace type '#' ':') 0 ((std_replace type '#' ':').length - 2)) ++ "[]"
      else
        match prettyTypeNameMap.lookup (str_to_lower (std_replace type '#' ':')) with
        | some a => a
        | none => std_replace type '#' ':' := rfl

theorem mapTypeLoop_of_not_array (fuel : Nat) (type : String)
    (h : isArrayType (std_replace type '#' ':') = false) :
    mapTypeLoop fuel type =
      match prettyTypeNameMap.lookup (str_to_lower (std_replace type '#' ':')) with
      | some a => a
      | none => std_replace type '#' ':' := by
  cases fuel with
  | zero => rfl
  | succ fuel => rw [mapTypeLoop_succ, if_neg (by rw [h]; decide)]

/-- The bound on the steps of `mapTypeLoop` is immaterial once it reaches the length. -/
theorem mapTypeLoop_fuel :
    ∀ (f₁ f₂ : Nat) (type : String), type.length ≤ f₁ → type.length ≤ f₂ →
      mapTypeLoop f₁ type = mapTypeLoop f₂ type := by
  intro f₁
  induction f₁ with
  | zero =>
    intro f₂ type h₁ _
    have hn : isArrayType (std_replace type '#' ':') = false := by
      cases h : isArrayType (std_replace type '#' ':') with
      | false => rfl
      | true =>
        have := isArrayType_length h
        rw [length_std_replace] at this
        omega
    rw [mapTypeLoop_of_not_array 0 type hn, mapTypeLoop_of_not_array f₂ type hn]
  | succ f₁ ih =>
    intro f₂ type h₁ h₂
    cases h : isArrayType (std_replace type '#' ':') with
    | false => rw [mapTypeLoop_of_not_array _ type h, mapTypeLoop_of_not_array f₂ type h]
    | true =>
      have hlen := isArrayType_length h
      rw [length_std_replace] at hlen
      cases f₂ with
      | zero => omega
      | succ f₂ =>
        have hsub : (substr (std_replace type '#' ':') 0
            ((std_replace type '#' ':').length - 2)).length ≤ type.length - 2 := by
          rw [length_substr, length_std_replace]
          omega
        rw [mapTypeLoop_succ, mapTypeLoop_succ, if_pos h, if_pos h,
          ih f₂ _ (by omega) (by omega)]

/-- The equation of `mapType` in the source: the recursion on the element type of an array, which
is two characters shorter, and the lookup otherwise. -/
theorem mapType_eq (type : String) :
    mapType type =
      if isArrayType (std_replace type '#' ':') = true then
        mapType (substr (std_replace type '#' ':') 0
          ((std_replace type '#' ':').length - 2)) ++ "[]"
      else
        match prettyTypeNameMap.lookup (str_to_lower (std_replace type '#' ':')) with
        | some a => a
        | none => std_replace type '#' ':' := by
  unfold mapType
  cases h : isArrayType (std_replace type '#' ':') with
  | false =>
    rw [mapTypeLoop_of_not_array _ type h, if_neg (by decide)]
  | true =>
    have hlen := isArrayType_length h
    rw [length_std_replace] at hlen
    have hsub : (substr (std_replace type '#' ':') 0
        ((std_replace type '#' ':').length - 2)).length ≤ type.length - 2 := by
      rw [length_substr, length_std_replace]
      omega
    obtain ⟨n, hn⟩ : ∃ n, type.length = n + 1 := ⟨type.length - 1, by omega⟩
    rw [hn, mapTypeLoop_succ, if_pos h, if_pos rfl,
      mapTypeLoop_fuel n _ _ (by omega) (Nat.le_refl _)]

theorem prettyTypeNameMap_keys_lower :
    ∀ p ∈ prettyTypeNameMap, ∀ c ∈ p.1.data, c.isLower = true := by
  decide

theorem prettyTypeNameMap_values :
    ∀ p ∈ prettyTypeNameMap, str_to_lower p.2 = p.1 := by
  decide

theorem String.mk_data_eq (s : String) : String.mk s.data = s := rfl

theorem std_replace_of_not_mem (s : String) (a b : Char) (h : ∀ c ∈ s.data, c ≠ a) :
    std_replace s a b = s := by
  unfold std_replace
  have : ∀ l : List Char, (∀ c ∈ l, c ≠ a) → l.map (fun c => if c = a then b else c) = l := by
    intro l
    induction l with
    | nil => intro _; rfl
    | cons x xs ih =>
      intro hl
      rw [List.map_cons, if_neg (hl x (List.mem_cons_self _ _)),
        ih (fun c hc => hl c (List.mem_cons_of_mem _ hc))]
  rw [this s.data h]

theorem mem_of_getElem?_eq_some {l : List Char} {k : Nat} {c : Char} (h : l[k]? = some c) :
    c ∈ l := by
  rw [List.getElem?_eq_some] at h
  obtain ⟨hk, rfl⟩ := h
  exact List.getElem_mem _

theorem isArrayType_mem {type : String} (h : isArrayType type = true) : ']' ∈ type.data := by
  unfold isArrayType at h
  rw [Bool.and_eq_true] at h
  exact mem_of_getElem?_eq_some (by simpa using h.2)

/-- A string whose lowercase form is made of lowercase letters has no `#` and is no array type. -/
theorem plain_of_lower (type : String) (h : ∀ c ∈ (str_to_lower type).data, c.isLower = true) :
    std_replace type '#' ':' = type ∧ isArrayType type = false := by
  have hc : ∀ c ∈ type.data, (tolower c).isLower = true := by
    intro c hc
    apply h
    unfold str_to_lower
    exact List.mem_map_of_mem tolower hc
  constructor
  · apply std_replace_of_not_mem
    intro c hcm hce
    subst hce
    exact absurd (hc _ hcm) (by decide)
  · cases ha : isArrayType type with
    | false => rfl
    | true => exact absurd (hc _ (isArrayType_mem ha)) (by decide)

theorem isArrayType_std_replace (type : String) :
    isArrayType (std_replace type '#' ':') = isArrayType type := by
  have hget : ∀ (k : Nat) (x : Char), x ≠ ':' → x ≠ '#' →
      ((std_replace type '#' ':').data[k]? == some x) = (type.data[k]? == some x) := by
    intro k x hx hx'
    unfold std_replace
    simp only [List.getElem?_map]
    cases hk : type.data[k]? with
    | none => rfl
    | some c =>
      simp only [Option.map_some']
      by_cases hc : c = '#'
      · subst hc
        have h1 : (some ':' == some x) = false := by
          simpa using fun h => hx h.symm
        have h2 : (some '#' == some x) = false := by
          simpa using fun h => hx' h.symm
        rw [if_pos rfl, h1, h2]
      · rw [if_neg hc]
  unfold isArrayType
  rw [length_std_replace, hget _ '[' (by decide) (by decide), hget _ ']' (by decide) (by decide)]

/-- C10. `mapType` maps a type name independently of letter case: when the lowercase form of the
name is a key of `prettyTypeNameMap` the result is the value of the table, which is the name up
to letter case; for any other name that is not an array type the result is the name with every
`#` replaced by `:`. -/
theorem mapType_spec (type : String) :
    (∀ value, prettyTypeNameMap.lookup (str_to_lower type) = some value →
      mapType type = value ∧ EqIgnoreCase value type) ∧
    (prettyTypeNameMap.lookup (str_to_lower type) = none → isArrayType type = false →
      mapType type = std_replace type '#' ':') := by
  constructor
  · intro value h
    obtain ⟨l₁, l₂, hl, _⟩ := List.lookup_eq_some_iff.1 h
    have hmem : (str_to_lower type, value) ∈ prettyTypeNameMap := by
      rw [hl]
      exact List.mem_append_right _ (List.mem_cons_self _ _)
    obtain ⟨hrep, hnarr⟩ := plain_of_lower type (prettyTypeNameMap_keys_lower _ hmem)
    constructor
    · unfold mapType
      rw [mapTypeLoop_of_not_array _ _ (by rw [hrep]; exact hnarr), hrep, h]
    · have hv := prettyTypeNameMap_values _ hmem
      unfold EqIgnoreCase
      unfold str_to_lower at hv
      exact congrArg String.data hv
  · intro h hnarr
    have hnarr' : isArrayType (std_replace type '#' ':') = false := by
      rw [isArrayType_std_replace]; exact hnarr
    unfold mapType
    rw [mapTypeLoop_of_not_array _ _ hnarr']
    by_cases hh : ∀ c ∈ type.data, c ≠ '#'
    · rw [std_replace_of_not_mem type '#' ':' hh, h]
    · cases hlk : prettyTypeNameMap.lookup (str_to_lower (std_replace type '#' ':')) with
      | none => rfl
      | some value =>
        exfalso
        obtain ⟨l₁, l₂, hl, _⟩ := List.lookup_eq_some_iff.1 hlk
        have hmem : (str_to_lower (std_replace type '#' ':'), value) ∈ prettyTypeNameMap := by
          rw [hl]
          exact List.mem_append_right _ (List.mem_cons_self _ _)
        have hlow := prettyTypeNameMap_keys_lower _ hmem
        push_neg at hh
        obtain ⟨c, hc, hce⟩ := hh
        subst hce
        have : tolower ':' ∈ (str_to_lower (std_replace type '#' ':')).data := by
          unfold str_to_lower std_replace
          apply List.mem_map_of_mem tolower
          have := List.mem_map_of_mem (fun c => if c = '#' then ':' else c) hc
          simpa using this
        exact absurd (hlow _ this) (by decide)

theorem mapType_spec_witness :
    prettyTypeNameMap.lookup (str_to_lower "OBJECTreference") = some "ObjectReference" ∧
    (mapType "OBJECTreference" = "ObjectReference" ∧
      EqIgnoreCase "ObjectReference" "OBJECTreference") ∧
    mapType "MyQuest#MyStruct" = std_replace "MyQuest#MyStruct" '#' ':' ∧
    mapType "MyQuest#MyStruct" = "MyQuest:MyStruct" ∧
    mapType "objectREFERENCE[]" = "ObjectReference[]" :=
  ⟨by decide, (mapType_spec "OBJECTreference").1 "ObjectReference" (by decide),
    (mapType_spec "MyQuest#MyStruct").2 (by decide) (by decide), by decide, by decide⟩

/-! ## `writeProperties` -/

theorem writeFunction_error_eq (env : Env) (self : PscCoder) (i : Nat) (function : Pex.Function)
    (object : Pex.Object) (pex : Pex.Binary) (functionInfo : Option Pex.DebugInfo.FunctionInfo)
    (name : String) (out : Out) :
    (writeFunction env self i function object pex functionInfo name out).error =
      writeFunction_error env function object pex functionInfo name := by
  unfold writeFunction writeFunction_error
  cases writeFunction_name env function pex name with
  | none => rfl
  | some p =>
    obtain ⟨functionName, isEvent⟩ := p
    simp only
    cases env.decompile function object functionInfo with
    | error e => split_ifs <;> rfl
    | ok decomp =>
      simp only
      split_ifs <;> rfl

theorem writeFunction_properties (env : Env) (self : PscCoder) (i : Nat)
    (function : Pex.Function) (object : Pex.Object) (pex : Pex.Binary)
    (functionInfo : Option Pex.DebugInfo.FunctionInfo) (name : String) (out : Out) :
    (writeFunction env self i function object pex functionInfo name out).out.properties =
      out.properties := by
  unfold writeFunction
  cases writeFunction_name env function pex name with
  | none => rfl
  | some p =>
    obtain ⟨functionName, isEvent⟩ := p
    simp only
    cases env.decompile function object functionInfo with
    | error e => split_ifs <;> simp only [writeDocString_lines, write, Res.out]
    | ok decomp =>
      simp only
      split_ifs <;> simp only [writeFunction_body_lines, writeDocString_lines, write, Res.out]

theorem writeProperty_decl_cases (env : Env) (prop : Pex.Property) (object : Pex.Object)
    (pex : Pex.Binary) :
    (∃ e, ∀ i, writeProperty_decl env i prop object pex = Except.error e) ∨
    (∀ i, ∃ stream, writeProperty_decl env i prop object pex = Except.ok stream) := by
  unfold writeProperty_decl
  by_cases hauto : prop.hasAutoVar = true
  · simp only [hauto, if_true]
    cases Pex.findByName object.getVariables prop.getAutoVarName with
    | none => exact Or.inl ⟨_, fun _ => rfl⟩
    | some var => exact Or.inr (fun _ => ⟨_, rfl⟩)
  · simp only [hauto, if_false]
    by_cases hro : isPropAutoReadOnly prop = true
    · simp only [hro, if_true]
      cases prop.getReadFunction.getInstructions[0]?.bind (fun ins => ins.getArgs[0]?) with
      | none => exact Or.inl ⟨_, fun _ => rfl⟩
      | some arg => exact Or.inr (fun _ => ⟨_, rfl⟩)
    · simp only [hro, if_false]
      exact Or.inr (fun _ => ⟨_, rfl⟩)

theorem Res.error_andThen_const (r : Res) (k : Out → Res) (c : Option Error)
    (hk : ∀ out, (k out).error = c) : (r.andThen k).error = r.error.or c := by
  cases r with
  | ok out => simpa [Res.andThen, Res.error] using hk out
  | throw e out => rfl

theorem Res.out_andThen_properties (r : Res) (k : Out → Res)
    (hk : ∀ out, (k out).out.properties = out.properties) :
    (r.andThen k).out.properties = r.out.properties := by
  cases r with
  | ok out => exact hk out
  | throw e out => rfl

theorem Res.eq_ok_of_andThen {r : Res} {k : Out → Res} {out' : Out}
    (h : r.andThen k = Res.ok out') : ∃ out₁, r = Res.ok out₁ ∧ k out₁ = Res.ok out' := by
  cases r with
  | ok out => exact ⟨out, rfl, h⟩
  | throw e out => simp [Res.andThen] at h

theorem Res.error_chain (r : Res) (k₂ k₃ : Out → Res) (c : Option Error)
    (h₂ : ∀ out, (k₂ out).error = c) (h₃ : ∀ out, (k₃ out).error = none) :
    ((r.andThen k₂).andThen k₃).error = r.error.or c := by
  rw [Res.error_andThen_const _ k₃ none h₃, Option.or_none, Res.error_andThen_const _ k₂ c h₂]

theorem Res.out_chain_properties (r : Res) (k₂ k₃ : Out → Res)
    (h₂ : ∀ out, (k₂ out).out.properties = out.properties)
    (h₃ : ∀ out, (k₃ out).out.properties = out.properties) :
    ((r.andThen k₂).andThen k₃).out.properties = r.out.properties := by
  rw [Res.out_andThen_properties _ k₃ h₃, Res.out_andThen_properties _ k₂ h₂]

theorem writeProperty_error_eq (env : Env) (self : PscCoder) (i : Nat) (prop : Pex.Property)
    (object : Pex.Object) (pex : Pex.Binary) (out : Out) :
    (writeProperty env self i prop object pex out).error =
      writeProperty_error env prop object pex := by
  rcases writeProperty_decl_cases env prop object pex with ⟨e, he⟩ | hok
  · unfold writeProperty writeProperty_error
    rw [he i, he 0]
    rfl
  · obtain ⟨stream, hs⟩ := hok i
    obtain ⟨stream₀, hs₀⟩ := hok 0
    unfold writeProperty writeProperty_error
    rw [hs, hs₀]
    simp only
    by_cases hplain : prop.hasAutoVar = false ∧ isPropAutoReadOnly prop = false
    · rw [if_pos hplain, if_pos hplain]
      rw [Res.error_chain _ _ _
        (if prop.isWritable = true then
          writeFunction_error env prop.getWriteFunction object pex
            (pex.getDebugInfo.getFunctionInfo object.getName
              (pex.getStringTable.findIdentifier "") prop.getName
              Pex.DebugInfo.FunctionType.Setter) "Set"
        else none)]
      · congr 1
        by_cases hr : prop.isReadable = true
        · rw [if_pos hr, if_pos hr]
          exact writeFunction_error_eq _ _ _ _ _ _ _ _ _
        · rw [if_neg hr, if_neg hr]
          rfl
      · intro out₁
        by_cases hw : prop.isWritable = true
        · rw [if_pos hw, if_pos hw]
          exact writeFunction_error_eq _ _ _ _ _ _ _ _ _
        · rw [if_neg hw, if_neg hw]
          rfl
      · intro out₁
        rfl
    · rw [if_neg hplain, if_neg hplain]
      rfl

theorem writeProperty_properties (env : Env) (self : PscCoder) (i : Nat) (prop : Pex.Property)
    (object : Pex.Object) (pex : Pex.Binary) (out out' : Out)
    (h : writeProperty env self i prop object pex out = Res.ok out') :
    out'.properties = out.properties ++ [prop] := by
  have hout : out' = (writeProperty env self i prop object pex out).out := by rw [h]; rfl
  rw [hout]
  unfold writeProperty at h ⊢
  cases hd : writeProperty_decl env i prop object pex with
  | error e => rw [hd] at h; simp at h
  | ok stream =>
    simp only
    by_cases hplain : prop.hasAutoVar = false ∧ isPropAutoReadOnly prop = false
    · rw [if_pos hplain, Res.out_chain_properties]
      · by_cases hr : prop.isReadable = true
        · rw [if_pos hr, writeFunction_properties, writeDocString_lines]
        · rw [if_neg hr, writeDocString_lines]
          rfl
      · intro out₁
        by_cases hw : prop.isWritable = true
        · rw [if_pos hw]
          exact writeFunction_properties _ _ _ _ _ _ _ _ _
        · rw [if_neg hw]
          rfl
      · intro out₁
        rfl
    · rw [if_neg hplain, writeDocString_lines]
      rfl

/-- The record of properties after a loop that returned: each element added its own. -/
theorem forEach_properties {α : Type} (body : α → Out → Res) (g : α → List Pex.Property)
    (hbody : ∀ x out out', body x out = Res.ok out' → out'.properties = out.properties ++ g x) :
    ∀ (xs : List α) (out out' : Out), forEach xs body out = Res.ok out' →
      out'.properties = out.properties ++ xs.flatMap g
  | [], out, out', h => by
    simp only [forEach, Res.ok.injEq] at h
    subst h
    simp
  | x :: xs, out, out', h => by
    unfold forEach at h
    obtain ⟨out₁, h₁, h₂⟩ := Res.eq_ok_of_andThen h
    rw [forEach_properties body g hbody xs out₁ out' h₂, hbody x out out₁ h₁,
      List.flatMap_cons, List.append_assoc]

theorem writeProperties_names_error (env : Env) (self : PscCoder) (propertyIndent : Nat)
    (object : Pex.Object) (pex : Pex.Binary) (names : List Pex.StringTable.Index) (out : Out) :
    (writeProperties_names env self propertyIndent object pex names out).error =
      names.findSome? (propertyName_error env object pex) := by
  unfold writeProperties_names
  apply forEach_error
  intro propName out
  unfold propertyName_error
  cases object.getProperties.find? (fun prop => prop.getName.eq propName) with
  | none => rfl
  | some prop => exact writeProperty_error_eq _ _ _ _ _ _ _

theorem writeProperties_names_properties (env : Env) (self : PscCoder) (propertyIndent : Nat)
    (object : Pex.Object) (pex : Pex.Binary) (names : List Pex.StringTable.Index)
    (out out' : Out)
    (h : writeProperties_names env self propertyIndent object pex names out = Res.ok out') :
    out'.properties = out.properties ++ names.flatMap (propertyNamed object) := by
  unfold writeProperties_names at h
  refine forEach_properties _ (propertyNamed object) ?_ names out out' h
  intro propName out₁ out₂ hb
  unfold propertyNamed
  cases hf : object.getProperties.find? (fun prop => prop.getName.eq propName) with
  | none => rw [hf] at hb; simp at hb
  | some prop =>
    rw [hf] at hb
    simpa using writeProperty_properties _ _ _ _ _ _ _ _ hb

/-- The exception of the body of the loop over the property groups. -/
theorem writeProperties_group_error (env : Env) (self : PscCoder) (object : Pex.Object)
    (pex : Pex.Binary) (propGroup : Pex.DebugInfo.PropertyGroup) (out : Out) :
    (writeProperties_group env self object pex propGroup out).error =
      if propGroup.getObjectName.eq object.getName = true then
        propGroup.getNames.findSome? (propertyName_error env object pex)
      else none := by
  unfold writeProperties_group
  split_ifs
  · rw [Res.error_andThen_const _
      (fun out => Res.ok (write (write out (indent env 0 ++ "EndGroup")) "")) none (fun _ => rfl),
      Option.or_none, writeProperties_names_error]
  · exact writeProperties_names_error _ _ _ _ _ _ _
  · rfl

theorem writeProperties_group_properties (env : Env) (self : PscCoder) (object : Pex.Object)
    (pex : Pex.Binary) (propGroup : Pex.DebugInfo.PropertyGroup) (out out' : Out)
    (h : writeProperties_group env self object pex propGroup out = Res.ok out') :
    out'.properties = out.properties ++
      (if propGroup.getObjectName.eq object.getName = true then
        propGroup.getNames.flatMap (propertyNamed object) else []) := by
  unfold writeProperties_group at h
  split_ifs at h ⊢
  · obtain ⟨out₁, h₁, h₂⟩ := Res.eq_ok_of_andThen h
    simp only [Res.ok.injEq] at h₂
    subst h₂
    have hp := writeProperties_names_properties _ _ _ _ _ _ _ _ h₁
    simp only [write, writeDocString_lines] at hp ⊢
    exact hp
  · exact writeProperties_names_properties _ _ _ _ _ _ _ _ h
  · simp only [Res.ok.injEq] at h
    subst h
    simp

theorem findSome?_groups {α β : Type} (m : α → Bool) (names : α → List β)
    (f : β → Option Error) :
    ∀ groups : List α,
      groups.findSome? (fun g => if m g = true then (names g).findSome? f else none) =
        ((groups.filter m).flatMap names).findSome? f
  | [] => rfl
  | g :: groups => by
    rw [List.findSome?_cons, List.filter_cons]
    by_cases hm : m g = true
    · rw [if_pos hm, if_pos hm, List.flatMap_cons, List.findSome?_append,
        ← findSome?_groups m names f groups]
      cases (names g).findSome? f <;> rfl
    · rw [if_neg hm, if_neg hm]
      exact findSome?_groups m names f groups

theorem flatMap_groups {α β γ : Type} (m : α → Bool) (names : α → List β) (h : β → List γ) :
    ∀ groups : List α,
      groups.flatMap (fun g => if m g = true then (names g).flatMap h else []) =
        ((groups.filter m).flatMap names).flatMap h
  | [] => rfl
  | g :: groups => by
    rw [List.flatMap_cons, List.filter_cons, flatMap_groups m names h groups]
    by_cases hm : m g = true
    · rw [if_pos hm, if_pos hm, List.flatMap_cons, List.flatMap_append]
    · rw [if_neg hm, if_neg hm, List.nil_append]

theorem foldl_total {α β : Type} (m : α → Bool) (names : α → List β) :
    ∀ (groups : List α) (total : Nat),
      groups.foldl (fun total g => if m g = true then total + (names g).length else total) total =
        total + ((groups.filter m).flatMap names).length
  | [], total => rfl
  | g :: groups, total => by
    rw [List.foldl_cons, foldl_total m names groups, List.filter_cons]
    by_cases hm : m g = true
    · rw [if_pos hm, if_pos hm, List.flatMap_cons, List.length_append, Nat.add_assoc]
    · rw [if_neg hm, if_neg hm]

theorem totalProperties_eq (object : Pex.Object) (pex : Pex.Binary) :
    totalProperties object pex = (groupNames object pex).length := by
  unfold totalProperties groupNames
  rw [foldl_total (fun propGroup : Pex.DebugInfo.PropertyGroup =>
    propGroup.getObjectName.eq object.getName) (fun propGroup => propGroup.getNames)]
  exact Nat.zero_add _

theorem groups_ne_nil_of_mem (object : Pex.Object) (pex : Pex.Binary)
    (n : Pex.StringTable.Index) (h : n ∈ groupNames object pex) :
    pex.getDebugInfo.getPropertyGroups.length ≠ 0 := by
  intro h0
  have : pex.getDebugInfo.getPropertyGroups = [] := List.eq_nil_of_length_eq_zero h0
  unfold groupNames at h
  rw [this] at h
  simp at h

/-- With the debug info in use, the exception of `writeProperties` is that of the first name, in
the order of the groups, at which the loop throws. -/
theorem writeProperties_debug_error (env : Env) (self : PscCoder) (object : Pex.Object)
    (pex : Pex.Binary) (out : Out)
    (h : pex.getDebugInfo.getPropertyGroups.length ≠ 0 ∧
      totalProperties object pex = object.getProperties.length) :
    (writeProperties env self object pex out).error =
      (groupNames object pex).findSome? (propertyName_error env object pex) := by
  unfold writeProperties groupNames
  rw [if_pos h, forEach_error _ _ (writeProperties_group_error env self object pex)]
  exact findSome?_groups _ _ _ _

theorem writeProperties_debug_properties (env : Env) (self : PscCoder) (object : Pex.Object)
    (pex : Pex.Binary) (out out' : Out)
    (h : pex.getDebugInfo.getPropertyGroups.length ≠ 0 ∧
      totalProperties object pex = object.getProperties.length)
    (hok : writeProperties env self object pex out = Res.ok out') :
    out'.properties = out.properties ++ (groupNames object pex).flatMap (propertyNamed object) := by
  unfold writeProperties at hok
  rw [if_pos h] at hok
  rw [forEach_properties _ _ (writeProperties_group_properties env self object pex) _ _ _ hok]
  unfold groupNames
  rw [flatMap_groups]

theorem findSome?_first {β : Type} (missing : β → Bool) (f : β → Option Error) (n : β)
    (e : Error) (hn : f n = some e) :
    ∀ names : List β, names.find? missing = some n →
      (∀ m ∈ names.takeWhile (fun m => !missing m), f m = none) →
      names.findSome? f = some e
  | [], h, _ => by simp at h
  | x :: xs, h, hpre => by
    rw [List.findSome?_cons]
    by_cases hx : missing x = true
    · rw [List.find?_cons_of_pos _ hx] at h
      simp only [Option.some.injEq] at h
      subst h
      rw [hn]
    · have hx' : (!missing x) = true := by simpa using hx
      rw [List.find?_cons_of_neg _ hx] at h
      have htw : List.takeWhile (fun m => !missing m) (x :: xs) =
          x :: List.takeWhile (fun m => !missing m) xs := by
        rw [List.takeWhile_cons, if_pos hx']
      rw [htw] at hpre
      rw [hpre x (List.mem_cons_self _ _)]
      exact findSome?_first missing f n e hn xs h
        (fun m hm => hpre m (List.mem_cons_of_mem _ hm))

theorem find?_property_eq_none (object : Pex.Object) (propName : Pex.StringTable.Index) :
    object.getProperties.find? (fun prop => prop.getName.eq propName) = none ↔
      propertyMissing object propName = true := by
  unfold propertyMissing
  simp [List.find?_eq_none]

/-- C7. When some property group of the object lists a name no property carries (`n` the first
such name) and no property named before it fails to be written: if the groups list in total as
many names as the object has properties, `writeProperties` throws the runtime error
`Unable to locate the property by the name of '<n>' referenced in the debug info`; if the totals
differ, the debug groups are ignored: `writeProperties` is the loop over the properties in the
order of the file, which never looks a name up. -/
theorem writeProperties_missing_name (env : Env) (self : PscCoder) (object : Pex.Object)
    (pex : Pex.Binary) (out : Out) (n : Pex.StringTable.Index)
    (hmiss : (groupNames object pex).find? (propertyMissing object) = some n)
    (hearlier : ∀ m ∈ (groupNames object pex).takeWhile (fun m => !propertyMissing object m),
      ∀ prop, object.getProperties.find? (fun prop => prop.getName.eq m) = some prop →
        ∀ i out', (writeProperty env self i prop object pex out').error = none) :
    (totalProperties object pex = object.getProperties.length →
      (writeProperties env self object pex out).error =
        some (Error.runtime_error ("Unable to locate the property by the name of '" ++
          n.asString ++ "' referenced in the debug info"))) ∧
    (totalProperties object pex ≠ object.getProperties.length →
      writeProperties env self object pex out =
        forEach object.getProperties
          (fun prop out => writeProperty env self 0 prop object pex out) out) := by
  constructor
  · intro htotal
    have hne := groups_ne_nil_of_mem object pex n (List.mem_of_find?_eq_some hmiss)
    rw [writeProperties_debug_error env self object pex out ⟨hne, htotal⟩]
    apply findSome?_first (propertyMissing object) _ n _ _ _ hmiss
    · intro m hm
      unfold propertyName_error
      cases hf : object.getProperties.find? (fun prop => prop.getName.eq m) with
      | none =>
        have h1 := (find?_property_eq_none object m).1 hf
        have h2 := (List.mem_takeWhile_imp hm)
        rw [h1] at h2
        exact absurd h2 (by decide)
      | some prop =>
        simp only
        rw [← writeProperty_error_eq env self 0 prop object pex emptyOut]
        exact hearlier m hm prop hf 0 emptyOut
    · unfold propertyName_error
      rw [(find?_property_eq_none object n).2 (List.find?_some hmiss)]
      rfl
  · intro htotal
    unfold writeProperties
    rw [if_neg (fun h => htotal h.2)]

theorem writeProperties_missing_name_witness :
    (groupNames
        (sampleObjectWith "Foo" [sampleProperty 2 "Health" false, sampleProperty 3 "Mana" false])
        (sampleBinaryWith Pex.Binary.ScriptType.SkyrimScript
          [sampleGroup "Foo" [sampleIndex 2 "Health", sampleIndex 5 "Stamina"]])).find?
      (propertyMissing
        (sampleObjectWith "Foo" [sampleProperty 2 "Health" false, sampleProperty 3 "Mana" false])) =
      some (sampleIndex 5 "Stamina") ∧
    (writeProperties (sampleEnv (sampleDecomp [] false)) (sampleCoder false false)
        (sampleObjectWith "Foo" [sampleProperty 2 "Health" false, sampleProperty 3 "Mana" false])
        (sampleBinaryWith Pex.Binary.ScriptType.SkyrimScript
          [sampleGroup "Foo" [sampleIndex 2 "Health", sampleIndex 5 "Stamina"]])
        emptyOut).error =
      some (Error.runtime_error ("Unable to locate the property by the name of '" ++
        (sampleIndex 5 "Stamina").asString ++ "' referenced in the debug info")) ∧
    writeProperties (sampleEnv (sampleDecomp [] false)) (sampleCoder false false)
        (sampleObjectWith "Foo" [sampleProperty 2 "Health" false, sampleProperty 3 "Mana" false])
        (sampleBinaryWith Pex.Binary.ScriptType.SkyrimScript
          [sampleGroup "Foo" [sampleIndex 2 "Health", sampleIndex 5 "Stamina"]])
        emptyOut =
      Res.throw (Error.runtime_error
          "Unable to locate the property by the name of 'Stamina' referenced in the debug info")
        ⟨["Int Property Health", "EndProperty"], [sampleProperty 2 "Health" false]⟩ :=
  ⟨by decide,
    (writeProperties_missing_name (sampleEnv (sampleDecomp [] false)) (sampleCoder false false)
      (sampleObjectWith "Foo" [sampleProperty 2 "Health" false, sampleProperty 3 "Mana" false])
      (sampleBinaryWith Pex.Binary.ScriptType.SkyrimScript
        [sampleGroup "Foo" [sampleIndex 2 "Health", sampleIndex 5 "Stamina"]])
      emptyOut (sampleIndex 5 "Stamina") (by decide)
      (by
        intro m hm prop hf i out'
        rw [writeProperty_error_eq]
        have htw : (groupNames
            (sampleObjectWith "Foo"
              [sampleProperty 2 "Health" false, sampleProperty 3 "Mana" false])
            (sampleBinaryWith Pex.Binary.ScriptType.SkyrimScript
              [sampleGroup "Foo" [sampleIndex 2 "Health", sampleIndex 5 "Stamina"]])).takeWhile
            (fun m => !propertyMissing
              (sampleObjectWith "Foo"
                [sampleProperty 2 "Health" false, sampleProperty 3 "Mana" false]) m) =
            [sampleIndex 2 "Health"] := by decide
        rw [htw, List.mem_singleton] at hm
        subst hm
        have hfind : (sampleObjectWith "Foo"
            [sampleProperty 2 "Health" false, sampleProperty 3 "Mana" false]).getProperties.find?
            (fun prop => prop.getName.eq (sampleIndex 2 "Health")) =
            some (sampleProperty 2 "Health" false) := by decide
        rw [hfind, Option.some.injEq] at hf
        subst hf
        decide)).1 (by decide),
    by decide⟩

/-- C8, as stated, fails. Debug info whose group lists the name `Health` twice has as many names
as the object has properties; `writeProperties` completes, writes `Health` twice and never
writes `Mana`. -/
theorem writeProperties_permutation_counterexample :
    writeProperties (sampleEnv (sampleDecomp [] false)) (sampleCoder false false)
        (sampleObjectWith "Foo" [sampleProperty 2 "Health" false, sampleProperty 3 "Mana" false])
        (sampleBinaryWith Pex.Binary.ScriptType.SkyrimScript
          [sampleGroup "Foo" [sampleIndex 2 "Health", sampleIndex 2 "Health"]])
        emptyOut =
      Res.ok ⟨["Int Property Health", "EndProperty", "Int Property Health", "EndProperty"],
        [sampleProperty 2 "Health" false, sampleProperty 2 "Health" false]⟩ ∧
    ¬ List.Perm [sampleProperty 2 "Health" false, sampleProperty 2 "Health" false]
      (sampleObjectWith "Foo"
        [sampleProperty 2 "Health" false, sampleProperty 3 "Mana" false]).getProperties := by
  refine ⟨by decide, fun h => ?_⟩
  have hmem : sampleProperty 3 "Mana" false ∈
      [sampleProperty 2 "Health" false, sampleProperty 2 "Health" false] :=
    h.symm.subset (by decide)
  exact absurd hmem (by decide)

theorem flatMap_singleton_self {α : Type} : ∀ xs : List α, xs.flatMap (fun x => [x]) = xs
  | [] => rfl
  | x :: xs => by
    rw [List.flatMap_cons, flatMap_singleton_self xs]
    rfl

/-- The properties written for a list of names every one of which some property carries: as many
as names, each a property of the object carrying the name at the same place. -/
theorem propertyNamed_flatMap (object : Pex.Object) :
    ∀ names : List Pex.StringTable.Index,
      (∀ n ∈ names, object.getProperties.find? (fun prop => prop.getName.eq n) ≠ none) →
      (names.flatMap (propertyNamed object)).map (fun prop => prop.getName.asIndex) =
        names.map (fun n => n.asIndex) ∧
      names.flatMap (propertyNamed object) ⊆ object.getProperties
  | [], _ => ⟨rfl, fun _ h => by simp at h⟩
  | n :: names, hall => by
    obtain ⟨ih₁, ih₂⟩ := propertyNamed_flatMap object names
      (fun m hm => hall m (List.mem_cons_of_mem _ hm))
    cases hf : object.getProperties.find? (fun prop => prop.getName.eq n) with
    | none => exact absurd hf (hall n (List.mem_cons_self _ _))
    | some prop =>
      have hname : prop.getName.asIndex = n.asIndex := by
        have := List.find?_some hf
        simpa [Pex.StringTable.Index.eq, Pex.StringTable.Index.asIndex] using this
      have hcons : (n :: names).flatMap (propertyNamed object) =
          prop :: names.flatMap (propertyNamed object) := by
        rw [List.flatMap_cons]
        unfold propertyNamed
        rw [hf]
        rfl
      rw [hcons]
      constructor
      · rw [List.map_cons, List.map_cons, ih₁, hname]
      · intro x hx
        rcases List.mem_cons.1 hx with rfl | hx
        · exact List.mem_of_find?_eq_some hf
        · exact ih₂ hx

/-- C8, amended. When the property groups of the object list no name twice and `writeProperties`
completes without error, each property of the object is written exactly once: the sequence of
properties written is a permutation of the property list of the object. -/
theorem writeProperties_permutation (env : Env) (self : PscCoder) (object : Pex.Object)
    (pex : Pex.Binary) (out out' : Out)
    (hnodup : ((groupNames object pex).map (fun n => n.asIndex)).Nodup)
    (hok : writeProperties env self object pex out = Res.ok out') :
    ∃ written : List Pex.Property,
      out'.properties = out.properties ++ written ∧ written.Perm object.getProperties := by
  by_cases h : pex.getDebugInfo.getPropertyGroups.length ≠ 0 ∧
      totalProperties object pex = object.getProperties.length
  · refine ⟨(groupNames object pex).flatMap (propertyNamed object),
      writeProperties_debug_properties env self object pex out out' h hok, ?_⟩
    have herr := writeProperties_debug_error env self object pex out h
    rw [hok] at herr
    have hall : ∀ n ∈ groupNames object pex,
        object.getProperties.find? (fun prop => prop.getName.eq n) ≠ none := by
      intro n hn hf
      have h1 := List.findSome?_eq_none_iff.1 herr.symm n hn
      unfold propertyName_error at h1
      rw [hf] at h1
      simp at h1
    obtain ⟨hmap, hsub⟩ := propertyNamed_flatMap object (groupNames object pex) hall
    have hnd : ((groupNames object pex).flatMap (propertyNamed object)).Nodup := by
      apply List.Nodup.of_map (fun prop : Pex.Property => prop.getName.asIndex)
      rw [hmap]
      exact hnodup
    have hlen : object.getProperties.length ≤
        ((groupNames object pex).flatMap (propertyNamed object)).length := by
      have h1 := congrArg List.length hmap
      rw [List.length_map, List.length_map] at h1
      rw [h1, ← totalProperties_eq, h.2]
    exact (List.subperm_of_subset hnd hsub).perm_of_length_le hlen
  · refine ⟨object.getProperties, ?_, List.Perm.refl _⟩
    unfold writeProperties at hok
    rw [if_neg h] at hok
    have := forEach_properties _ (fun prop : Pex.Property => [prop])
      (fun prop out₁ out₂ hb => writeProperty_properties env self 0 prop object pex out₁ out₂ hb)
      _ _ _ hok
    rw [this, flatMap_singleton_self]

theorem writeProperties_permutation_witness :
    writeProperties (sampleEnv (sampleDecomp [] false)) (sampleCoder false false)
        (sampleObjectWith "Foo" [sampleProperty 2 "Health" false, sampleProperty 3 "Mana" false])
        (sampleBinaryWith Pex.Binary.ScriptType.SkyrimScript
          [sampleGroup "Foo" [sampleIndex 3 "Mana", sampleIndex 2 "Health"]])
        emptyOut =
      Res.ok ⟨["Int Property Mana", "EndProperty", "Int Property Health", "EndProperty"],
        [sampleProperty 3 "Mana" false, sampleProperty 2 "Health" false]⟩ ∧
    ∃ written : List Pex.Property,
      [sampleProperty 3 "Mana" false, sampleProperty 2 "Health" false] =
        emptyOut.properties ++ written ∧
      written.Perm (sampleObjectWith "Foo"
        [sampleProperty 2 "Health" false, sampleProperty 3 "Mana" false]).getProperties :=
  ⟨by decide,
    writeProperties_permutation (sampleEnv (sampleDecomp [] false)) (sampleCoder false false)
      (sampleObjectWith "Foo" [sampleProperty 2 "Health" false, sampleProperty 3 "Mana" false])
      (sampleBinaryWith Pex.Binary.ScriptType.SkyrimScript
        [sampleGroup "Foo" [sampleIndex 3 "Mana", sampleIndex 2 "Health"]])
      emptyOut
      ⟨["Int Property Mana", "EndProperty", "Int Property Health", "EndProperty"],
        [sampleProperty 3 "Mana" false, sampleProperty 2 "Health" false]⟩
      (by decide) (by decide)⟩

/-! ## `isCompilerGeneratedFunc` -/

theorem tolower_toNat_ne_zero (c : Char) (h : c ≠ '\x00') : (tolower c).toNat ≠ 0 := by
  intro h0
  apply h
  rw [← tolower_eq_nul_iff]
  rcases tolower_cases c with ⟨h1, _⟩ | ⟨h1, _, h3⟩
  · rw [h1] at h0 ⊢
    rw [← Char.ofNat_toNat c, h0]
  · omega

theorem stricmpLoop_eq_zero_imp :
    ∀ a b : List Char, (∀ c ∈ a, c ≠ '\x00') → (∀ c ∈ b, c ≠ '\x00') →
      stricmpLoop a b = 0 → a.map tolower = b.map tolower
  | [], [], _, _, _ => rfl
  | [], d :: _, _, hb, h => by
    exfalso
    have := tolower_toNat_ne_zero d (hb d (List.mem_cons_self _ _))
    simp only [stricmpLoop] at h
    omega
  | c :: _, [], ha, _, h => by
    exfalso
    have := tolower_toNat_ne_zero c (ha c (List.mem_cons_self _ _))
    simp only [stricmpLoop] at h
    omega
  | c :: cs, d :: ds, ha, hb, h => by
    simp only [stricmpLoop] at h
    by_cases hcd : tolower c = tolower d
    · rw [if_pos hcd] at h
      rw [List.map_cons, List.map_cons, hcd,
        stricmpLoop_eq_zero_imp cs ds (fun x hx => ha x (List.mem_cons_of_mem _ hx))
          (fun x hx => hb x (List.mem_cons_of_mem _ hx)) h]
    · exfalso
      rw [if_neg hcd] at h
      apply hcd
      have hn : (tolower c).toNat = (tolower d).toNat := by omega
      rw [← Char.ofNat_toNat (tolower c), hn, Char.ofNat_toNat]

theorem c_str_of_no_nul (s : String) (h : ∀ c ∈ s.data, c ≠ '\x00') : c_str s = s.data := by
  unfold c_str
  rw [List.takeWhile_eq_self_iff]
  intro c hc
  simpa using h c hc

theorem c_str_no_nul (s : String) : ∀ c ∈ c_str s, c ≠ '\x00' := by
  intro c hc
  have := List.mem_takeWhile_imp hc
  simpa using this

/-- For a name without NUL character, `_stricmp` is zero exactly for equality ignoring case. -/
theorem stricmp_eq_zero_iff (a b : String) (ha : ∀ c ∈ a.data, c ≠ '\x00')
    (hb : ∀ c ∈ b.data, c ≠ '\x00') : _stricmp a b = 0 ↔ EqIgnoreCase a b := by
  constructor
  · intro h
    unfold _stricmp at h
    have := stricmpLoop_eq_zero_imp _ _ (c_str_no_nul a) (c_str_no_nul b) h
    rw [c_str_of_no_nul a ha, c_str_of_no_nul b hb] at this
    exact this
  · exact stricmp_eq_zero_of_eqIgnoreCase a b

theorem str_to_lower_eq_iff (name key : String) (hkey : key.data.map tolower = key.data) :
    str_to_lower name = key ↔ EqIgnoreCase name key := by
  unfold str_to_lower EqIgnoreCase
  rw [hkey]
  constructor
  · intro h
    rw [← h]
  · intro h
    rw [h]

/-- C11. `isCompilerGeneratedFunc` is true exactly when the object is not named `ScriptObject`
(as `_stricmp` compares, ignoring case) and the name is `getstate` or `gotostate` ignoring case;
so it is false for every name in an object named `ScriptObject`, and it does not depend on the
script type. For an object name without NUL character the comparison of `_stricmp` is equality
ignoring case. -/
theorem isCompilerGeneratedFunc_spec (name : String) (object : Pex.Object)
    (scriptType : Pex.Binary.ScriptType) :
    (isCompilerGeneratedFunc name object scriptType = true ↔
      _stricmp object.getName.asString "ScriptObject" ≠ 0 ∧
        (EqIgnoreCase name "getstate" ∨ EqIgnoreCase name "gotostate")) ∧
    (EqIgnoreCase object.getName.asString "ScriptObject" →
      isCompilerGeneratedFunc name object scriptType = false) ∧
    (∀ scriptType' : Pex.Binary.ScriptType,
      isCompilerGeneratedFunc name object scriptType' =
        isCompilerGeneratedFunc name object scriptType) ∧
    ((∀ c ∈ object.getName.asString.data, c ≠ '\x00') →
      (_stricmp object.getName.asString "ScriptObject" = 0 ↔
        EqIgnoreCase object.getName.asString "ScriptObject")) := by
  have h1 := str_to_lower_eq_iff name "getstate" (by decide)
  have h2 := str_to_lower_eq_iff name "gotostate" (by decide)
  have key : ∀ st : Pex.Binary.ScriptType, (isCompilerGeneratedFunc name object st = true ↔
      _stricmp object.getName.asString "ScriptObject" ≠ 0 ∧
        (EqIgnoreCase name "getstate" ∨ EqIgnoreCase name "gotostate")) := by
    intro st
    unfold isCompilerGeneratedFunc
    simp only [List.mem_cons, List.mem_singleton, List.not_mem_nil, or_false, and_false,
      if_false, h1, h2]
    by_cases hs : _stricmp object.getName.asString "ScriptObject" = 0
    · simp [hs]
    · simp [hs, h1, h2]
  refine ⟨key scriptType, ?_, ?_, ?_⟩
  · intro he
    have hs := stricmp_eq_zero_of_eqIgnoreCase _ _ he
    cases h : isCompilerGeneratedFunc name object scriptType with
    | false => rfl
    | true => exact absurd hs ((key scriptType).1 h).1
  · intro st
    have k1 := key st
    have k2 := key scriptType
    cases h : isCompilerGeneratedFunc name object scriptType with
    | true => exact k1.2 (k2.1 h)
    | false =>
      cases h' : isCompilerGeneratedFunc name object st with
      | false => rfl
      | true => rw [k2.2 (k1.1 h')] at h; exact absurd h (by decide)
  · intro hn
    exact stricmp_eq_zero_iff _ _ hn (by decide)

theorem isCompilerGeneratedFunc_spec_witness :
    isCompilerGeneratedFunc "GoToState" (sampleObject "Foo")
        Pex.Binary.ScriptType.SkyrimScript = true ∧
    isCompilerGeneratedFunc "GoToState" (sampleObject "scriptOBJECT")
        Pex.Binary.ScriptType.StarfieldScript = false ∧
    isCompilerGeneratedFunc "OnInit" (sampleObject "Foo")
        Pex.Binary.ScriptType.StarfieldScript = false ∧
    (_stricmp (sampleObject "Foo").getName.asString "ScriptObject" = 0 ↔
      EqIgnoreCase (sampleObject "Foo").getName.asString "ScriptObject") :=
  ⟨by decide, by decide, by decide,
    (isCompilerGeneratedFunc_spec "GoToState" (sampleObject "Foo")
      Pex.Binary.ScriptType.SkyrimScript).2.2.2 (by decide)⟩

/-! ## `getFunctionToWrite` -/

theorem foldl_props (id : Pex.StringTable.Index) :
    ∀ (props : List Pex.Property) (func : FunctionToWrite),
      props.foldl
        (fun func prop =>
          if prop.getAutoVarName.eq id = true then
            { func with propsInUse := func.propsInUse ++ [prop.getName] }
          else func) func =
      { func with propsInUse := func.propsInUse ++
          (props.filter (fun prop => prop.getAutoVarName.eq id)).map (fun prop => prop.getName) }
  | [], func => by simp
  | prop :: props, func => by
    rw [List.foldl_cons, foldl_props id props, List.filter_cons]
    by_cases h : prop.getAutoVarName.eq id = true
    · simp [h]
    · simp [h]

theorem foldl_vars (id : Pex.StringTable.Index) :
    ∀ (vars : List Pex.Variable) (func : FunctionToWrite),
      vars.foldl
        (fun func var =>
          if var.getName.eq id = true then
            { func with varsInUse := func.varsInUse ++ [id] }
          else func) func =
      { func with varsInUse := func.varsInUse ++
          (vars.filter (fun var => var.getName.eq id)).map (fun _ => id) }
  | [], func => by simp
  | var :: vars, func => by
    rw [List.foldl_cons, foldl_vars id vars, List.filter_cons]
    by_cases h : var.getName.eq id = true
    · simp [h]
    · simp [h]

/-- What the loop over the identifiers in use appends to `propsInUse` and to `varsInUse`. -/
theorem getFunctionToWrite_ids_eq (object : Pex.Object) :
    ∀ (ids : List Pex.StringTable.Index) (func : FunctionToWrite),
      getFunctionToWrite_ids object ids func =
        { func with
          propsInUse := func.propsInUse ++ ids.flatMap (fun id =>
            if IsAutoVarId id then
              (object.getProperties.filter (fun prop => prop.getAutoVarName.eq id)).map
                (fun prop => prop.getName)
            else []),
          varsInUse := func.varsInUse ++ ids.flatMap (fun id =>
            if IsPlainVarId id then
              (object.getVariables.filter (fun var => var.getName.eq id)).map (fun _ => id)
            else []) }
  | [], func => by simp [getFunctionToWrite_ids]
  | id :: ids, func => by
    unfold getFunctionToWrite_ids
    rw [List.foldl_cons]
    have ih := getFunctionToWrite_ids_eq object ids
    unfold getFunctionToWrite_ids at ih
    rw [ih, List.flatMap_cons, List.flatMap_cons]
    unfold IsAutoVarId IsPlainVarId
    by_cases hv : id.isValid = true
    · by_cases hs : id.asString = "self"
      · simp [hv, hs]
      · by_cases hp : starts_with id.asString "::" = true ∧ ends_with id.asString "_var" = true
        · rw [if_pos hv, if_neg hs, if_pos hp, foldl_props]
          simp [hv, hs, hp]
        · rw [if_pos hv, if_neg hs, if_neg hp, foldl_vars]
          simp [hv, hs, hp]
    · simp [hv]

theorem fixupFunction_ids (object : Pex.Object) (pex : Pex.Binary) (functionName : String)
    (decomp : PscDecompiler) :
    (fixupFunction object pex functionName decomp).2.getIdsInUse = decomp.getIdsInUse ∧
    (fixupFunction object pex functionName decomp).2.getLineMap = decomp.getLineMap ∧
    (fixupFunction object pex functionName decomp).2.lines.length = decomp.lines.length := by
  unfold fixupFunction
  split_ifs <;> simp [replaceInLines, replaceStateInLines]

theorem getFunctionToWrite_body_inUse (env : Env) (self : PscCoder) (i : Nat)
    (function : Pex.Function) (object : Pex.Object) (pex : Pex.Binary)
    (functionInfo : Option Pex.DebugInfo.FunctionInfo) (stream : String)
    (decomp : PscDecompiler) (func₀ func : FunctionToWrite)
    (h : getFunctionToWrite_body env self i function object pex functionInfo stream decomp func₀ =
      Except.ok func) :
    func.propsInUse = (getFunctionToWrite_ids object decomp.getIdsInUse func₀).propsInUse ∧
    func.varsInUse = (getFunctionToWrite_ids object decomp.getIdsInUse func₀).varsInUse ∧
    func.BodyLines = func₀.BodyLines ++
      decomp.lines.enum.map (fun p => getFunctionToWrite_line env self i decomp p.1 p.2) := by
  unfold getFunctionToWrite_body at h
  have hb : (getFunctionToWrite_ids object decomp.getIdsInUse func₀).BodyLines =
      func₀.BodyLines := by
    rw [getFunctionToWrite_ids_eq]
  cases functionInfo with
  | none => simp at h
  | some info =>
    simp only at h
    cases hl : info.getLineNumbers with
    | nil =>
      rw [hl] at h
      simp only [Except.ok.injEq] at h
      subst h
      exact ⟨rfl, rfl, by rw [hb]⟩
    | cons front rest =>
      rw [hl] at h
      simp only [Except.ok.injEq] at h
      subst h
      exact ⟨rfl, rfl, by rw [hb]⟩

/-- A call of `getFunctionToWrite` that returns a function neither skipped nor native went
through the loop over the identifiers in use and the loop over the body lines, with the
decompiler as constructed or as `fixupFunction` left it. -/
theorem getFunctionToWrite_reaches_body (env : Env) (self : PscCoder) (i : Nat)
    (function : Pex.Function) (object : Pex.Object) (pex : Pex.Binary)
    (functionInfo : Option Pex.DebugInfo.FunctionInfo) (name : String)
    (func : FunctionToWrite) (decomp : PscDecompiler)
    (hdecomp : env.decompile function object functionInfo = Except.ok decomp)
    (hret : getFunctionToWrite env self i function object pex functionInfo name = Except.ok func)
    (hskip : func.skipped = none) (hnative : function.isNative = false) :
    ∃ (decomp' : PscDecompiler) (func₀ : FunctionToWrite) (stream : String),
      (decomp' = decomp ∨ ∃ functionName, decomp' = (fixupFunction object pex functionName decomp).2) ∧
      func₀.propsInUse = [] ∧ func₀.varsInUse = [] ∧ func₀.BodyLines = [] ∧
      getFunctionToWrite_body env self i function object pex functionInfo stream decomp' func₀ =
        Except.ok func := by
  unfold getFunctionToWrite at hret
  cases hn : getFunctionToWrite_name env function pex name with
  | none => rw [hn] at hret; simp at hret
  | some p =>
    obtain ⟨functionName, isEvent⟩ := p
    rw [hn] at hret
    simp only [hdecomp, hnative, Bool.false_eq_true, if_false] at hret
    by_cases hgen : isCompilerGeneratedFunc functionName object pex.getGameType = true
    · rw [if_pos hgen] at hret
      simp only [Except.ok.injEq] at hret
      subst hret
      simp at hskip
    · rw [if_neg hgen] at hret
      by_cases hdebug : decomp.isDebugFunction = true
      · rw [if_pos hdebug] at hret
        by_cases hfixed : (fixupFunction object pex functionName decomp).1 = true
        · rw [if_pos hfixed] at hret
          exact ⟨_, _, _, Or.inr ⟨functionName, rfl⟩, rfl, rfl, rfl, hret⟩
        · rw [if_neg hfixed] at hret
          by_cases hw : self.m_WriteDebugFuncs = true
          · rw [if_pos hw] at hret
            exact ⟨_, _, _, Or.inr ⟨functionName, rfl⟩, rfl, rfl, rfl, hret⟩
          · rw [if_neg hw] at hret
            simp only [Except.ok.injEq] at hret
            subst hret
            simp at hskip
      · rw [if_neg hdebug] at hret
        by_cases hstate : _stricmp functionName "GotoState" = 0 ∨
            _stricmp functionName "GetState" = 0
        · rw [if_pos hstate] at hret
          exact ⟨_, _, _, Or.inr ⟨functionName, rfl⟩, rfl, rfl, rfl, hret⟩
        · rw [if_neg hstate] at hret
          exact ⟨_, _, _, Or.inl rfl, rfl, rfl, rfl, hret⟩

/-- C12, amended. For a function that `getFunctionToWrite` returns neither skipped nor native:
`varsInUse` contains exactly the valid identifiers in use, other than `self` and other than those
of the form of an auto variable (`::` at the start, `_var` at the end), that name a variable of
the object; `propsInUse` contains exactly the names of the properties whose auto variable is a
valid identifier in use of the form of an auto variable. -/
theorem getFunctionToWrite_inUse (env : Env) (self : PscCoder) (i : Nat)
    (function : Pex.Function) (object : Pex.Object) (pex : Pex.Binary)
    (functionInfo : Option Pex.DebugInfo.FunctionInfo) (name : String)
    (func : FunctionToWrite) (decomp : PscDecompiler)
    (hdecomp : env.decompile function object functionInfo = Except.ok decomp)
    (hret : getFunctionToWrite env self i function object pex functionInfo name = Except.ok func)
    (hskip : func.skipped = none) (hnative : function.isNative = false) :
    (∀ id, id ∈ func.varsInUse ↔
      id ∈ decomp.getIdsInUse ∧ IsPlainVarId id ∧
        ∃ var ∈ object.getVariables, var.getName.eq id = true) ∧
    (∀ n, n ∈ func.propsInUse ↔
      ∃ id ∈ decomp.getIdsInUse, IsAutoVarId id ∧
        ∃ prop ∈ object.getProperties, prop.getAutoVarName.eq id = true ∧ prop.getName = n) := by
  obtain ⟨decomp', func₀, stream, hd, hp, hv, _, hbody⟩ :=
    getFunctionToWrite_reaches_body env self i function object pex functionInfo name func decomp
      hdecomp hret hskip hnative
  have hids : decomp'.getIdsInUse = decomp.getIdsInUse := by
    rcases hd with rfl | ⟨fn, rfl⟩
    · rfl
    · exact (fixupFunction_ids object pex fn decomp).1
  obtain ⟨h1, h2, _⟩ := getFunctionToWrite_body_inUse _ _ _ _ _ _ _ _ _ _ _ hbody
  rw [getFunctionToWrite_ids_eq, hids] at h1 h2
  simp only [hp, hv, List.nil_append] at h1 h2
  constructor
  · intro id
    rw [h2, List.mem_flatMap]
    constructor
    · rintro ⟨id', hid', hmem⟩
      by_cases hc : IsPlainVarId id'
      · rw [if_pos hc, List.mem_map] at hmem
        obtain ⟨var, hvar, rfl⟩ := hmem
        rw [List.mem_filter] at hvar
        exact ⟨hid', hc, var, hvar.1, hvar.2⟩
      · rw [if_neg hc] at hmem
        simp at hmem
    · rintro ⟨hid, hc, var, hvar, heq⟩
      refine ⟨id, hid, ?_⟩
      rw [if_pos hc, List.mem_map]
      exact ⟨var, List.mem_filter.2 ⟨hvar, heq⟩, rfl⟩
  · intro n
    rw [h1, List.mem_flatMap]
    constructor
    · rintro ⟨id, hid, hmem⟩
      by_cases hc : IsAutoVarId id
      · rw [if_pos hc, List.mem_map] at hmem
        obtain ⟨prop, hprop, rfl⟩ := hmem
        rw [List.mem_filter] at hprop
        exact ⟨id, hid, hc, prop, hprop.1, hprop.2, rfl⟩
      · rw [if_neg hc] at hmem
        simp at hmem
    · rintro ⟨id, hid, hc, prop, hprop, heq, rfl⟩
      refine ⟨id, hid, ?_⟩
      rw [if_pos hc, List.mem_map]
      exact ⟨prop, List.mem_filter.2 ⟨hprop, heq⟩, rfl⟩

/-- C12, as stated, fails. The auto variable `::Health_var` is a variable of the object and is in
the list of identifiers in use, yet it is not in `varsInUse`: identifiers of that form are
reported as properties. -/
theorem getFunctionToWrite_inUse_counterexample :
    (getFunctionToWrite
        (sampleEnv (sampleInUseDecomp [sampleIndex 102 "::Health_var", sampleIndex 40 "count"]))
        (sampleCoder false false) 0 (sampleFunction "Heal" "None") sampleInUseObject
        (sampleBinary Pex.Binary.ScriptType.SkyrimScript) (some sampleFunctionInfo)
        "").toOption.map (fun func => (func.varsInUse, func.propsInUse)) =
      some ([sampleIndex 40 "count"], [sampleIndex 2 "Health"]) ∧
    sampleIndex 102 "::Health_var" ∈
      (sampleInUseDecomp [sampleIndex 102 "::Health_var", sampleIndex 40 "count"]).getIdsInUse ∧
    (∃ var ∈ sampleInUseObject.getVariables,
      var.getName.eq (sampleIndex 102 "::Health_var") = true) ∧
    sampleIndex 102 "::Health_var" ∉ [sampleIndex 40 "count"] := by
  decide

theorem getFunctionToWrite_inUse_witness :
    getFunctionToWrite
        (sampleEnv (sampleInUseDecomp [sampleIndex 102 "::Health_var", sampleIndex 40 "count"]))
        (sampleCoder false false) 0 (sampleFunction "Heal" "None") sampleInUseObject
        (sampleBinary Pex.Binary.ScriptType.SkyrimScript) (some sampleFunctionInfo) "" =
      Except.ok sampleInUseResult ∧
    ((∀ id, id ∈ sampleInUseResult.varsInUse ↔
      id ∈ (sampleInUseDecomp
          [sampleIndex 102 "::Health_var", sampleIndex 40 "count"]).getIdsInUse ∧
        IsPlainVarId id ∧ ∃ var ∈ sampleInUseObject.getVariables, var.getName.eq id = true) ∧
    (∀ n, n ∈ sampleInUseResult.propsInUse ↔
      ∃ id ∈ (sampleInUseDecomp
          [sampleIndex 102 "::Health_var", sampleIndex 40 "count"]).getIdsInUse,
        IsAutoVarId id ∧
        ∃ prop ∈ sampleInUseObject.getProperties,
          prop.getAutoVarName.eq id = true ∧ prop.getName = n)) :=
  ⟨rfl,
    getFunctionToWrite_inUse
      (sampleEnv (sampleInUseDecomp [sampleIndex 102 "::Health_var", sampleIndex 40 "count"]))
      (sampleCoder false false) 0 (sampleFunction "Heal" "None") sampleInUseObject
      (sampleBinary Pex.Binary.ScriptType.SkyrimScript) (some sampleFunctionInfo) ""
      sampleInUseResult _ rfl rfl rfl rfl⟩

/-! ## The debug line numbers -/

theorem lineSuffix_eq (lineMap : List (Nat × List Nat)) (index : Nat) (line : String) :
    (if (lineMapAt lineMap index).length > 0 then
        appendLineNumbers (line ++ " ; #DEBUG_LINE_NO:") 0 (lineMapAt lineMap index)
      else line) = line ++ debugLineNoSuffix (lineMap.lookup index) := by
  unfold lineMapAt debugLineNoSuffix
  cases lineMap.lookup index with
  | none => simp
  | some ns =>
    cases ns with
    | nil => simp
    | cons n ns =>
      rw [Option.getD_some, if_pos (by simp), appendLineNumbers_eq, String.append_assoc]

theorem lookup_nil_eq_none (index : Nat) :
    (([] : List (Nat × List Nat)).lookup index) = none := rfl

/-- C13. When `printDebugLineNo` is set, the body line of index `k` is written as the line of
the decompiler, indented, with the suffix ` ; #DEBUG_LINE_NO:` and the numbers of the entry `k`
of the line map, in order and separated by commas, when that entry exists and is not empty, and
without suffix otherwise; when it is not set, every body line is the line of the decompiler,
indented. The lines `getFunctionToWrite` stores are the same, but that a line empty after this
step is stored empty. -/
theorem writeFunction_bodyLines_spec (env : Env) (self : PscCoder) (i : Nat)
    (decomp : PscDecompiler) :
    (writeFunction_bodyLines env self i decomp).length = decomp.lines.length ∧
    (∀ k line, decomp.lines[k]? = some line →
      (writeFunction_bodyLines env self i decomp)[k]? =
        some (indent env (i + 1) ++
          (line ++ (if self.m_PrintDebugLineNo = true then
            debugLineNoSuffix (decomp.getLineMap.lookup k) else "")))) ∧
    (∀ entry : Option (List Nat),
      debugLineNoSuffix entry = "" ↔ (entry = none ∨ entry = some [])) ∧
    (∀ n ns, debugLineNoSuffix (some (n :: ns)) =
      " ; #DEBUG_LINE_NO:" ++ String.intercalate "," ((n :: ns).map Nat.repr)) ∧
    (self.m_PrintDebugLineNo = false →
      writeFunction_bodyLines env self i decomp =
        decomp.lines.map (fun line => indent env (i + 1) ++ line)) ∧
    (∀ k line, decomp.lines[k]? = some line →
      (decomp.lines.enum.map
          (fun p => getFunctionToWrite_line env self i decomp p.1 p.2))[k]? =
        some (if line ++ (if self.m_PrintDebugLineNo = true then
              debugLineNoSuffix (decomp.getLineMap.lookup k) else "") = "" then ""
          else indent env (i + 1) ++
            (line ++ (if self.m_PrintDebugLineNo = true then
              debugLineNoSuffix (decomp.getLineMap.lookup k) else "")))) := by
  have hline : ∀ k line, writeFunction_line self decomp k line =
      line ++ (if self.m_PrintDebugLineNo = true then
        debugLineNoSuffix (decomp.getLineMap.lookup k) else "") := by
    intro k line
    unfold writeFunction_line
    by_cases hp : self.m_PrintDebugLineNo = true
    · rw [if_pos hp, if_pos hp, lineSuffix_eq]
    · rw [if_neg hp, if_neg hp, String.append_empty]
  refine ⟨?_, ?_, ?_, ?_, ?_, ?_⟩
  · unfold writeFunction_bodyLines
    rw [List.length_map, List.enum_length]
  · intro k line hk
    unfold writeFunction_bodyLines
    rw [List.getElem?_map, List.getElem?_enum, hk]
    simp only [Option.map_some', hline]
  · intro entry
    unfold debugLineNoSuffix
    cases entry with
    | none => simp
    | some ns =>
      cases ns with
      | nil => simp
      | cons n ns =>
        simp only [Option.some.injEq, reduceCtorEq, or_self, iff_false]
        intro h
        have := congrArg String.length h
        rw [String.length_append] at this
        have h17 : " ; #DEBUG_LINE_NO:".length = 18 := by decide
        rw [h17] at this
        have h0 : "".length = 0 := rfl
        omega
  · intro n ns
    rfl
  · intro hp
    unfold writeFunction_bodyLines
    have : (fun p : Nat × String => indent env (i + 1) ++ writeFunction_line self decomp p.1 p.2) =
        (fun line => indent env (i + 1) ++ line) ∘ Prod.snd := by
      funext p
      simp only [Function.comp, hline, hp, Bool.false_eq_true, if_false, String.append_empty]
    rw [this, ← List.map_map, List.enum_map_snd]
  · intro k line hk
    rw [List.getElem?_map, List.getElem?_enum, hk]
    simp only [Option.map_some', Option.some.injEq]
    unfold getFunctionToWrite_line
    by_cases hp : self.m_PrintDebugLineNo = true
    · by_cases hm : decomp.getLineMap = []
      · have hl : decomp.getLineMap.lookup k = none := by rw [hm]; rfl
        have hs : debugLineNoSuffix (decomp.getLineMap.lookup k) = "" := by rw [hl]; rfl
        rw [hs]
        simp only [hp, hm, ne_eq, not_true_eq_false, and_false, if_false, if_true,
          String.append_empty]
      · simp only [hp, hm, ne_eq, not_false_eq_true, and_self, if_true, lineSuffix_eq]
    · simp only [hp, Bool.false_eq_true, false_and, if_false, String.append_empty]

theorem writeFunction_bodyLines_spec_witness :
    writeFunction_bodyLines (sampleEnv (sampleDecomp [] false)) (sampleCoder false true) 0
        { lines := ["a = 1", "b = 2", "Return"], isDebugFunction := false,
          getLineMap := [(0, [12, 13]), (1, [])], getIdsInUse := [] } =
      ["  a = 1 ; #DEBUG_LINE_NO:12,13", "  b = 2", "  Return"] ∧
    (writeFunction_bodyLines (sampleEnv (sampleDecomp [] false)) (sampleCoder false true) 0
        { lines := ["a = 1", "b = 2", "Return"], isDebugFunction := false,
          getLineMap := [(0, [12, 13]), (1, [])], getIdsInUse := [] })[0]? =
      some (indent (sampleEnv (sampleDecomp [] false)) (0 + 1) ++
        ("a = 1" ++ (if (sampleCoder false true).m_PrintDebugLineNo = true then
          debugLineNoSuffix
            (({ lines := ["a = 1", "b = 2", "Return"], isDebugFunction := false,
                getLineMap := [(0, [12, 13]), (1, [])],
                getIdsInUse := [] } : PscDecompiler).getLineMap.lookup 0)
          else ""))) :=
  ⟨by decide,
    (writeFunction_bodyLines_spec (sampleEnv (sampleDecomp [] false)) (sampleCoder false true) 0
      { lines := ["a = 1", "b = 2", "Return"], isDebugFunction := false,
        getLineMap := [(0, [12, 13]), (1, [])], getIdsInUse := [] }).2.1 0 "a = 1" rfl⟩

/-! ## The three forms of a property -/

theorem isPropAutoReadOnly_iff (prop : Pex.Property) :
    isPropAutoReadOnly prop = true ↔
      prop.hasAutoVar = false ∧ prop.isReadable = true ∧ prop.isWritable = false ∧
        ∃ arg : Pex.Value, prop.getReadFunction.getInstructions = [⟨Pex.OpCode.RETURN, [arg]⟩] ∧
          arg.getType ≠ Pex.ValueType.Identifier := by
  unfold isPropAutoReadOnly
  cases hi : prop.getReadFunction.getInstructions with
  | nil => simp
  | cons ins rest =>
    cases rest with
    | cons ins' rest' => simp
    | nil =>
      obtain ⟨op, args⟩ := ins
      cases args with
      | nil => simp
      | cons arg args' =>
        cases args' with
        | cons arg' args'' => simp
        | nil =>
          simp only [Bool.and_eq_true, Bool.not_eq_true', List.length_singleton, beq_self_eq_true,
            and_true, List.getElem?_cons_zero, Option.map_some', beq_iff_eq, Option.some.injEq,
            Option.bind_some, decide_eq_true_eq, List.cons.injEq, and_true,
            Pex.Instruction.mk.injEq, ne_eq]
          constructor
          · rintro ⟨⟨⟨⟨h1, h2⟩, h3⟩, h4⟩, h5⟩
            refine ⟨h1, h2, h3, arg, ⟨h4, rfl⟩, ?_⟩
            simpa using h5
          · rintro ⟨h1, h2, h3, arg', ⟨h4, rfl⟩, h5⟩
            refine ⟨⟨⟨⟨h1, h2⟩, h3⟩, h4⟩, ?_⟩
            simpa using h5

theorem writeFunction_lines_append (env : Env) (self : PscCoder) (i : Nat)
    (function : Pex.Function) (object : Pex.Object) (pex : Pex.Binary)
    (functionInfo : Option Pex.DebugInfo.FunctionInfo) (name : String) (out : Out) :
    (writeFunction env self i function object pex functionInfo name out).out.lines =
      out.lines ++
        (writeFunction env self i function object pex functionInfo name emptyOut).out.lines := by
  unfold writeFunction
  cases writeFunction_name env function pex name with
  | none => simp [Res.out, emptyOut]
  | some p =>
    obtain ⟨functionName, isEvent⟩ := p
    simp only
    cases env.decompile function object functionInfo with
    | error e =>
      split_ifs <;> simp [writeDocString_lines, write, Res.out, emptyOut]
    | ok decomp =>
      simp only
      split_ifs <;>
        simp [writeFunction_body_lines, writeDocString_lines, write, Res.out, emptyOut]

theorem writeUserFlag_append (stream : String) (flags : Nat) (pex : Pex.Binary) :
    writeUserFlag stream flags pex = stream ++ writeUserFlag "" flags pex := by
  unfold writeUserFlag
  generalize pex.getUserFlags = fs
  induction fs generalizing stream with
  | nil => simp
  | cons f fs ih =>
    rw [List.foldl_cons, List.foldl_cons, ih]
    by_cases h : flags &&& f.getFlagMask ≠ 0
    · rw [if_pos h, if_pos h, ih ("" ++ " " ++ f.getName.asString)]
      simp [String.append_assoc]
    · rw [if_neg h, if_neg h]

theorem Res.lines_of_andThen_ok {r : Res} {k : Out → Res} {out' : Out}
    (h : r.andThen k = Res.ok out') : k r.out = Res.ok out' ∧ r = Res.ok r.out := by
  cases r with
  | ok out => exact ⟨h, rfl⟩
  | throw e out => simp [Res.andThen] at h

/-- C15. `writeProperty` emits one of three forms. With an auto variable (found among the
variables of the object): one declaration carrying the keyword `Auto`, the docstring, and no
`EndProperty`. With no auto variable and `isPropAutoReadOnly` (readable, not writable, the getter
a single `RETURN` of one argument that is no identifier): one declaration
` = <that literal> AutoReadOnly`, the docstring, and no `EndProperty`. Otherwise: the declaration,
the docstring, the `Get` function if readable, the `Set` function if writable, and the line
`EndProperty`. `isPropAutoReadOnly` never holds for a property with an auto variable. -/
theorem writeProperty_forms (env : Env) (self : PscCoder) (i : Nat) (prop : Pex.Property)
    (object : Pex.Object) (pex : Pex.Binary) (out : Out) :
    (isPropAutoReadOnly prop = true → prop.hasAutoVar = false) ∧
    (∀ var, prop.hasAutoVar = true →
      Pex.findByName object.getVariables prop.getAutoVarName = some var →
      writeProperty env self i prop object pex out =
        Res.ok ⟨out.lines ++ [autoPropertyLine env i prop var pex] ++
          docStringLines env i prop.getDocString, out.properties ++ [prop]⟩ ∧
      ∃ front back, autoPropertyLine env i prop var pex = front ++ " Auto" ++ back) ∧
    (isPropAutoReadOnly prop = true →
      ∃ arg : Pex.Value,
        prop.getReadFunction.getInstructions = [⟨Pex.OpCode.RETURN, [arg]⟩] ∧
        arg.getType ≠ Pex.ValueType.Identifier ∧
        writeProperty env self i prop object pex out =
          Res.ok ⟨out.lines ++ [autoReadOnlyPropertyLine env i prop arg pex] ++
            docStringLines env i prop.getDocString, out.properties ++ [prop]⟩ ∧
        ∃ front back, autoReadOnlyPropertyLine env i prop arg pex =
          front ++ (" = " ++ arg.toString ++ " AutoReadOnly") ++ back) ∧
    (prop.hasAutoVar = false → isPropAutoReadOnly prop = false →
      ∀ out', writeProperty env self i prop object pex out = Res.ok out' →
        out'.lines = out.lines ++ [fullPropertyLine env i prop pex] ++
          docStringLines env i prop.getDocString ++
          (if prop.isReadable = true then getterLines env self i prop object pex else []) ++
          (if prop.isWritable = true then setterLines env self i prop object pex else []) ++
          [indent env i ++ "EndProperty"]) := by
  refine ⟨?_, ?_, ?_, ?_⟩
  · intro h
    exact ((isPropAutoReadOnly_iff prop).1 h).1
  · intro var hauto hfind
    constructor
    · unfold writeProperty writeProperty_decl autoPropertyLine
      simp only [hauto, if_true, hfind, writeDocString_lines, Bool.true_eq_false, false_and,
        if_false]
      by_cases hc : var.getConstFlag = true <;>
        by_cases hd : var.getDefaultValue.getType = Pex.ValueType.None <;>
          simp [hc, hd, String.append_assoc]
    · unfold autoPropertyLine
      rw [writeUserFlag_append _ prop.getUserFlags, writeUserFlag_append _ var.getUserFlags]
      refine ⟨indent env i ++ mapType prop.getTypeName.asString ++ " Property " ++
          prop.getName.asString ++
          (if var.getDefaultValue.getType ≠ Pex.ValueType.None then
            " = " ++ var.getDefaultValue.toString else ""),
        writeUserFlag "" var.getUserFlags pex ++
          (if var.getConstFlag = true then " Const" else "") ++
          writeUserFlag "" prop.getUserFlags pex, ?_⟩
      simp only [String.append_assoc]
  · intro hro
    obtain ⟨hauto, _, _, arg, hins, harg⟩ := (isPropAutoReadOnly_iff prop).1 hro
    refine ⟨arg, hins, harg, ?_, ?_⟩
    · unfold writeProperty writeProperty_decl autoReadOnlyPropertyLine
      simp only [hauto, hro, hins, Bool.false_eq_true, if_false, if_true,
        List.getElem?_cons_zero, Option.bind_some, Option.some_bind, writeDocString_lines,
        Bool.true_eq_false, and_false]
    · unfold autoReadOnlyPropertyLine
      rw [writeUserFlag_append]
      refine ⟨indent env i ++ mapType prop.getTypeName.asString ++ " Property " ++
          prop.getName.asString, writeUserFlag "" prop.getUserFlags pex, ?_⟩
      simp only [String.append_assoc]
  · intro hauto hro out' hok
    unfold writeProperty writeProperty_decl at hok
    simp only [hauto, hro, Bool.false_eq_true, if_false, and_self, if_true,
      writeDocString_lines] at hok
    obtain ⟨h3, h2ok⟩ := Res.lines_of_andThen_ok hok
    obtain ⟨h2, h1ok⟩ := Res.lines_of_andThen_ok h2ok
    simp only [Res.ok.injEq] at h3
    rw [← h3]
    simp only [write]
    have hset : ((if prop.isReadable = true then
          writeFunction env self (i + 1) prop.getReadFunction object pex
            (pex.getDebugInfo.getFunctionInfo object.getName
              (pex.getStringTable.findIdentifier "") prop.getName
              Pex.DebugInfo.FunctionType.Getter) "Get"
            ⟨out.lines ++ [writeUserFlag
                (indent env i ++ mapType prop.getTypeName.asString ++ " Property " ++
                  prop.getName.asString) prop.getUserFlags pex] ++
                docStringLines env i prop.getDocString, out.properties ++ [prop]⟩
        else Res.ok ⟨out.lines ++ [writeUserFlag
                (indent env i ++ mapType prop.getTypeName.asString ++ " Property " ++
                  prop.getName.asString) prop.getUserFlags pex] ++
                docStringLines env i prop.getDocString, out.properties ++ [prop]⟩).andThen fun out =>
          if prop.isWritable = true then
            writeFunction env self (i + 1) prop.getWriteFunction object pex
              (pex.getDebugInfo.getFunctionInfo object.getName
                (pex.getStringTable.findIdentifier "") prop.getName
                Pex.DebugInfo.FunctionType.Setter) "Set" out
          else Res.ok out).out.lines =
        out.lines ++ [fullPropertyLine env i prop pex] ++
          docStringLines env i prop.getDocString ++
          (if prop.isReadable = true then getterLines env self i prop object pex else []) ++
          (if prop.isWritable = true then setterLines env self i prop object pex else []) := by
      rw [h1ok]
      simp only [Res.andThen]
      have hget : (if prop.isReadable = true then
          writeFunction env self (i + 1) prop.getReadFunction object pex
            (pex.getDebugInfo.getFunctionInfo object.getName
              (pex.getStringTable.findIdentifier "") prop.getName
              Pex.DebugInfo.FunctionType.Getter) "Get"
            ⟨out.lines ++ [writeUserFlag
                (indent env i ++ mapType prop.getTypeName.asString ++ " Property " ++
                  prop.getName.asString) prop.getUserFlags pex] ++
                docStringLines env i prop.getDocString, out.properties ++ [prop]⟩
        else Res.ok ⟨out.lines ++ [writeUserFlag
                (indent env i ++ mapType prop.getTypeName.asString ++ " Property " ++
                  prop.getName.asString) prop.getUserFlags pex] ++
                docStringLines env i prop.getDocString, out.properties ++ [prop]⟩).out.lines =
          out.lines ++ [fullPropertyLine env i prop pex] ++
            docStringLines env i prop.getDocString ++
            (if prop.isReadable = true then getterLines env self i prop object pex else []) := by
        by_cases hr : prop.isReadable = true
        · rw [if_pos hr, if_pos hr, writeFunction_lines_append]
          rfl
        · rw [if_neg hr, if_neg hr, List.append_nil]
          rfl
      by_cases hw : prop.isWritable = true
      · rw [if_pos hw, if_pos hw, writeFunction_lines_append, hget]
        rfl
      · rw [if_neg hw, if_neg hw, List.append_nil]
        exact hget
    rw [hset]

theorem writeProperty_forms_witness :
    (writeProperty (sampleEnv (sampleDecomp [] false)) (sampleCoder false false) 0
        (sampleProperty 2 "Health" true) sampleInUseObject
        (sampleBinary Pex.Binary.ScriptType.SkyrimScript) emptyOut =
      Res.ok ⟨["Int Property Health Auto"], [sampleProperty 2 "Health" true]⟩) ∧
    (writeProperty (sampleEnv (sampleDecomp [] false)) (sampleCoder false false) 0
        sampleLiteralProperty (sampleObjectWith "Foo" [sampleLiteralProperty])
        (sampleBinary Pex.Binary.ScriptType.SkyrimScript) emptyOut =
      Res.ok ⟨["Int Property MaxHealth = 100 AutoReadOnly"], [sampleLiteralProperty]⟩) ∧
    (writeProperty (sampleEnv (sampleDecomp ["Return health"] false)) (sampleCoder false false) 0
        sampleGetterProperty (sampleObjectWith "Foo" [sampleGetterProperty])
        (sampleBinary Pex.Binary.ScriptType.SkyrimScript) emptyOut =
      Res.ok ⟨["Int Property Health", "  Int Function Get()", "    Return health",
        "  EndFunction", "EndProperty"], [sampleGetterProperty]⟩) ∧
    ["Int Property Health", "  Int Function Get()", "    Return health", "  EndFunction",
        "EndProperty"] =
      emptyOut.lines ++
        [fullPropertyLine (sampleEnv (sampleDecomp ["Return health"] false)) 0
          sampleGetterProperty (sampleBinary Pex.Binary.ScriptType.SkyrimScript)] ++
        docStringLines (sampleEnv (sampleDecomp ["Return health"] false)) 0
          sampleGetterProperty.getDocString ++
        (if sampleGetterProperty.isReadable = true then
          getterLines (sampleEnv (sampleDecomp ["Return health"] false)) (sampleCoder false false)
            0 sampleGetterProperty (sampleObjectWith "Foo" [sampleGetterProperty])
            (sampleBinary Pex.Binary.ScriptType.SkyrimScript)
        else []) ++
        (if sampleGetterProperty.isWritable = true then
          setterLines (sampleEnv (sampleDecomp ["Return health"] false)) (sampleCoder false false)
            0 sampleGetterProperty (sampleObjectWith "Foo" [sampleGetterProperty])
            (sampleBinary Pex.Binary.ScriptType.SkyrimScript)
        else []) ++
        [indent (sampleEnv (sampleDecomp ["Return health"] false)) 0 ++ "EndProperty"] :=
  ⟨((writeProperty_forms (sampleEnv (sampleDecomp [] false)) (sampleCoder false false) 0
      (sampleProperty 2 "Health" true) sampleInUseObject
      (sampleBinary Pex.Binary.ScriptType.SkyrimScript) emptyOut).2.1
      ⟨sampleIndex 102 "::Health_var", sampleIndex 20 "Int", 0, ⟨Pex.ValueType.None, ""⟩, false⟩
      rfl (by decide)).1,
    by decide, by decide,
    (writeProperty_forms (sampleEnv (sampleDecomp ["Return health"] false))
      (sampleCoder false false) 0 sampleGetterProperty
      (sampleObjectWith "Foo" [sampleGetterProperty])
      (sampleBinary Pex.Binary.ScriptType.SkyrimScript) emptyOut).2.2.2 rfl (by decide)
      ⟨["Int Property Health", "  Int Function Get()", "    Return health", "  EndFunction",
        "EndProperty"], [sampleGetterProperty]⟩ (by decide)⟩

/-! ## `mapType` and the array suffix -/

theorem std_replace_idem (s : String) :
    std_replace (std_replace s '#' ':') '#' ':' = std_replace s '#' ':' := by
  unfold std_replace
  simp only [List.map_map]
  congr 1
  apply List.map_congr_left
  intro c _
  by_cases hc : c = '#'
  · simp [hc]
  · simp [hc]

theorem mapType_std_replace (s : String) : mapType (std_replace s '#' ':') = mapType s := by
  rw [mapType_eq, mapType_eq s, std_replace_idem]

theorem std_replace_append (s t : String) (a b : Char) :
    std_replace (s ++ t) a b = std_replace s a b ++ std_replace t a b := by
  unfold std_replace
  apply String.ext
  simp

theorem isArrayType_append (t : String) (h : 0 < t.length) : isArrayType (t ++ "[]") = true := by
  unfold isArrayType
  have hlen : (t ++ "[]").length = t.length + 2 := by
    rw [String.length_append]
    rfl
  have hdata : (t ++ "[]").data = t.data ++ ['[', ']'] := by simp [String.data_append]
  have hl : t.data.length = t.length := rfl
  rw [hlen, hdata]
  have h1 : (t.data ++ ['[', ']'])[t.length + 2 - 2]? = some '[' := by
    rw [List.getElem?_append_right (by omega)]
    simp [hl]
  have h2 : (t.data ++ ['[', ']'])[t.length + 2 - 1]? = some ']' := by
    rw [List.getElem?_append_right (by omega)]
    have : t.length + 2 - 1 - t.data.length = 1 := by omega
    rw [this]
    rfl
  rw [h1, h2]
  simp
  omega

theorem substr_append_left (s t : String) : substr (s ++ t) 0 ((s ++ t).length - t.length) = s := by
  unfold substr
  apply String.ext
  have hl : (s ++ t).length - t.length = s.data.length := by
    rw [String.length_append]
    exact Nat.add_sub_cancel ..
  rw [hl, String.data_append, List.drop_zero, List.take_left]

theorem mapType_append_array (t : String) : mapType (t ++ "[]") = mapType t ++ "[]" := by
  by_cases h : 0 < t.length
  · rw [mapType_eq (t ++ "[]"), isArrayType_std_replace, if_pos (isArrayType_append t h),
      std_replace_append]
    have h2 : std_replace "[]" '#' ':' = "[]" := by decide
    rw [h2]
    have h3 := substr_append_left (std_replace t '#' ':') "[]"
    have h4 : ("[]" : String).length = 2 := rfl
    rw [h4] at h3
    rw [h3, mapType_std_replace]
  · have ht : t = "" := by
      apply String.ext
      have : t.data.length = 0 := by
        have hl : t.data.length = t.length := rfl
        omega
      exact List.length_eq_zero.1 this
    subst ht
    decide

/-- C19. `mapType` distributes over the array suffix: `mapType (t ++ "[]") = mapType t ++ "[]"`
for every string `t`. The recursive call of `mapType` is on a string two characters shorter than
its argument, so the recursion ends: every bound on the number of steps that is at least the
length of the string gives the value of `mapType`. -/
theorem mapType_array (t : String) :
    mapType (t ++ "[]") = mapType t ++ "[]" ∧
    (isArrayType (std_replace t '#' ':') = true →
      (substr (std_replace t '#' ':') 0 ((std_replace t '#' ':').length - 2)).length + 2 =
        t.length) ∧
    (∀ fuel, t.length ≤ fuel → mapTypeLoop fuel t = mapType t) := by
  refine ⟨mapType_append_array t, ?_, ?_⟩
  · intro h
    have := isArrayType_length h
    rw [length_substr, length_std_replace]
    rw [length_std_replace] at this
    omega
  · intro fuel h
    exact mapTypeLoop_fuel fuel t.length t h (Nat.le_refl _)

theorem mapType_array_witness :
    mapType "Actor[][]" = "Actor[][]" ∧ mapType "actor[][]" = "Actor[][]" ∧
    mapType ("actor[]" ++ "[]") = mapType "actor[]" ++ "[]" ∧
    (substr (std_replace "actor[]" '#' ':') 0 ((std_replace "actor[]" '#' ':').length - 2)).length
      + 2 = ("actor[]" : String).length ∧
    mapTypeLoop 100 "actor[]" = mapType "actor[]" :=
  ⟨by decide, by decide, (mapType_array "actor[]").1, (mapType_array "actor[]").2.1 (by decide),
    (mapType_array "actor[]").2.2 100 (by decide)⟩

/-! ## The variables of an object -/

theorem indent_zero (env : Env) : indent env 0 = "" := by
  unfold indent
  rw [Nat.zero_mul]
  rfl

theorem isCompilerGeneratedVar_iff (var : Pex.Variable) :
    (decide (var.getName.asString.length > 2) && var.getName.asString.data[0]? == some ':' &&
      var.getName.asString.data[1]? == some ':') = true ↔ IsCompilerGeneratedVar var := by
  unfold IsCompilerGeneratedVar
  have hs : "::".data = [':', ':'] := rfl
  have hl : var.getName.asString.length = var.getName.asString.data.length := rfl
  rw [hs, hl]
  generalize var.getName.asString.data = l
  rcases l with _ | ⟨a, _ | ⟨b, l⟩⟩
  · simp
  · simp
  · simp only [Bool.and_eq_true, decide_eq_true_eq, List.getElem?_cons_zero,
      List.getElem?_cons_succ, beq_iff_eq, Option.some.injEq, List.cons_prefix_cons,
      List.nil_prefix, and_true, and_assoc]
    constructor
    · rintro ⟨h1, h2, h3⟩
      exact ⟨h1, h2.symm, h3.symm⟩
    · rintro ⟨h1, h2, h3⟩
      exact ⟨h1, h2.symm, h3.symm⟩

theorem writeUserFlag_append_append (a b : String) (flags : Nat) (pex : Pex.Binary) :
    writeUserFlag (a ++ b) flags pex = a ++ b ++ writeUserFlag "" flags pex :=
  writeUserFlag_append (a ++ b) flags pex

theorem foldl_write {α : Type} (f : Out → α → Out) (keep : α → Bool) (line : α → String)
    (hf : ∀ out x, f out x = if keep x = true then write out (line x) else out) :
    ∀ (xs : List α) (out : Out),
      xs.foldl f out = ⟨out.lines ++ (xs.filter keep).map line, out.properties⟩
  | [], out => by simp
  | x :: xs, out => by
    rw [List.foldl_cons, foldl_write f keep line hf xs, hf, List.filter_cons]
    by_cases hk : keep x = true
    · simp [hk, write]
    · simp [hk]

theorem variableStream_eq (env : Env) (var : Pex.Variable) (pex : Pex.Binary) (c : Bool) :
    (let stream := indent env 0
      let stream := if c = true then stream ++ "; " else stream
      let stream := stream ++ mapType var.getTypeName.asString ++ " " ++ var.getName.asString
      let initialValue := var.getDefaultValue
      let stream :=
        if initialValue.getType ≠ Pex.ValueType.None then
          stream ++ " = " ++ initialValue.toString
        else stream
      let stream := writeUserFlag stream var.getUserFlags pex
      if var.getConstFlag = true then stream ++ " Const" else stream) =
      (if c = true then "; " else "") ++ variableDecl var pex := by
  have he : ∀ s : String, "" ++ s = s := fun s => String.ext (by simp)
  unfold variableDecl
  cases c <;> by_cases h1 : var.getConstFlag = true <;>
    by_cases h2 : var.getDefaultValue.getType = Pex.ValueType.None <;>
    simp [h1, h2, indent_zero, writeUserFlag_append_append, String.append_assoc, he]

theorem variableKept_eq (env : Env) (self : PscCoder) (var : Pex.Variable) (pex : Pex.Binary)
    {α : Type} (f : String → α) (a : α) :
    (let name := var.getName.asString
      let compilerGenerated :=
        decide (name.length > 2) && name.data[0]? == some ':' && name.data[1]? == some ':'
      let stream := indent env 0
      let stream := if compilerGenerated = true then stream ++ "; " else stream
      let stream := stream ++ mapType var.getTypeName.asString ++ " " ++ name
      let initialValue := var.getDefaultValue
      let stream :=
        if initialValue.getType ≠ Pex.ValueType.None then
          stream ++ " = " ++ initialValue.toString
        else stream
      let stream := writeUserFlag stream var.getUserFlags pex
      let stream := if var.getConstFlag = true then stream ++ " Const" else stream
      if self.m_CommentAsm = true ∨ compilerGenerated = false then f stream else a) =
      if decide (self.m_CommentAsm = true ∨ ¬ IsCompilerGeneratedVar var) = true then
        f (variableLine var pex) else a := by
  have hc := isCompilerGeneratedVar_iff var
  have hs := variableStream_eq env var pex
    (decide (var.getName.asString.length > 2) && var.getName.asString.data[0]? == some ':' &&
      var.getName.asString.data[1]? == some ':')
  dsimp only at hs ⊢
  rw [hs]
  unfold variableLine
  by_cases hcg : IsCompilerGeneratedVar var
  · rw [hc.2 hcg]
    by_cases ha : self.m_CommentAsm = true
    · simp [ha, hcg]
    · simp [ha, hcg]
  · have hb : (decide (var.getName.asString.length > 2) &&
        var.getName.asString.data[0]? == some ':' &&
        var.getName.asString.data[1]? == some ':') = false := by
      cases h : (decide (var.getName.asString.length > 2) &&
        var.getName.asString.data[0]? == some ':' &&
        var.getName.asString.data[1]? == some ':') with
      | false => rfl
      | true => exact absurd (hc.1 h) hcg
    rw [hb]
    simp [hcg]

theorem writeVariables_eq (env : Env) (self : PscCoder) (object : Pex.Object)
    (pex : Pex.Binary) (out : Out) :
    writeVariables env self object pex out =
      ⟨out.lines ++
          (object.getVariables.filter (fun var =>
            decide (self.m_CommentAsm = true ∨ ¬ IsCompilerGeneratedVar var))).map
            (fun var => variableLine var pex),
        out.properties⟩ := by
  unfold writeVariables
  exact foldl_write _ _ _
    (fun out var => variableKept_eq env self var pex (fun stream => write out stream) out)
    object.getVariables out

/-- C20. `writeVariables` writes, in the order of the file, the line of each variable of the
object that is not compiler generated (name longer than two characters starting with `::`), and
the line of a compiler-generated variable only when `commentAsm` is set; the line of a
compiler-generated variable starts with `; `, the line of another variable is its declaration.
With `commentAsm` unset the number of lines written is the number of variables that are not
compiler generated. `makeVariableToWrite` gives the same line, and the empty string for a variable
that is not written. -/
theorem writeVariables_spec (env : Env) (self : PscCoder) (object : Pex.Object)
    (pex : Pex.Binary) (out : Out) :
    (writeVariables env self object pex out).lines =
      out.lines ++
        (object.getVariables.filter (fun var =>
          decide (self.m_CommentAsm = true ∨ ¬ IsCompilerGeneratedVar var))).map
          (fun var => variableLine var pex) ∧
    (writeVariables env self object pex out).properties = out.properties ∧
    (∀ var, IsCompilerGeneratedVar var → variableLine var pex = "; " ++ variableDecl var pex) ∧
    (∀ var, ¬ IsCompilerGeneratedVar var → variableLine var pex = variableDecl var pex) ∧
    (self.m_CommentAsm = false →
      (writeVariables env self object pex out).lines.length =
        out.lines.length +
          (object.getVariables.filter (fun var =>
            decide (¬ IsCompilerGeneratedVar var))).length) ∧
    (∀ var, makeVariableToWrite env self var pex =
      if self.m_CommentAsm = true ∨ ¬ IsCompilerGeneratedVar var then variableLine var pex
      else "") := by
  have h := writeVariables_eq env self object pex out
  refine ⟨?_, ?_, ?_, ?_, ?_, ?_⟩
  · rw [h]
  · rw [h]
  · intro var hv
    unfold variableLine
    rw [if_pos hv]
  · intro var hv
    have he : ∀ s : String, "" ++ s = s := fun s => String.ext (by simp)
    unfold variableLine
    rw [if_neg hv, he]
  · intro ha
    rw [h]
    simp [ha]
  · intro var
    have hk := variableKept_eq env self var pex (fun stream => stream) ""
    unfold makeVariableToWrite
    rw [hk]
    simp

theorem writeVariables_spec_witness :
    (writeVariables (sampleEnv (sampleDecomp [] false)) (sampleAsmCoder false)
        { sampleObject "Foo" with getVariables := sampleVariables }
        (sampleBinary Pex.Binary.ScriptType.SkyrimScript) emptyOut).lines =
      ["Int count", "Int total = 5"] ∧
    (writeVariables (sampleEnv (sampleDecomp [] false)) (sampleAsmCoder true)
        { sampleObject "Foo" with getVariables := sampleVariables }
        (sampleBinary Pex.Binary.ScriptType.SkyrimScript) emptyOut).lines =
      ["Int count", "; Int ::Health_var", "Int total = 5"] ∧
    (sampleAsmCoder false).m_CommentAsm = false ∧
    (writeVariables (sampleEnv (sampleDecomp [] false)) (sampleAsmCoder false)
        { sampleObject "Foo" with getVariables := sampleVariables }
        (sampleBinary Pex.Binary.ScriptType.SkyrimScript) emptyOut).lines.length =
      emptyOut.lines.length +
        (({ sampleObject "Foo" with getVariables := sampleVariables } :
          Pex.Object).getVariables.filter (fun var =>
            decide (¬ IsCompilerGeneratedVar var))).length :=
  ⟨by decide, by decide, rfl,
    (writeVariables_spec (sampleEnv (sampleDecomp [] false)) (sampleAsmCoder false)
      { sampleObject "Foo" with getVariables := sampleVariables }
      (sampleBinary Pex.Binary.ScriptType.SkyrimScript) emptyOut).2.2.2.2.1 rfl⟩

/-! ## The order of the members of a struct -/

theorem writeStructMember_eq (env : Env) (member : Pex.StructInfo.Member) (pex : Pex.Binary)
    (out : Out) :
    writeStructMember env member pex out =
      ⟨out.lines ++ memberLines env pex member, out.properties⟩ := by
  unfold memberLines writeStructMember
  simp only [writeDocString_lines, write, emptyOut, List.nil_append, List.append_assoc]

theorem foldl_writeStructMember (env : Env) (pex : Pex.Binary) :
    ∀ (members : List Pex.StructInfo.Member) (out : Out),
      members.foldl (fun out mem => writeStructMember env mem pex out) out =
        ⟨out.lines ++ members.flatMap (memberLines env pex), out.properties⟩
  | [], out => by simp
  | mem :: members, out => by
    rw [List.foldl_cons, foldl_writeStructMember env pex members, writeStructMember_eq]
    simp

theorem writeStructs_names_ok (env : Env) (sInfo : Pex.StructInfo) (pex : Pex.Binary) :
    ∀ (names : List Pex.StringTable.Index) (out : Out),
      (∀ orderName ∈ names, ∃ member ∈ sInfo.getMembers, member.getName.eq orderName = true) →
      writeStructs_names env sInfo pex names out =
        Res.ok ⟨out.lines ++ (orderedMembers sInfo names).flatMap (memberLines env pex),
          out.properties⟩
  | [], out, _ => by simp [writeStructs_names, forEach, orderedMembers]
  | orderName :: names, out, h => by
    have ih := writeStructs_names_ok env sInfo pex names
    unfold writeStructs_names at ih ⊢
    unfold forEach
    obtain ⟨member, hmem, heq⟩ := h orderName (List.mem_cons_self _ _)
    cases hf : sInfo.getMembers.find? (fun member => member.getName.eq orderName) with
    | none =>
      rw [List.find?_eq_none] at hf
      exact absurd heq (hf member hmem)
    | some found =>
      simp only [hf, Res.andThen]
      rw [ih _ (fun n hn => h n (List.mem_cons_of_mem _ hn)), writeStructMember_eq]
      simp [orderedMembers, List.filterMap_cons, hf]

theorem writeStructs_orders_filter (env : Env) (object : Pex.Object) (sInfo : Pex.StructInfo)
    (pex : Pex.Binary) :
    ∀ (orders : List Pex.DebugInfo.StructOrder) (foundInfo : Bool) (out : Out),
      writeStructs_orders env object sInfo pex orders foundInfo out =
        writeStructs_orders env object sInfo pex
          (orders.filter (fun sOrder =>
            sOrder.getObjectName.eq object.getName && sOrder.getOrderName.eq sInfo.getName))
          foundInfo out
  | [], _, _ => rfl
  | sOrder :: rest, foundInfo, out => by
    by_cases hm : sOrder.getObjectName.eq object.getName = true ∧
        sOrder.getOrderName.eq sInfo.getName = true
    · have hb : (sOrder.getObjectName.eq object.getName &&
          sOrder.getOrderName.eq sInfo.getName) = true := by simp [hm.1, hm.2]
      rw [List.filter_cons, if_pos hb]
      unfold writeStructs_orders
      rw [if_pos hm, if_pos hm]
      by_cases hl : sOrder.getNames.length = sInfo.getMembers.length
      · rw [if_pos hl, if_pos hl]
        cases writeStructs_names env sInfo pex sOrder.getNames out with
        | ok out1 => exact writeStructs_orders_filter env object sInfo pex rest true out1
        | throw e out1 => rfl
      · rw [if_neg hl, if_neg hl]
    · have hb : ¬ (sOrder.getObjectName.eq object.getName &&
          sOrder.getOrderName.eq sInfo.getName) = true := by
        simpa using hm
      rw [List.filter_cons, if_neg hb]
      rw [writeStructs_orders, if_neg hm]
      exact writeStructs_orders_filter env object sInfo pex rest foundInfo out

theorem writeStructs_struct_eq (env : Env) (object : Pex.Object) (pex : Pex.Binary)
    (sInfo : Pex.StructInfo) (out : Out) :
    writeStructs_struct env object pex sInfo out =
      (writeStructs_orders env object sInfo pex (matchingOrders object sInfo pex) false
        (write out ("Struct " ++ sInfo.getName.asString))).2.andThen (fun out1 =>
          Res.ok (write (write
            (if (writeStructs_orders env object sInfo pex (matchingOrders object sInfo pex) false
                (write out ("Struct " ++ sInfo.getName.asString))).1 = false then
              ⟨out1.lines ++ sInfo.getMembers.flatMap (memberLines env pex), out1.properties⟩
            else out1) "EndStruct") "")) := by
  have he : ∀ s : String, "" ++ s = s := fun s => String.ext (by simp)
  unfold writeStructs_struct matchingOrders
  simp only [indent_zero, he, foldl_writeStructMember]
  by_cases h0 : pex.getDebugInfo.getStructOrders.length ≠ 0
  · rw [if_pos h0, ← writeStructs_orders_filter]
  · rw [if_neg h0]
    have hnil : pex.getDebugInfo.getStructOrders = [] :=
      List.length_eq_zero.1 (not_not.1 h0)
    rw [hnil]
    rfl

theorem orderedMembers_keys (sInfo : Pex.StructInfo) :
    ∀ (names : List Pex.StringTable.Index),
      (∀ orderName ∈ names, ∃ member ∈ sInfo.getMembers, member.getName.eq orderName = true) →
      (orderedMembers sInfo names).map memberKey = names.map (fun n => n.asIndex)
  | [], _ => rfl
  | orderName :: names, h => by
    obtain ⟨member, hmem, heq⟩ := h orderName (List.mem_cons_self _ _)
    cases hf : sInfo.getMembers.find? (fun member => member.getName.eq orderName) with
    | none =>
      rw [List.find?_eq_none] at hf
      exact absurd heq (hf member hmem)
    | some found =>
      have hfound := List.find?_some hf
      have hk : memberKey found = orderName.asIndex := by
        unfold Pex.StringTable.Index.eq at hfound
        exact of_decide_eq_true (by simpa using hfound)
      have ih := orderedMembers_keys sInfo names (fun n hn => h n (List.mem_cons_of_mem _ hn))
      unfold orderedMembers at ih ⊢
      rw [List.filterMap_cons, hf, List.map_cons, List.map_cons, ih, hk]

theorem orderedMembers_subset (sInfo : Pex.StructInfo) (names : List Pex.StringTable.Index) :
    orderedMembers sInfo names ⊆ sInfo.getMembers := by
  intro member hmem
  unfold orderedMembers at hmem
  rw [List.mem_filterMap] at hmem
  obtain ⟨orderName, _, hf⟩ := hmem
  exact List.mem_of_find?_eq_some hf

theorem orderedMembers_perm (sInfo : Pex.StructInfo) (names : List Pex.StringTable.Index)
    (hnodup : (names.map (fun n => n.asIndex)).Nodup)
    (hall : ∀ orderName ∈ names,
      ∃ member ∈ sInfo.getMembers, member.getName.eq orderName = true)
    (hlen : names.length = sInfo.getMembers.length) :
    (orderedMembers sInfo names).Perm sInfo.getMembers := by
  have hkeys := orderedMembers_keys sInfo names hall
  have hnd : (orderedMembers sInfo names).Nodup := by
    have : ((orderedMembers sInfo names).map memberKey).Nodup := by rw [hkeys]; exact hnodup
    exact List.Nodup.of_map _ this
  have hl : (orderedMembers sInfo names).length = names.length := by
    have := congrArg List.length hkeys
    simpa using this
  exact (List.subperm_of_subset hnd (orderedMembers_subset sInfo names)).perm_of_length_le
    (by omega)

/-- C17. For a struct with exactly one struct order of the debug info for the same object and
struct name, whose names are distinct and are the names of the members, `writeStructs` writes
between the lines `Struct <name>` and `EndStruct` each member once: in the order of the names of
that struct order when the names of the members are distinct, and in the order of the file when
two members have the same name (the number of names then differs from the number of members).
When there is no struct order for the object and struct name, or the first of them has a number
of names that differs from the number of members, the members are written in the order of the
file. -/
theorem writeStructs_struct_order (env : Env) (object : Pex.Object) (pex : Pex.Binary)
    (sInfo : Pex.StructInfo) (out : Out) :
    (∀ sOrder, matchingOrders object sInfo pex = [sOrder] →
      (sOrder.getNames.map (fun n => n.asIndex)).Nodup →
      (∀ member ∈ sInfo.getMembers,
        memberKey member ∈ sOrder.getNames.map (fun n => n.asIndex)) →
      (∀ orderName ∈ sOrder.getNames,
        orderName.asIndex ∈ sInfo.getMembers.map memberKey) →
      ∃ written : List Pex.StructInfo.Member,
        writeStructs_struct env object pex sInfo out =
          Res.ok ⟨out.lines ++ structLines env pex sInfo written, out.properties⟩ ∧
        written.Perm sInfo.getMembers ∧
        ((sInfo.getMembers.map memberKey).Nodup →
          written.map memberKey = sOrder.getNames.map (fun n => n.asIndex)) ∧
        (¬ (sInfo.getMembers.map memberKey).Nodup → written = sInfo.getMembers)) ∧
    ((matchingOrders object sInfo pex = [] ∨
      ∃ sOrder rest, matchingOrders object sInfo pex = sOrder :: rest ∧
        sOrder.getNames.length ≠ sInfo.getMembers.length) →
      writeStructs_struct env object pex sInfo out =
        Res.ok ⟨out.lines ++ structLines env pex sInfo sInfo.getMembers, out.properties⟩) := by
  have hfile : (matchingOrders object sInfo pex = [] ∨
        ∃ sOrder rest, matchingOrders object sInfo pex = sOrder :: rest ∧
          sOrder.getNames.length ≠ sInfo.getMembers.length) →
      writeStructs_struct env object pex sInfo out =
        Res.ok ⟨out.lines ++ structLines env pex sInfo sInfo.getMembers, out.properties⟩ := by
    intro h
    rw [writeStructs_struct_eq]
    rcases h with h | ⟨sOrder, rest, h, hl⟩
    · rw [h]
      simp [writeStructs_orders, Res.andThen, write, structLines]
    · have hm : sOrder ∈ matchingOrders object sInfo pex := by rw [h]; exact List.mem_cons_self _ _
      unfold matchingOrders at hm
      rw [List.mem_filter, Bool.and_eq_true] at hm
      rw [h]
      unfold writeStructs_orders
      rw [if_pos hm.2, if_neg hl]
      simp [Res.andThen, write, structLines]
  refine ⟨?_, hfile⟩
  intro sOrder hone hnodup hmembers hnames
  have hall : ∀ orderName ∈ sOrder.getNames,
      ∃ member ∈ sInfo.getMembers, member.getName.eq orderName = true := by
    intro orderName hn
    obtain ⟨member, hmem, hk⟩ := List.mem_map.1 (hnames orderName hn)
    refine ⟨member, hmem, ?_⟩
    unfold Pex.StringTable.Index.eq
    unfold memberKey Pex.StringTable.Index.asIndex at hk
    simp [hk, Pex.StringTable.Index.asIndex]
  by_cases hl : sOrder.getNames.length = sInfo.getMembers.length
  · have hperm := orderedMembers_perm sInfo sOrder.getNames hnodup hall hl
    refine ⟨orderedMembers sInfo sOrder.getNames, ?_, hperm,
      fun _ => orderedMembers_keys sInfo sOrder.getNames hall, ?_⟩
    · have hm : sOrder ∈ matchingOrders object sInfo pex := by
        rw [hone]; exact List.mem_cons_self _ _
      unfold matchingOrders at hm
      rw [List.mem_filter, Bool.and_eq_true] at hm
      rw [writeStructs_struct_eq, hone]
      unfold writeStructs_orders
      rw [if_pos hm.2, if_pos hl, writeStructs_names_ok env sInfo pex _ _ hall]
      simp [writeStructs_orders, Res.andThen, write, structLines]
    · intro hdup
      exfalso
      apply hdup
      have hk := orderedMembers_keys sInfo sOrder.getNames hall
      have : ((orderedMembers sInfo sOrder.getNames).map memberKey).Nodup := by
        rw [hk]; exact hnodup
      exact (List.Perm.nodup_iff (hperm.map memberKey)).1 this
  · refine ⟨sInfo.getMembers, hfile (Or.inr ⟨sOrder, [], hone, hl⟩), List.Perm.refl _, ?_,
      fun _ => rfl⟩
    intro hnd
    exfalso
    apply hl
    have hp : (sOrder.getNames.map (fun n => n.asIndex)).Perm
        (sInfo.getMembers.map memberKey) := by
      rw [List.perm_ext_iff_of_nodup hnodup hnd]
      intro a
      constructor
      · intro ha
        obtain ⟨orderName, hn, rfl⟩ := List.mem_map.1 ha
        exact hnames orderName hn
      · intro ha
        obtain ⟨member, hmem, rfl⟩ := List.mem_map.1 ha
        exact hmembers member hmem
    have := hp.length_eq
    simpa using this

theorem writeStructs_struct_order_witness :
    writeStructs (sampleEnv (sampleDecomp [] false)) sampleStructObject
        (sampleStructBinary [sampleIndex 32 "y", sampleIndex 31 "x"]) emptyOut =
      Res.ok ⟨["Struct Point", "  Int y", "  Int x", "EndStruct", ""], []⟩ ∧
    writeStructs (sampleEnv (sampleDecomp [] false)) sampleStructObject
        (sampleStructBinary [sampleIndex 32 "y"]) emptyOut =
      Res.ok ⟨["Struct Point", "  Int x", "  Int y", "EndStruct", ""], []⟩ ∧
    (∃ written : List Pex.StructInfo.Member,
      writeStructs_struct (sampleEnv (sampleDecomp [] false)) sampleStructObject
          (sampleStructBinary [sampleIndex 32 "y", sampleIndex 31 "x"]) samplePoint emptyOut =
        Res.ok ⟨emptyOut.lines ++
            structLines (sampleEnv (sampleDecomp [] false))
              (sampleStructBinary [sampleIndex 32 "y", sampleIndex 31 "x"]) samplePoint written,
          emptyOut.properties⟩ ∧
      written.Perm samplePoint.getMembers ∧
      ((samplePoint.getMembers.map memberKey).Nodup → written.map memberKey = [32, 31]) ∧
      (¬ (samplePoint.getMembers.map memberKey).Nodup → written = samplePoint.getMembers)) ∧
    writeStructs_struct (sampleEnv (sampleDecomp [] false)) sampleStructObject
        (sampleStructBinary [sampleIndex 32 "y"]) samplePoint emptyOut =
      Res.ok ⟨emptyOut.lines ++
          structLines (sampleEnv (sampleDecomp [] false))
            (sampleStructBinary [sampleIndex 32 "y"]) samplePoint samplePoint.getMembers,
        emptyOut.properties⟩ :=
  ⟨by decide, by decide,
    (writeStructs_struct_order (sampleEnv (sampleDecomp [] false)) sampleStructObject
      (sampleStructBinary [sampleIndex 32 "y", sampleIndex 31 "x"]) samplePoint emptyOut).1
      ⟨sampleIndex 1 "Foo", sampleIndex 30 "Point", [sampleIndex 32 "y", sampleIndex 31 "x"]⟩
      rfl (by decide) (by decide) (by decide),
    (writeStructs_struct_order (sampleEnv (sampleDecomp [] false)) sampleStructObject
      (sampleStructBinary [sampleIndex 32 "y"]) samplePoint emptyOut).2
      (Or.inr ⟨⟨sampleIndex 1 "Foo", sampleIndex 30 "Point", [sampleIndex 32 "y"]⟩, [], rfl,
        by decide⟩)⟩

/-! ## The prediction of line counts -/

theorem countStateLineNos_loose_isSome (object : Pex.Object) (pex : Pex.Binary)
    (state : Pex.State) (blank_lines : Bool) :
    ∀ (funcs : List Pex.Function) (lineNumbers : Nat),
      (countStateLineNos_loose object pex state blank_lines funcs lineNumbers).isSome = true ↔
        ∀ func ∈ funcs,
          (pex.getDebugInfo.getFunctionInfo object.getName state.getName func.getName
            Pex.DebugInfo.defaultFunctionType).isSome = true
  | [], _ => by simp [countStateLineNos_loose]
  | func :: rest, lineNumbers => by
    unfold countStateLineNos_loose
    cases hinfo : pex.getDebugInfo.getFunctionInfo object.getName state.getName func.getName
        Pex.DebugInfo.defaultFunctionType with
    | none => simp [hinfo]
    | some info =>
      simp only [List.forall_mem_cons, hinfo, Option.isSome_some, true_and]
      split_ifs
      · exact countStateLineNos_loose_isSome object pex state blank_lines rest _
      · exact countStateLineNos_loose_isSome object pex state blank_lines rest _

theorem countStateLineNos_isSome (state : Pex.State) (object : Pex.Object) (pex : Pex.Binary)
    (blank_lines : Bool) :
    (countStateLineNos state object pex blank_lines).isSome = true ↔
      (state.getName.asString = "" →
        ∀ func ∈ state.getFunctions,
          (pex.getDebugInfo.getFunctionInfo object.getName state.getName func.getName
            Pex.DebugInfo.defaultFunctionType).isSome = true) := by
  unfold countStateLineNos
  by_cases hname : state.getName.asString = ""
  · simp only [hname, if_true, true_implies]
    exact countStateLineNos_loose_isSome object pex state blank_lines _ _
  · simp [hname]

theorem countStatesLineNos_loop_isSome (object : Pex.Object) (pex : Pex.Binary)
    (blank_lines : Bool) :
    ∀ (states : List Pex.State) (lineNumbers : Nat),
      (countStatesLineNos_loop object pex blank_lines states lineNumbers).isSome = true ↔
        ∀ state ∈ states, (countStateLineNos state object pex blank_lines).isSome = true
  | [], _ => by simp [countStatesLineNos_loop]
  | state :: rest, lineNumbers => by
    unfold countStatesLineNos_loop
    cases hcount : countStateLineNos state object pex blank_lines with
    | none => simp [hcount]
    | some count =>
      simp only [List.forall_mem_cons, hcount, Option.isSome_some, true_and]
      exact countStatesLineNos_loop_isSome object pex blank_lines rest _

/-- C18, amended. The paths of the prediction of line counts that return zero:
`countPropertyGroupLineNos` and `countPropertiesLineNos` return 0 for every input;
`countStatesLineNos` returns 0 whenever it returns, which it does exactly when every function of
a state without name has a function info; `StateToWrite::getLineCount` returns 0 for every state.
`countPropertyLineNos` returns 0 for a property with accessors, and for a property written on one
line (auto variable, or `AutoReadOnly`) it returns one more than the number of lines of the
docstring. -/
theorem countLineNos_zero :
    (∀ propGroup object pex blank_lines,
      countPropertyGroupLineNos propGroup object pex blank_lines = 0) ∧
    (∀ object pex blank_lines, countPropertiesLineNos object pex blank_lines = 0) ∧
    (∀ prop object pex blank_lines,
      countPropertyLineNos prop object pex blank_lines =
        if isPropAutoReadOnly prop = true ∨ prop.hasAutoVar = true then
          1 + countDocStringLineNos prop.getDocString
        else 0) ∧
    (∀ object pex blank_lines,
      countStatesLineNos object pex blank_lines =
        if LooseFunctionsHaveInfo object pex then some 0 else none) ∧
    (∀ (stow : StateToWrite) blank_lines, stow.getLineCount blank_lines = 0) := by
  refine ⟨fun _ _ _ _ => rfl, fun _ _ _ => rfl, ?_, ?_, ?_⟩
  · intro prop object pex blank_lines
    unfold countPropertyLineNos
    by_cases h : isPropAutoReadOnly prop = true ∨ prop.hasAutoVar = true
    · simp only [if_pos h]
    · simp only [if_neg h, Function.const]
  · intro object pex blank_lines
    have hloop := countStatesLineNos_loop_isSome object pex blank_lines object.getStates 0
    have hstate := fun state => countStateLineNos_isSome state object pex blank_lines
    unfold countStatesLineNos
    by_cases h : LooseFunctionsHaveInfo object pex
    · rw [if_pos h]
      have hsome := hloop.2 (fun state hs => (hstate state).2 (h state hs))
      obtain ⟨count, hcount⟩ := Option.isSome_iff_exists.1 hsome
      rw [hcount]
      rfl
    · rw [if_neg h]
      cases hcount : countStatesLineNos_loop object pex blank_lines object.getStates 0 with
      | none => rfl
      | some count =>
        exfalso
        apply h
        intro state hs
        exact (hstate state).1 (hloop.1 (by rw [hcount]; rfl) state hs)
  · intro stow blank_lines
    unfold StateToWrite.getLineCount
    split_ifs <;> rfl

/-- C18, as stated, fails: for an auto property with a docstring of two lines
`countPropertyLineNos` returns 3. -/
theorem countLineNos_zero_counterexample :
    sampleDocProperty.hasAutoVar = true ∧
    countPropertyLineNos sampleDocProperty (sampleObjectWith "Foo" [sampleDocProperty])
      (sampleBinary Pex.Binary.ScriptType.SkyrimScript) true = 3 ∧
    countPropertyLineNos sampleDocProperty (sampleObjectWith "Foo" [sampleDocProperty])
      (sampleBinary Pex.Binary.ScriptType.SkyrimScript) true ≠ 0 := by
  decide

/-! ## The order of the functions after `Binary::sort` -/

theorem std_sort_perm {α : Type} (comp : α → α → Bool) (xs : List α) :
    (std_sort comp xs).Perm xs :=
  List.perm_insertionSort _ xs

theorem sort_compare_eq (self : Pex.Binary) (sortById : Bool) (obj : Pex.Object)
    (state : Pex.State) (a b : Pex.Function) :
    self.sort_compare sortById obj state a b =
      if firstLine self obj.getName state.getName a = firstLine self obj.getName state.getName b
      then Pex.Binary.sortFunc sortById a b
      else decide (firstLine self obj.getName state.getName a <
        firstLine self obj.getName state.getName b) := by
  have h : ∀ info : Option Pex.DebugInfo.FunctionInfo,
      (match info with
        | none => 0
        | some info => if info.getLineNumbers = [] then 0 else info.getLineNumbers.headD 0) =
      (match info with
        | none => 0
        | some info => info.getLineNumbers.headD 0) := by
    intro info
    cases info with
    | none => rfl
    | some info =>
      by_cases hl : info.getLineNumbers = []
      · simp [hl]
      · simp [hl]
  unfold Pex.Binary.sort_compare firstLine
  simp only [h]

theorem sortFunc_eq_false_iff (sortById : Bool) (a b : Pex.Function) :
    Pex.Binary.sortFunc sortById b a = false ↔ NameLE sortById a.getName b.getName := by
  unfold Pex.Binary.sortFunc NameLE nameIdLessThan namedLessThan
  cases sortById
  · simp [Pex.NamedItem.getName]
  · simp [Pex.NamedItem.getName]

theorem sort_compare_eq_false_iff (self : Pex.Binary) (sortById : Bool) (obj : Pex.Object)
    (state : Pex.State) (a b : Pex.Function) :
    self.sort_compare sortById obj state b a = false ↔
      FunctionLE self sortById obj.getName state.getName a b := by
  rw [sort_compare_eq]
  unfold FunctionLE
  by_cases h : firstLine self obj.getName state.getName b =
      firstLine self obj.getName state.getName a
  · rw [if_pos h, sortFunc_eq_false_iff]
    constructor
    · intro hn
      exact Or.inr ⟨h.symm, hn⟩
    · rintro (hlt | ⟨_, hn⟩)
      · omega
      · exact hn
  · rw [if_neg h, decide_eq_false_iff_not]
    constructor
    · intro hn
      left
      omega
    · rintro (hlt | ⟨he, _⟩)
      · omega
      · exact absurd he.symm h

theorem NameLE_total (sortById : Bool) (a b : Pex.StringTable.Index) :
    NameLE sortById a b ∨ NameLE sortById b a := by
  unfold NameLE
  cases sortById
  · simpa using le_total a.asString.data b.asString.data
  · simpa using le_total a.asIndex b.asIndex

theorem NameLE_trans (sortById : Bool) (a b c : Pex.StringTable.Index)
    (hab : NameLE sortById a b) (hbc : NameLE sortById b c) : NameLE sortById a c := by
  unfold NameLE at *
  cases sortById
  · simp only [Bool.false_eq_true, if_false] at *
    exact le_trans hab hbc
  · simp only [if_true] at *
    exact le_trans hab hbc

theorem FunctionLE_total (pex : Pex.Binary) (sortById : Bool)
    (objName stateName : Pex.StringTable.Index) (a b : Pex.Function) :
    FunctionLE pex sortById objName stateName a b ∨
      FunctionLE pex sortById objName stateName b a := by
  unfold FunctionLE
  rcases Nat.lt_trichotomy (firstLine pex objName stateName a)
    (firstLine pex objName stateName b) with h | h | h
  · exact Or.inl (Or.inl h)
  · rcases NameLE_total sortById a.getName b.getName with hn | hn
    · exact Or.inl (Or.inr ⟨h, hn⟩)
    · exact Or.inr (Or.inr ⟨h.symm, hn⟩)
  · exact Or.inr (Or.inl h)

theorem FunctionLE_trans (pex : Pex.Binary) (sortById : Bool)
    (objName stateName : Pex.StringTable.Index) (a b c : Pex.Function)
    (hab : FunctionLE pex sortById objName stateName a b)
    (hbc : FunctionLE pex sortById objName stateName b c) :
    FunctionLE pex sortById objName stateName a c := by
  unfold FunctionLE at *
  rcases hab with h1 | ⟨h1, n1⟩ <;> rcases hbc with h2 | ⟨h2, n2⟩
  · left; omega
  · left; omega
  · left; omega
  · exact Or.inr ⟨h1.trans h2, NameLE_trans sortById _ _ _ n1 n2⟩

theorem std_sort_functions_sorted (self : Pex.Binary) (sortById : Bool) (obj : Pex.Object)
    (state : Pex.State) (fs : List Pex.Function) :
    (std_sort (self.sort_compare sortById obj state) fs).Pairwise
      (FunctionLE self sortById obj.getName state.getName) := by
  haveI : IsTotal Pex.Function
      (fun a b => self.sort_compare sortById obj state b a = false) :=
    ⟨fun a b => by
      simp only [sort_compare_eq_false_iff]
      exact FunctionLE_total self sortById _ _ a b⟩
  haveI : IsTrans Pex.Function
      (fun a b => self.sort_compare sortById obj state b a = false) :=
    ⟨fun a b c => by
      simp only [sort_compare_eq_false_iff]
      exact FunctionLE_trans self sortById _ _ a b c⟩
  have hs := List.sorted_insertionSort
    (fun a b => self.sort_compare sortById obj state b a = false) fs
  unfold std_sort
  exact List.Pairwise.imp (fun h => (sort_compare_eq_false_iff self sortById obj state _ _).1 h) hs

/-- C14. After `Binary::sort` the debug info is the one before, the objects are the objects
before in another order, each with its states in another order, and within every state the
functions are a permutation of the functions before, ordered by the first line number of their
debug function info (0 when there is none or its list of lines is empty) and, for equal first
lines, by name: by text when `sortById` is false, by position in the string table when it is
true. So no function with line information comes before a function without. -/
theorem Binary_sort_functions (self : Pex.Binary) (sortById : Bool) :
    (self.sort sortById).getDebugInfo = self.getDebugInfo ∧
    ((self.sort sortById).getObjects.map (fun obj => obj.getName)).Perm
      (self.getObjects.map (fun obj => obj.getName)) ∧
    ∀ obj' ∈ (self.sort sortById).getObjects, ∃ obj ∈ self.getObjects,
      obj'.getName = obj.getName ∧
      (obj'.getStates.map (fun state => state.getName)).Perm
        (obj.getStates.map (fun state => state.getName)) ∧
      ∀ state' ∈ obj'.getStates, ∃ state ∈ obj.getStates,
        state'.getName = state.getName ∧
        state'.getFunctions.Perm state.getFunctions ∧
        state'.getFunctions.Pairwise (FunctionLE self sortById obj.getName state.getName) ∧
        state'.getFunctions.Pairwise (fun a b =>
          firstLine self obj.getName state.getName b = 0 →
            firstLine self obj.getName state.getName a = 0) := by
  unfold Pex.Binary.sort
  simp only
  refine ⟨trivial, ?_, ?_⟩
  · rw [List.map_map]
    exact (std_sort_perm _ self.getObjects).map _
  · intro obj' hobj'
    obtain ⟨obj, hobj, rfl⟩ := List.mem_map.1 hobj'
    refine ⟨obj, (std_sort_perm _ self.getObjects).subset hobj, rfl, ?_, ?_⟩
    · simp only [List.map_map]
      exact (std_sort_perm _ obj.getStates).map _
    · intro state' hstate'
      simp only at hstate'
      obtain ⟨state, hstate, rfl⟩ := List.mem_map.1 hstate'
      have hsorted := std_sort_functions_sorted self sortById
        { obj with
          getGuards := std_sort (Pex.Binary.sortFunc sortById) obj.getGuards,
          getProperties := std_sort (Pex.Binary.sortFunc sortById) obj.getProperties,
          getStates := std_sort (Pex.Binary.sortFunc sortById) obj.getStates,
          getStructInfos := std_sort (Pex.Binary.sortFunc sortById) obj.getStructInfos,
          getVariables := std_sort (Pex.Binary.sortFunc sortById) obj.getVariables }
        state state.getFunctions
      refine ⟨state, (std_sort_perm _ obj.getStates).subset hstate, rfl,
        std_sort_perm _ state.getFunctions, hsorted, hsorted.imp ?_⟩
      intro a b hle hb
      unfold FunctionLE at hle
      simp only at hle
      rcases hle with h | ⟨h, _⟩
      · omega
      · omega

theorem Binary_sort_functions_witness :
    ((sampleSortBinary.sort false).getObjects.flatMap (fun obj =>
      obj.getStates.flatMap (fun state =>
        state.getFunctions.map (fun f =>
          (f.getName.asString, firstLine sampleSortBinary obj.getName state.getName f))))) =
      [("Eta", 0), ("Zeta", 0), ("Alpha", 10), ("Beta", 30)] ∧
    ((sampleSortBinary.sort true).getObjects.flatMap (fun obj =>
      obj.getStates.flatMap (fun state =>
        state.getFunctions.map (fun f =>
          (f.getName.asIndex, firstLine sampleSortBinary obj.getName state.getName f))))) =
      [(70, 0), (71, 0), (73, 10), (72, 30)] ∧
    ((sampleSortBinary.sort false).getObjects.map (fun obj => obj.getName)).Perm
      (sampleSortBinary.getObjects.map (fun obj => obj.getName)) :=
  ⟨by decide, by decide, (Binary_sort_functions sampleSortBinary false).2.1⟩

/-! ## Guard reconstruction -/

theorem matchingUnlock_none_body (s : Nat) :
    ∀ (xs body next : Node.Scope) (t : Nat), matchingUnlock xs t = some (body, next) →
      matchingUnlock xs s = none → matchingUnlock body s = none := by
  intro xs
  induction xs with
  | done => intro body next t h; simp [matchingUnlock] at h
  | statement text nx ih =>
    intro body next t h hs
    simp only [matchingUnlock, Option.map_eq_some', Prod.mk.injEq, Option.map_eq_none'] at h hs
    obtain ⟨p, hp, rfl, rfl⟩ := h
    simp only [matchingUnlock, Option.map_eq_none']
    exact ih p.1 p.2 t hp hs
  | lock u nx ih =>
    intro body next t h hs
    simp only [matchingUnlock, Option.map_eq_some', Prod.mk.injEq, Option.map_eq_none'] at h hs
    obtain ⟨p, hp, rfl, rfl⟩ := h
    simp only [matchingUnlock, Option.map_eq_none']
    exact ih p.1 p.2 t hp hs
  | unlock u nx ih =>
    intro body next t h hs
    simp only [matchingUnlock] at h hs
    by_cases hus : u = s
    · rw [if_pos hus] at hs
      simp at hs
    · rw [if_neg hus, Option.map_eq_none'] at hs
      by_cases hut : u = t
      · rw [if_pos hut] at h
        simp only [Option.some.injEq, Prod.mk.injEq] at h
        rw [← h.1]
        rfl
      · rw [if_neg hut] at h
        simp only [Option.map_eq_some', Prod.mk.injEq] at h
        obtain ⟨p, hp, rfl, rfl⟩ := h
        simp only [matchingUnlock, if_neg hus, Option.map_eq_none']
        exact ih p.1 p.2 t hp hs
  | guard u b nx _ ih =>
    intro body next t h hs
    simp only [matchingUnlock, Option.map_eq_some', Prod.mk.injEq, Option.map_eq_none'] at h hs
    obtain ⟨p, hp, rfl, rfl⟩ := h
    simp only [matchingUnlock, Option.map_eq_none']
    exact ih p.1 p.2 t hp hs
  | ifElse c b e nx _ _ ih =>
    intro body next t h hs
    simp only [matchingUnlock, Option.map_eq_some', Prod.mk.injEq, Option.map_eq_none'] at h hs
    obtain ⟨p, hp, rfl, rfl⟩ := h
    simp only [matchingUnlock, Option.map_eq_none']
    exact ih p.1 p.2 t hp hs
  | whileLoop c b nx _ ih =>
    intro body next t h hs
    simp only [matchingUnlock, Option.map_eq_some', Prod.mk.injEq, Option.map_eq_none'] at h hs
    obtain ⟨p, hp, rfl, rfl⟩ := h
    simp only [matchingUnlock, Option.map_eq_none']
    exact ih p.1 p.2 t hp hs

theorem matchingUnlock_guarded :
    ∀ (xs body next : Node.Scope) (t : Nat), xs.Guarded →
      matchingUnlock xs t = some (body, next) → body.Guarded ∧ next.Guarded := by
  intro xs
  induction xs with
  | done => intro body next t _ h; simp [matchingUnlock] at h
  | statement text nx ih =>
    intro body next t hg h
    simp only [matchingUnlock, Option.map_eq_some', Prod.mk.injEq] at h
    obtain ⟨p, hp, rfl, rfl⟩ := h
    exact ih p.1 p.2 t hg hp
  | lock u nx ih =>
    intro body next t hg h
    simp only [matchingUnlock, Option.map_eq_some', Prod.mk.injEq] at h
    obtain ⟨p, hp, rfl, rfl⟩ := h
    have := ih p.1 p.2 t hg.2 hp
    exact ⟨⟨matchingUnlock_none_body u nx p.1 p.2 t hp hg.1, this.1⟩, this.2⟩
  | unlock u nx ih =>
    intro body next t hg h
    simp only [matchingUnlock] at h
    by_cases hut : u = t
    · rw [if_pos hut] at h
      simp only [Option.some.injEq, Prod.mk.injEq] at h
      rw [← h.1, ← h.2]
      exact ⟨trivial, hg⟩
    · rw [if_neg hut] at h
      simp only [Option.map_eq_some', Prod.mk.injEq] at h
      obtain ⟨p, hp, rfl, rfl⟩ := h
      exact ih p.1 p.2 t hg hp
  | guard u b nx _ ih =>
    intro body next t hg h
    simp only [matchingUnlock, Option.map_eq_some', Prod.mk.injEq] at h
    obtain ⟨p, hp, rfl, rfl⟩ := h
    have := ih p.1 p.2 t hg.2 hp
    exact ⟨⟨hg.1, this.1⟩, this.2⟩
  | ifElse c b e nx _ _ ih =>
    intro body next t hg h
    simp only [matchingUnlock, Option.map_eq_some', Prod.mk.injEq] at h
    obtain ⟨p, hp, rfl, rfl⟩ := h
    have := ih p.1 p.2 t hg.2.2 hp
    exact ⟨⟨hg.1, hg.2.1, this.1⟩, this.2⟩
  | whileLoop c b nx _ ih =>
    intro body next t hg h
    simp only [matchingUnlock, Option.map_eq_some', Prod.mk.injEq] at h
    obtain ⟨p, hp, rfl, rfl⟩ := h
    have := ih p.1 p.2 t hg.2 hp
    exact ⟨⟨hg.1, this.1⟩, this.2⟩

theorem matchingUnlock_remove (s t : Nat) :
    ∀ xs : Node.Scope, matchingUnlock xs s = none →
      matchingUnlock (RemoveUnlocksFromBody xs t) s = none := by
  intro xs
  induction xs with
  | done => intro _; rfl
  | statement text nx ih =>
    intro h
    simp only [matchingUnlock, Option.map_eq_none'] at h
    simp only [RemoveUnlocksFromBody, matchingUnlock, Option.map_eq_none']
    exact ih h
  | lock u nx ih =>
    intro h
    simp only [matchingUnlock, Option.map_eq_none'] at h
    simp only [RemoveUnlocksFromBody, matchingUnlock, Option.map_eq_none']
    exact ih h
  | unlock u nx ih =>
    intro h
    simp only [matchingUnlock] at h
    by_cases hus : u = s
    · rw [if_pos hus] at h
      simp at h
    · rw [if_neg hus, Option.map_eq_none'] at h
      simp only [RemoveUnlocksFromBody]
      by_cases hut : u = t
      · rw [if_pos hut]
        exact ih h
      · rw [if_neg hut]
        simp only [matchingUnlock, if_neg hus, Option.map_eq_none']
        exact ih h
  | guard u b nx _ ih =>
    intro h
    simp only [matchingUnlock, Option.map_eq_none'] at h
    simp only [RemoveUnlocksFromBody, matchingUnlock, Option.map_eq_none']
    exact ih h
  | ifElse c b e nx _ _ ih =>
    intro h
    simp only [matchingUnlock, Option.map_eq_none'] at h
    simp only [RemoveUnlocksFromBody, matchingUnlock, Option.map_eq_none']
    exact ih h
  | whileLoop c b nx _ ih =>
    intro h
    simp only [matchingUnlock, Option.map_eq_none'] at h
    simp only [RemoveUnlocksFromBody, matchingUnlock, Option.map_eq_none']
    exact ih h

theorem RemoveUnlocksFromBody_guarded (t : Nat) :
    ∀ xs : Node.Scope, xs.Guarded → (RemoveUnlocksFromBody xs t).Guarded := by
  intro xs
  induction xs with
  | done => intro _; trivial
  | statement text nx ih => exact fun h => ih h
  | lock u nx ih => exact fun h => ⟨matchingUnlock_remove u t nx h.1, ih h.2⟩
  | unlock u nx ih =>
    intro h
    simp only [RemoveUnlocksFromBody]
    by_cases hut : u = t
    · rw [if_pos hut]
      exact ih h
    · rw [if_neg hut]
      exact ih h
  | guard u b nx ihb ih => exact fun h => ⟨ihb h.1, ih h.2⟩
  | ifElse c b e nx ihb ihe ih => exact fun h => ⟨ihb h.1, ihe h.2.1, ih h.2.2⟩
  | whileLoop c b nx ihb ih => exact fun h => ⟨ihb h.1, ih h.2⟩

theorem LiftLockBody_guarded (t : Nat) (following : Node.Scope) (h : following.Guarded) :
    (LiftLockBody t following).Guarded := by
  unfold LiftLockBody
  cases hm : matchingUnlock following t with
  | none => exact ⟨hm, h⟩
  | some p =>
    have := matchingUnlock_guarded following p.1 p.2 t h hm
    exact ⟨RemoveUnlocksFromBody_guarded t p.1 this.1, this.2⟩

theorem rebuildLocks_guarded : ∀ program : Node.Scope, (rebuildLocks program).Guarded := by
  intro program
  induction program with
  | done => trivial
  | statement text nx ih => exact ih
  | lock u nx ih => exact LiftLockBody_guarded u _ ih
  | unlock u nx ih => exact ih
  | guard u b nx ihb ih => exact ⟨ihb, ih⟩
  | ifElse c b e nx ihb ihe ih => exact ⟨ihb, ihe, ih⟩
  | whileLoop c b nx ihb ih => exact ⟨ihb, ih⟩

theorem rebuildLocks_of_guarded :
    ∀ program : Node.Scope, program.Guarded → rebuildLocks program = program := by
  intro program
  induction program with
  | done => intro _; rfl
  | statement text nx ih =>
    intro h
    simp only [rebuildLocks, ih h]
  | lock u nx ih =>
    intro h
    simp only [rebuildLocks, ih h.2, LiftLockBody, h.1]
  | unlock u nx ih =>
    intro h
    simp only [rebuildLocks, ih h]
  | guard u b nx ihb ih =>
    intro h
    simp only [rebuildLocks, ihb h.1, ih h.2]
  | ifElse c b e nx ihb ihe ih =>
    intro h
    simp only [rebuildLocks, ihb h.1, ihe h.2.1, ih h.2.2]
  | whileLoop c b nx ihb ih =>
    intro h
    simp only [rebuildLocks, ihb h.1, ih h.2]

theorem RemoveUnlocksFromBody_hasUnlock (t : Nat) :
    ∀ body : Node.Scope, (RemoveUnlocksFromBody body t).hasUnlock t = false := by
  intro body
  induction body with
  | done => rfl
  | statement text nx ih => exact ih
  | lock u nx ih => exact ih
  | unlock u nx ih =>
    simp only [RemoveUnlocksFromBody]
    by_cases hut : u = t
    · rw [if_pos hut]
      exact ih
    · rw [if_neg hut]
      simp [Node.Scope.hasUnlock, hut, ih]
  | guard u b nx ihb ih => simp [RemoveUnlocksFromBody, Node.Scope.hasUnlock, ihb, ih]
  | ifElse c b e nx ihb ihe ih =>
    simp [RemoveUnlocksFromBody, Node.Scope.hasUnlock, ihb, ihe, ih]
  | whileLoop c b nx ihb ih => simp [RemoveUnlocksFromBody, Node.Scope.hasUnlock, ihb, ih]

/-- C16. Guard reconstruction is idempotent: `rebuildLocks` applied to a tree it has produced
gives the same tree. What it produces has no acquire with a matching release left, and the body
of a guard lifted for a lock target holds no release of that target. -/
theorem rebuildLocks_idempotent (program : Node.Scope) :
    rebuildLocks (rebuildLocks program) = rebuildLocks program ∧
    (rebuildLocks program).Guarded ∧
    (∀ target body next, matchingUnlock program target = some (body, next) →
      ∃ lifted, LiftLockBody target program = .guard target lifted next ∧
        lifted.hasUnlock target = false) := by
  refine ⟨rebuildLocks_of_guarded _ (rebuildLocks_guarded program),
    rebuildLocks_guarded program, ?_⟩
  intro target body next h
  refine ⟨RemoveUnlocksFromBody body target, ?_, RemoveUnlocksFromBody_hasUnlock target body⟩
  unfold LiftLockBody
  rw [h]

theorem rebuildLocks_idempotent_witness :
    rebuildLocks sampleLockedBody =
      .guard 1 (.statement "count += 1"
        (.ifElse "count > 10" (.statement "Return" .done) .done (.statement "Notify()" .done)))
        (.statement "Return" .done) ∧
    rebuildLocks (rebuildLocks sampleLockedBody) = rebuildLocks sampleLockedBody :=
  ⟨by decide, (rebuildLocks_idempotent sampleLockedBody).1⟩

theorem countLineNos_zero_witness :
    countPropertiesLineNos (sampleObjectWith "Foo" [sampleDocProperty])
      (sampleBinary Pex.Binary.ScriptType.SkyrimScript) true = 0 ∧
    countPropertyLineNos sampleGetterProperty (sampleObjectWith "Foo" [sampleGetterProperty])
      (sampleBinary Pex.Binary.ScriptType.SkyrimScript) true = 0 ∧
    countStatesLineNos
      { sampleObject "Foo" with getStates := [⟨sampleIndex 60 "Busy", [sampleFunction "F" "None"]⟩] }
      (sampleBinary Pex.Binary.ScriptType.SkyrimScript) true = some 0 ∧
    countStatesLineNos
      { sampleObject "Foo" with getStates := [⟨sampleIndex 0 "", [sampleFunction "F" "None"]⟩] }
      (sampleBinary Pex.Binary.ScriptType.SkyrimScript) true = none ∧
    countStatesLineNos
      { sampleObject "Foo" with getStates := [⟨sampleIndex 0 "", [sampleFunction "F" "None"]⟩] }
      (sampleBinary Pex.Binary.ScriptType.SkyrimScript) true =
      (if LooseFunctionsHaveInfo
          { sampleObject "Foo" with
            getStates := [⟨sampleIndex 0 "", [sampleFunction "F" "None"]⟩] }
          (sampleBinary Pex.Binary.ScriptType.SkyrimScript) then some 0 else none) :=
  ⟨countLineNos_zero.2.1 _ _ _, by decide, by decide, by decide,
    countLineNos_zero.2.2.2.1 _ _ _⟩

/-! ## The keyword and the closing line of a function -/

theorem writeFunction_decl_keyword (env : Env) (i : Nat) (function : Pex.Function)
    (functionName : String) (isEvent : Bool) :
    writeFunction_decl env i function functionName isEvent =
      declFront env i function ++ declKeyword isEvent ++ functionName ++ "(" ++
        (writeFunction_params function.getParams ++ ")" ++
          (if function.isGlobal = true then " Global" else "")) := by
  unfold writeFunction_decl declFront declKeyword
  simp only [String.append_assoc]

theorem functionLines_getLast (env : Env) (self : PscCoder) (i : Nat) (function : Pex.Function)
    (pex : Pex.Binary) (functionName : String) (isEvent : Bool) (decomp : PscDecompiler)
    (front : List String) :
    (front ++ functionLines env self i function pex functionName isEvent decomp).getLast? =
      some (closingLine env i isEvent) := by
  unfold functionLines closingLine
  rw [← List.append_assoc, List.getLast?_append]
  cases isEvent <;> simp

theorem writeFunction_native (env : Env) (self : PscCoder) (i : Nat)
    (function : Pex.Function) (object : Pex.Object) (pex : Pex.Binary)
    (functionInfo : Option Pex.DebugInfo.FunctionInfo) (name : String) (out : Out)
    (functionName : String) (isEvent : Bool)
    (hname : writeFunction_name env function pex name = some (functionName, isEvent))
    (hgen : isCompilerGeneratedFunc functionName object pex.getGameType = false)
    (hnative : function.isNative = true) :
    writeFunction env self i function object pex functionInfo name out =
      Res.ok ⟨out.lines ++
        [writeUserFlag (writeFunction_decl env i function functionName isEvent ++ " Native")
          function.getUserFlags pex] ++
        docStringLines env i function.getDocString, out.properties⟩ := by
  unfold writeFunction
  simp only [hname, hgen, hnative, Bool.false_eq_true, if_false, if_true, writeDocString_lines,
    write]

theorem writeFunction_kept (env : Env) (self : PscCoder) (i : Nat)
    (function : Pex.Function) (object : Pex.Object) (pex : Pex.Binary)
    (functionInfo : Option Pex.DebugInfo.FunctionInfo) (name : String) (out : Out)
    (functionName : String) (isEvent : Bool) (decomp : PscDecompiler)
    (hname : writeFunction_name env function pex name = some (functionName, isEvent))
    (hgen : isCompilerGeneratedFunc functionName object pex.getGameType = false)
    (hnative : function.isNative = false)
    (hdecomp : env.decompile function object functionInfo = Except.ok decomp)
    (hkeep : decomp.isDebugFunction = true →
      (fixupFunction object pex functionName decomp).1 = true ∨ self.m_WriteDebugFuncs = true) :
    ∃ comment ∈ fixupComments env i functionName, ∃ written : PscDecompiler,
      writeFunction env self i function object pex functionInfo name out =
        Res.ok ⟨out.lines ++ comment ++
          functionLines env self i function pex functionName isEvent written,
          out.properties⟩ := by
  unfold writeFunction
  simp only [hname, hgen, hnative, hdecomp, Bool.false_eq_true, if_false,
    writeFunction_body_lines, write]
  by_cases hdebug : decomp.isDebugFunction = true
  · rw [if_pos hdebug]
    by_cases hfixed : (fixupFunction object pex functionName decomp).1 = true
    · rw [if_pos hfixed]
      exact ⟨[indent env i ++ "; Fixup hacks for debug-only function: " ++ functionName],
        by simp [fixupComments], (fixupFunction object pex functionName decomp).2, rfl⟩
    · rw [if_neg hfixed]
      have hw : self.m_WriteDebugFuncs = true := (hkeep hdebug).resolve_left hfixed
      rw [if_pos hw, String.append_empty]
      exact ⟨[indent env i ++ "; WARNING: possibly inoperative debug function " ++
          functionName], by simp [fixupComments],
        (fixupFunction object pex functionName decomp).2, rfl⟩
  · rw [if_neg hdebug]
    by_cases hstate : _stricmp functionName "GotoState" = 0 ∨
        _stricmp functionName "GetState" = 0
    · rw [if_pos hstate]
      exact ⟨[indent env i ++ "; Fixup hacks for native ScriptObject::GotoState/GetState"],
        by simp [fixupComments], (fixupFunction object pex functionName decomp).2, rfl⟩
    · rw [if_neg hstate]
      exact ⟨[], by simp [fixupComments], decomp, by rw [List.append_nil]⟩

theorem functionLines_eq (env : Env) (self : PscCoder) (i : Nat) (function : Pex.Function)
    (pex : Pex.Binary) (functionName : String) (isEvent : Bool) (decomp : PscDecompiler) :
    functionLines env self i function pex functionName isEvent decomp =
      [writeUserFlag (writeFunction_decl env i function functionName isEvent)
        function.getUserFlags pex] ++
      docStringLines env i function.getDocString ++
      writeFunction_bodyLines env self i decomp ++ [closingLine env i isEvent] := by
  unfold functionLines closingLine
  cases isEvent <;> simp

/-- C21, amended. For a function that `writeFunction` does not skip as compiler generated:
if it is native, `writeFunction` writes only the declaration, which ends in ` Native` and the
user flags, and the docstring if there is one; if it is not native and is not skipped as an
inoperative debug function, `writeFunction` writes at most one comment, then the declaration, the
docstring, the body and the closing line, and the keyword of the declaration and the closing line
agree: `Event ` and `EndEvent` when the function is classified as an event, `Function ` and
`EndFunction` otherwise. -/
theorem writeFunction_keywords (env : Env) (self : PscCoder) (i : Nat)
    (function : Pex.Function) (object : Pex.Object) (pex : Pex.Binary)
    (functionInfo : Option Pex.DebugInfo.FunctionInfo) (name : String) (out : Out)
    (functionName : String) (isEvent : Bool)
    (hname : writeFunction_name env function pex name = some (functionName, isEvent))
    (hgen : isCompilerGeneratedFunc functionName object pex.getGameType = false) :
    (function.isNative = true →
      writeFunction env self i function object pex functionInfo name out =
        Res.ok ⟨out.lines ++
          [declFront env i function ++ declKeyword isEvent ++ functionName ++ "(" ++
            writeFunction_params function.getParams ++ ")" ++
            (if function.isGlobal = true then " Global" else "") ++ " Native" ++
            writeUserFlag "" function.getUserFlags pex] ++
          docStringLines env i function.getDocString, out.properties⟩) ∧
    (function.isNative = false →
      ∀ decomp, env.decompile function object functionInfo = Except.ok decomp →
        (decomp.isDebugFunction = true →
          (fixupFunction object pex functionName decomp).1 = true ∨
            self.m_WriteDebugFuncs = true) →
        ∃ comment ∈ fixupComments env i functionName, ∃ written : PscDecompiler,
          writeFunction env self i function object pex functionInfo name out =
            Res.ok ⟨out.lines ++ comment ++
              [writeUserFlag (writeFunction_decl env i function functionName isEvent)
                function.getUserFlags pex] ++
              docStringLines env i function.getDocString ++
              writeFunction_bodyLines env self i written ++ [closingLine env i isEvent],
              out.properties⟩ ∧
          (writeFunction env self i function object pex functionInfo name out).out.lines.getLast?
            = some (closingLine env i isEvent)) ∧
    (∃ back, writeFunction_decl env i function functionName isEvent =
      declFront env i function ++ declKeyword isEvent ++ functionName ++ "(" ++ back) := by
  refine ⟨?_, ?_, ⟨_, writeFunction_decl_keyword env i function functionName isEvent⟩⟩
  · intro hnative
    rw [writeFunction_native env self i function object pex functionInfo name out functionName
      isEvent hname hgen hnative, writeUserFlag_append, writeFunction_decl_keyword]
    simp only [String.append_assoc, List.append_assoc]
  · intro hnative decomp hdecomp hkeep
    obtain ⟨comment, hcomment, written, hw⟩ :=
      writeFunction_kept env self i function object pex functionInfo name out functionName
        isEvent decomp hname hgen hnative hdecomp hkeep
    refine ⟨comment, hcomment, written, ?_, ?_⟩
    · rw [hw, functionLines_eq]
      simp only [List.append_assoc]
    · rw [hw]
      exact functionLines_getLast env self i function pex functionName isEvent written _

/-- C21, as stated, fails: the native function `GetState` of the object `Foo` is skipped as
compiler generated, so no declaration is written for it. -/
theorem writeFunction_keywords_counterexample :
    (sampleNativeFunction "GetState").isNative = true ∧
    writeFunction (sampleEnv (sampleDecomp [] false)) (sampleCoder false false) 0
        (sampleNativeFunction "GetState") (sampleObject "Foo")
        (sampleBinary Pex.Binary.ScriptType.SkyrimScript) none "" emptyOut =
      Res.ok ⟨["; Skipped compiler generated GetState"], []⟩ := by
  decide

theorem writeFunction_keywords_witness :
    writeFunction (sampleEventEnv (sampleDecomp ["x = 1"] false)) (sampleCoder false false) 0
        (sampleFunction "OnInit" "None") (sampleObject "Foo")
        (sampleBinary Pex.Binary.ScriptType.SkyrimScript) none "" emptyOut =
      Res.ok ⟨["Event OnInit()", "  x = 1", "EndEvent"], []⟩ ∧
    (writeFunction (sampleEventEnv (sampleDecomp ["x = 1"] false)) (sampleCoder false false) 0
        (sampleFunction "OnInit" "None") (sampleObject "Foo")
        (sampleBinary Pex.Binary.ScriptType.SkyrimScript) none "" emptyOut).out.lines.getLast? =
      some (closingLine (sampleEventEnv (sampleDecomp ["x = 1"] false)) 0 true) ∧
    writeFunction (sampleEventEnv (sampleDecomp [] false)) (sampleCoder false false) 0
        (sampleNativeFunction "GetHealth") (sampleObject "Foo")
        (sampleBinary Pex.Binary.ScriptType.SkyrimScript) none "" emptyOut =
      Res.ok ⟨emptyOut.lines ++
        [declFront (sampleEventEnv (sampleDecomp [] false)) 0 (sampleNativeFunction "GetHealth") ++
          declKeyword false ++ "GetHealth" ++ "(" ++
          writeFunction_params (sampleNativeFunction "GetHealth").getParams ++ ")" ++
          (if (sampleNativeFunction "GetHealth").isGlobal = true then " Global" else "") ++
          " Native" ++
          writeUserFlag "" (sampleNativeFunction "GetHealth").getUserFlags
            (sampleBinary Pex.Binary.ScriptType.SkyrimScript)] ++
        docStringLines (sampleEventEnv (sampleDecomp [] false)) 0
          (sampleNativeFunction "GetHealth").getDocString, emptyOut.properties⟩ :=
  ⟨by decide,
    (Exists.choose_spec (Exists.choose_spec
      ((writeFunction_keywords (sampleEventEnv (sampleDecomp ["x = 1"] false))
        (sampleCoder false false) 0 (sampleFunction "OnInit" "None") (sampleObject "Foo")
        (sampleBinary Pex.Binary.ScriptType.SkyrimScript) none "" emptyOut "OnInit" true
        (by decide) (by decide)).2.1 rfl (sampleDecomp ["x = 1"] false) rfl
        (by decide))).2).2,
    (writeFunction_keywords (sampleEventEnv (sampleDecomp [] false))
      (sampleCoder false false) 0 (sampleNativeFunction "GetHealth") (sampleObject "Foo")
      (sampleBinary Pex.Binary.ScriptType.SkyrimScript) none "" emptyOut "GetHealth" false
      (by decide) (by decide)).1 rfl⟩

/-! ## Remote events -/

theorem remote_head (functionName : String)
    (hstart : EqIgnoreCase (substr functionName 0 9) "::remote_") :
    ∃ c cs, functionName.data = c :: cs ∧ tolower c = ':' := by
  unfold EqIgnoreCase substr at hstart
  cases hd : functionName.data with
  | nil =>
    rw [hd] at hstart
    simp at hstart
  | cons c cs =>
    rw [hd] at hstart
    refine ⟨c, cs, rfl, ?_⟩
    have h0 := congrArg List.head? hstart
    simp only [List.drop_zero, List.take_succ_cons, List.map_cons, List.head?_cons,
      Option.some.injEq] at h0
    rw [h0]
    decide

theorem stricmp_on_ne_zero (functionName : String)
    (hstart : EqIgnoreCase (substr functionName 0 9) "::remote_") :
    _stricmp (substr functionName 0 2) "on" ≠ 0 := by
  obtain ⟨c, cs, hd, hc⟩ := remote_head functionName hstart
  have hne : c ≠ '\x00' := by
    intro h0
    rw [h0] at hc
    exact absurd hc (by decide)
  unfold _stricmp c_str substr
  rw [hd]
  have hon : ("on" : String).data = ['o', 'n'] := rfl
  simp only [List.drop_zero, List.take_succ_cons, hon]
  rw [List.takeWhile_cons, if_pos (by simpa using hne)]
  have hon' : List.takeWhile (fun c => decide (c ≠ '\x00')) ['o', 'n'] = ['o', 'n'] := by decide
  rw [hon']
  unfold stricmpLoop
  have ho : tolower 'o' = 'o' := by decide
  rw [ho, hc, if_neg (by decide)]
  decide

theorem IsEvent_remote (env : Env) (scriptType : Pex.Binary.ScriptType) (functionName : String)
    (hstart : EqIgnoreCase (substr functionName 0 9) "::remote_") :
    IsEvent env scriptType functionName = some false := by
  unfold IsEvent
  rw [if_neg (fun h => stricmp_on_ne_zero functionName hstart h.2)]

theorem remoteName_mem (functionName : String) (n : Nat)
    (h : n < functionName.length - 9) : '.' ∈ (remoteName functionName n).data := by
  unfold remoteName
  have hl : n < (functionName.data.drop 9).length := by
    rw [List.length_drop]
    exact h
  exact List.mem_iff_getElem.2 ⟨n, by simpa using hl, by simp⟩

theorem isCompilerGeneratedFunc_of_dot (name : String) (object : Pex.Object)
    (scriptType : Pex.Binary.ScriptType) (h : '.' ∈ name.data) :
    isCompilerGeneratedFunc name object scriptType = false := by
  have hlow : '.' ∈ (str_to_lower name).data := by
    unfold str_to_lower
    exact List.mem_map.2 ⟨'.', h, by decide⟩
  unfold isCompilerGeneratedFunc
  simp only
  split_ifs with h1 h2 h3
  · rfl
  · exfalso
    simp only [List.mem_cons, List.mem_singleton, List.not_mem_nil, or_false] at h2
    rcases h2 with h2 | h2
    · rw [h2] at hlow
      exact absurd hlow (by decide)
    · rw [h2] at hlow
      exact absurd hlow (by decide)
  · exfalso
    simp at h3
  · rfl

theorem getFunctionToWrite_body_named (env : Env) (self : PscCoder) (i : Nat)
    (function : Pex.Function) (object : Pex.Object) (pex : Pex.Binary)
    (functionInfo : Option Pex.DebugInfo.FunctionInfo) (stream : String)
    (decomp : PscDecompiler) (func₀ func : FunctionToWrite)
    (h : getFunctionToWrite_body env self i function object pex functionInfo stream decomp func₀ =
      Except.ok func) :
    func.isEvent = func₀.isEvent ∧ func.nameAsWritten = func₀.nameAsWritten := by
  unfold getFunctionToWrite_body at h
  rw [getFunctionToWrite_ids_eq] at h
  cases functionInfo with
  | none => simp at h
  | some info =>
    simp only at h
    cases hl : info.getLineNumbers with
    | nil =>
      rw [hl] at h
      simp only [Except.ok.injEq] at h
      subst h
      exact ⟨rfl, rfl⟩
    | cons front rest =>
      rw [hl] at h
      simp only [Except.ok.injEq] at h
      subst h
      exact ⟨rfl, rfl⟩

theorem getFunctionToWrite_named (env : Env) (self : PscCoder) (i : Nat)
    (function : Pex.Function) (object : Pex.Object) (pex : Pex.Binary)
    (functionInfo : Option Pex.DebugInfo.FunctionInfo) (name : String)
    (functionName : String) (isEvent : Bool) (func : FunctionToWrite)
    (hname : getFunctionToWrite_name env function pex name = some (functionName, isEvent))
    (hret : getFunctionToWrite env self i function object pex functionInfo name =
      Except.ok func) :
    func.isEvent = some isEvent ∧ func.nameAsWritten = functionName := by
  unfold getFunctionToWrite at hret
  rw [hname] at hret
  simp only at hret
  by_cases hgen : isCompilerGeneratedFunc functionName object pex.getGameType = true
  · rw [if_pos hgen] at hret
    simp only [Except.ok.injEq] at hret
    subst hret
    exact ⟨rfl, rfl⟩
  · rw [if_neg hgen] at hret
    by_cases hnative : function.isNative = true
    · rw [if_pos hnative] at hret
      simp only [Except.ok.injEq] at hret
      subst hret
      exact ⟨rfl, rfl⟩
    · rw [if_neg hnative] at hret
      cases hdecomp : env.decompile function object functionInfo with
      | error e => rw [hdecomp] at hret; simp at hret
      | ok decomp =>
        rw [hdecomp] at hret
        simp only at hret
        by_cases hdebug : decomp.isDebugFunction = true
        · rw [if_pos hdebug] at hret
          by_cases hfixed : (fixupFunction object pex functionName decomp).1 = true
          · rw [if_pos hfixed] at hret
            exact getFunctionToWrite_body_named _ _ _ _ _ _ _ _ _ _ _ hret
          · rw [if_neg hfixed] at hret
            by_cases hw : self.m_WriteDebugFuncs = true
            · rw [if_pos hw] at hret
              exact getFunctionToWrite_body_named _ _ _ _ _ _ _ _ _ _ _ hret
            · rw [if_neg hw] at hret
              simp only [Except.ok.injEq] at hret
              subst hret
              exact ⟨rfl, rfl⟩
        · rw [if_neg hdebug] at hret
          by_cases hstate : _stricmp functionName "GotoState" = 0 ∨
              _stricmp functionName "GetState" = 0
          · rw [if_pos hstate] at hret
            exact getFunctionToWrite_body_named _ _ _ _ _ _ _ _ _ _ _ hret
          · rw [if_neg hstate] at hret
            exact getFunctionToWrite_body_named _ _ _ _ _ _ _ _ _ _ _ hret

theorem remote_names (env : Env) (function : Pex.Function) (pex : Pex.Binary) (name : String)
    (param : Pex.TypedName) (rest : List Pex.TypedName)
    (hlen : 9 < (givenName function name).length)
    (hstart : EqIgnoreCase (substr (givenName function name) 0 9) "::remote_")
    (hparams : function.getParams = param :: rest)
    (hshort : param.getTypeName.asString.length < (givenName function name).length - 9) :
    writeFunction_name env function pex name =
      some (remoteName (givenName function name) param.getTypeName.asString.length, true) ∧
    getFunctionToWrite_name env function pex name =
      some (remoteName (givenName function name) param.getTypeName.asString.length, true) := by
  have hcond : (givenName function name).length > 9 ∧
      _stricmp (substr (givenName function name) 0 9) "::remote_" = 0 :=
    ⟨hlen, stricmp_eq_zero_of_eqIgnoreCase _ _ hstart⟩
  have hrest : param.getTypeName.asString.length <
      (substrFrom (givenName function name) 9).length := by
    show _ < (List.drop 9 (givenName function name).data).length
    rw [List.length_drop]
    exact hshort
  constructor
  · unfold writeFunction_name
    unfold givenName at hcond hrest ⊢
    simp only [hcond, and_self, if_true, hparams, hrest]
    rfl
  · unfold getFunctionToWrite_name
    rw [show (if name = "" then function.getName.asString else name) =
      givenName function name from rfl]
    simp only [IsEvent_remote env pex.getGameType _ hstart, hcond, and_self, if_true, hparams,
      hrest]
    rfl

/-- C22. For a function whose name is longer than 9 characters and starts with `::remote_`
ignoring case, and whose first parameter has a type name shorter than the rest of the name,
`writeFunction` and `getFunctionToWrite` classify the function as an event and take as its name
the text after the 9 characters with the character at the index of the length of the type name
replaced by `.`. That name is never skipped as compiler generated: a native function is written
as `Event <name>(...) Native`, another function that is not skipped as a debug function as
`Event <name>(...)` with the closing line `EndEvent`, and whatever `getFunctionToWrite` returns
holds that name and is marked as an event. -/
theorem remote_event (env : Env) (self : PscCoder) (i : Nat) (function : Pex.Function)
    (object : Pex.Object) (pex : Pex.Binary)
    (functionInfo : Option Pex.DebugInfo.FunctionInfo) (name : String) (out : Out)
    (param : Pex.TypedName) (rest : List Pex.TypedName)
    (hlen : 9 < (givenName function name).length)
    (hstart : EqIgnoreCase (substr (givenName function name) 0 9) "::remote_")
    (hparams : function.getParams = param :: rest)
    (hshort : param.getTypeName.asString.length < (givenName function name).length - 9) :
    writeFunction_name env function pex name =
      some (remoteName (givenName function name) param.getTypeName.asString.length, true) ∧
    getFunctionToWrite_name env function pex name =
      some (remoteName (givenName function name) param.getTypeName.asString.length, true) ∧
    isCompilerGeneratedFunc
      (remoteName (givenName function name) param.getTypeName.asString.length) object
      pex.getGameType = false ∧
    (function.isNative = true →
      writeFunction env self i function object pex functionInfo name out =
        Res.ok ⟨out.lines ++
          [declFront env i function ++ "Event " ++
            remoteName (givenName function name) param.getTypeName.asString.length ++ "(" ++
            writeFunction_params function.getParams ++ ")" ++
            (if function.isGlobal = true then " Global" else "") ++ " Native" ++
            writeUserFlag "" function.getUserFlags pex] ++
          docStringLines env i function.getDocString, out.properties⟩ ∧
      ∃ func, getFunctionToWrite env self i function object pex functionInfo name =
        Except.ok func) ∧
    (function.isNative = false →
      ∀ decomp, env.decompile function object functionInfo = Except.ok decomp →
        (decomp.isDebugFunction = true →
          (fixupFunction object pex
            (remoteName (givenName function name) param.getTypeName.asString.length)
            decomp).1 = true ∨ self.m_WriteDebugFuncs = true) →
        ∃ comment ∈ fixupComments env i
            (remoteName (givenName function name) param.getTypeName.asString.length),
          ∃ written : PscDecompiler,
            writeFunction env self i function object pex functionInfo name out =
              Res.ok ⟨out.lines ++ comment ++
                [writeUserFlag
                  (declFront env i function ++ "Event " ++
                    remoteName (givenName function name) param.getTypeName.asString.length ++
                    "(" ++ writeFunction_params function.getParams ++ ")" ++
                    (if function.isGlobal = true then " Global" else ""))
                  function.getUserFlags pex] ++
                docStringLines env i function.getDocString ++
                writeFunction_bodyLines env self i written ++ [indent env i ++ "EndEvent"],
                out.properties⟩) ∧
    (∀ func, getFunctionToWrite env self i function object pex functionInfo name =
        Except.ok func →
      func.isEvent = some true ∧
        func.nameAsWritten =
          remoteName (givenName function name) param.getTypeName.asString.length) := by
  obtain ⟨hw, hg⟩ := remote_names env function pex name param rest hlen hstart hparams hshort
  have hgen := isCompilerGeneratedFunc_of_dot _ object pex.getGameType
    (remoteName_mem (givenName function name) param.getTypeName.asString.length hshort)
  have hdecl : writeFunction_decl env i function
      (remoteName (givenName function name) param.getTypeName.asString.length) true =
      declFront env i function ++ "Event " ++
        remoteName (givenName function name) param.getTypeName.asString.length ++ "(" ++
        writeFunction_params function.getParams ++ ")" ++
        (if function.isGlobal = true then " Global" else "") := by
    rw [writeFunction_decl_keyword]
    simp only [declKeyword, if_true, String.append_assoc]
  refine ⟨hw, hg, hgen, ?_, ?_, ?_⟩
  · intro hnative
    constructor
    · rw [writeFunction_native env self i function object pex functionInfo name out _ _ hw hgen
        hnative, writeUserFlag_append, hdecl]
    · unfold getFunctionToWrite
      rw [hg]
      simp only [hgen, hnative, Bool.false_eq_true, if_false, if_true, Except.ok.injEq,
        exists_eq']
  · intro hnative decomp hdecomp hkeep
    obtain ⟨comment, hcomment, written, hwr⟩ :=
      writeFunction_kept env self i function object pex functionInfo name out _ _ decomp hw hgen
        hnative hdecomp hkeep
    refine ⟨comment, hcomment, written, ?_⟩
    rw [hwr, functionLines_eq, hdecl]
    simp only [closingLine, if_true, List.append_assoc]
  · intro func hret
    exact getFunctionToWrite_named env self i function object pex functionInfo name _ _ func hg
      hret

theorem remote_event_witness :
    remoteName (givenName (sampleRemoteFunction false) "") 5 = "Actor.OnHit" ∧
    writeFunction (sampleEnv (sampleDecomp ["x = 1"] false)) (sampleCoder false false) 0
        (sampleRemoteFunction false) (sampleObject "Foo")
        (sampleBinary Pex.Binary.ScriptType.SkyrimScript) none "" emptyOut =
      Res.ok ⟨["Event Actor.OnHit(Actor akSender)", "  x = 1", "EndEvent"], []⟩ ∧
    writeFunction (sampleEnv (sampleDecomp ["x = 1"] false)) (sampleCoder false false) 0
        (sampleRemoteFunction true) (sampleObject "Foo")
        (sampleBinary Pex.Binary.ScriptType.SkyrimScript) none "" emptyOut =
      Res.ok ⟨["Event Actor.OnHit(Actor akSender) Native"], []⟩ ∧
    writeFunction_name (sampleEnv (sampleDecomp ["x = 1"] false)) (sampleRemoteFunction false)
        (sampleBinary Pex.Binary.ScriptType.SkyrimScript) "" =
      some (remoteName (givenName (sampleRemoteFunction false) "")
        (⟨sampleIndex 80 "akSender", sampleIndex 81 "Actor"⟩ :
          Pex.TypedName).getTypeName.asString.length, true) ∧
    getFunctionToWrite_name (sampleEnv (sampleDecomp ["x = 1"] false))
        (sampleRemoteFunction false) (sampleBinary Pex.Binary.ScriptType.SkyrimScript) "" =
      some (remoteName (givenName (sampleRemoteFunction false) "")
        (⟨sampleIndex 80 "akSender", sampleIndex 81 "Actor"⟩ :
          Pex.TypedName).getTypeName.asString.length, true) :=
  ⟨by decide, by decide, by decide,
    (remote_event (sampleEnv (sampleDecomp ["x = 1"] false)) (sampleCoder false false) 0
      (sampleRemoteFunction false) (sampleObject "Foo")
      (sampleBinary Pex.Binary.ScriptType.SkyrimScript) none "" emptyOut
      ⟨sampleIndex 80 "akSender", sampleIndex 81 "Actor"⟩ [] (by decide)
      (by unfold EqIgnoreCase; decide) rfl (by decide)).1,
    (remote_event (sampleEnv (sampleDecomp ["x = 1"] false)) (sampleCoder false false) 0
      (sampleRemoteFunction false) (sampleObject "Foo")
      (sampleBinary Pex.Binary.ScriptType.SkyrimScript) none "" emptyOut
      ⟨sampleIndex 80 "akSender", sampleIndex 81 "Actor"⟩ [] (by decide)
      (by unfold EqIgnoreCase; decide) rfl (by decide)).2.1⟩

/-! ## `mapType`: idempotence and what it changes -/

theorem isArrayType_split {s : String} (h : isArrayType s = true) :
    s = substr s 0 (s.length - 2) ++ "[]" := by
  have hlen := isArrayType_length h
  unfold isArrayType at h
  rw [Bool.and_eq_true, Bool.and_eq_true] at h
  obtain ⟨⟨_, h1⟩, h2⟩ := h
  have hl : s.length = s.data.length := rfl
  rw [hl] at hlen h1 h2
  apply String.ext
  unfold substr
  rw [String.data_append, List.drop_zero, hl]
  have hd : List.drop (s.data.length - 2) s.data = ['[', ']'] := by
    apply List.ext_getElem?
    intro k
    rw [List.getElem?_drop]
    rcases k with _ | _ | k
    · simpa using h1
    · have : s.data.length - 2 + (0 + 1) = s.data.length - 1 := by omega
      rw [this]
      simpa using h2
    · rw [List.getElem?_eq_none (by omega)]
      rfl
  have hsplit := List.take_append_drop (s.data.length - 2) s.data
  rw [hd] at hsplit
  exact hsplit.symm

theorem std_replace_no_hash (t : String) : ∀ c ∈ (std_replace t '#' ':').data, c ≠ '#' := by
  intro c hc
  unfold std_replace at hc
  obtain ⟨d, _, hd⟩ := List.mem_map.1 hc
  by_cases h : d = '#'
  · rw [if_pos h] at hd
    rw [← hd]
    decide
  · rw [if_neg h] at hd
    rw [← hd]
    exact h

theorem mem_prettyTypeNameMap_of_lookup {key value : String}
    (h : prettyTypeNameMap.lookup key = some value) : (key, value) ∈ prettyTypeNameMap := by
  obtain ⟨l₁, l₂, hl, _⟩ := List.lookup_eq_some_iff.1 h
  rw [hl]
  exact List.mem_append_right _ (List.mem_cons_self _ _)

theorem mapType_of_not_array (t : String) (h : isArrayType (std_replace t '#' ':') = false) :
    mapType t =
      (prettyTypeNameMap.lookup (str_to_lower (std_replace t '#' ':'))).getD
        (std_replace t '#' ':') := by
  rw [mapType_eq, if_neg (by rw [h]; decide)]
  cases prettyTypeNameMap.lookup (str_to_lower (std_replace t '#' ':')) <;> rfl

theorem mapType_of_array (t : String) (h : isArrayType (std_replace t '#' ':') = true) :
    mapType t =
      mapType (substr (std_replace t '#' ':') 0 ((std_replace t '#' ':').length - 2)) ++ "[]" ∧
    (substr (std_replace t '#' ':') 0 ((std_replace t '#' ':').length - 2)).length < t.length := by
  constructor
  · rw [mapType_eq, if_pos h]
  · have := isArrayType_length h
    rw [length_substr, length_std_replace]
    rw [length_std_replace] at this
    omega

/-- Induction along the recursion of `mapType`: a property of a type name and its image holds
when it passes from the element type to the array type, holds for the values of the table, and
holds for a name that is not in the table. -/
theorem mapType_induction (P : String → String → Prop)
    (harr : ∀ t, isArrayType (std_replace t '#' ':') = true →
      P (substr (std_replace t '#' ':') 0 ((std_replace t '#' ':').length - 2))
        (mapType (substr (std_replace t '#' ':') 0 ((std_replace t '#' ':').length - 2))) →
      P t (mapType (substr (std_replace t '#' ':') 0 ((std_replace t '#' ':').length - 2)) ++
        "[]"))
    (hval : ∀ t value, isArrayType (std_replace t '#' ':') = false →
      prettyTypeNameMap.lookup (str_to_lower (std_replace t '#' ':')) = some value → P t value)
    (hnone : ∀ t, isArrayType (std_replace t '#' ':') = false →
      prettyTypeNameMap.lookup (str_to_lower (std_replace t '#' ':')) = none →
      P t (std_replace t '#' ':')) :
    ∀ t, P t (mapType t) := by
  have aux : ∀ (n : Nat) (t : String), t.length ≤ n → P t (mapType t) := by
    intro n
    induction n with
    | zero =>
      intro t ht
      cases ha : isArrayType (std_replace t '#' ':') with
      | true =>
        have := (mapType_of_array t ha).2
        omega
      | false =>
        rw [mapType_of_not_array t ha]
        cases hl : prettyTypeNameMap.lookup (str_to_lower (std_replace t '#' ':')) with
        | some a => exact hval t a ha hl
        | none => exact hnone t ha hl
    | succ n ih =>
      intro t ht
      cases ha : isArrayType (std_replace t '#' ':') with
      | true =>
        obtain ⟨heq, hlt⟩ := mapType_of_array t ha
        rw [heq]
        exact harr t ha (ih _ (by omega))
      | false =>
        rw [mapType_of_not_array t ha]
        cases hl : prettyTypeNameMap.lookup (str_to_lower (std_replace t '#' ':')) with
        | some a => exact hval t a ha hl
        | none => exact hnone t ha hl
  intro t
  exact aux t.length t (Nat.le_refl _)

theorem value_plain {key value : String} (h : prettyTypeNameMap.lookup key = some value) :
    str_to_lower value = key ∧ std_replace value '#' ':' = value ∧
      isArrayType value = false := by
  have hmem := mem_prettyTypeNameMap_of_lookup h
  have hkey := prettyTypeNameMap_values _ hmem
  have hlow : ∀ c ∈ (str_to_lower value).data, c.isLower = true := by
    rw [hkey]
    exact prettyTypeNameMap_keys_lower _ hmem
  exact ⟨hkey, plain_of_lower value hlow⟩

theorem mapType_value {key value : String} (h : prettyTypeNameMap.lookup key = some value) :
    mapType value = value := by
  obtain ⟨hkey, hrep, hnarr⟩ := value_plain h
  rw [mapType_of_not_array value (by rw [hrep]; exact hnarr), hrep, hkey, h]
  rfl

theorem mapType_no_hash : ∀ t, std_replace (mapType t) '#' ':' = mapType t := by
  apply mapType_induction (fun _ image => std_replace image '#' ':' = image)
  · intro t _ ih
    rw [std_replace_append, ih]
    rfl
  · intro t value _ hl
    exact (value_plain hl).2.1
  · intro t _ _
    exact std_replace_idem t

/-- C23. `mapType` is idempotent: `mapType (mapType t) = mapType t` for every string `t`. Every
value of the table of pretty names lowercases to its own key, and what `mapType` returns holds no
`#`. -/
theorem mapType_idempotent (t : String) :
    mapType (mapType t) = mapType t ∧
    (∀ p ∈ prettyTypeNameMap, str_to_lower p.2 = p.1) ∧
    (∀ c ∈ (mapType t).data, c ≠ '#') := by
  refine ⟨?_, prettyTypeNameMap_values, ?_⟩
  · revert t
    apply mapType_induction (fun _ image => mapType image = image)
    · intro t _ ih
      rw [mapType_append_array, ih]
    · intro t value _ hl
      exact mapType_value hl
    · intro t ha hl
      rw [mapType_of_not_array _ (by rw [std_replace_idem]; exact ha), std_replace_idem, hl]
      rfl
  · rw [← mapType_no_hash t]
    exact std_replace_no_hash _

theorem mapType_idempotent_witness :
    mapType "objectREFERENCE[]" = "ObjectReference[]" ∧
    mapType "ObjectReference[]" = "ObjectReference[]" ∧
    mapType (mapType "MyQuest#MyStruct[][]") = mapType "MyQuest#MyStruct[][]" :=
  ⟨by decide, by decide, (mapType_idempotent "MyQuest#MyStruct[][]").1⟩
/-! ## `mapType` changes letter case and `#` only -/

theorem EqIgnoreCase_length {a b : String} (h : EqIgnoreCase a b) : a.length = b.length := by
  unfold EqIgnoreCase at h
  have := congrArg List.length h
  simpa using this

theorem mapType_eqIgnoreCase : ∀ t, EqIgnoreCase (mapType t) (std_replace t '#' ':') := by
  apply mapType_induction (fun t image => EqIgnoreCase image (std_replace t '#' ':'))
  · intro t ha ih
    have hsplit := isArrayType_split ha
    have hbase : std_replace
        (substr (std_replace t '#' ':') 0 ((std_replace t '#' ':').length - 2)) '#' ':' =
        substr (std_replace t '#' ':') 0 ((std_replace t '#' ':').length - 2) := by
      apply std_replace_of_not_mem
      intro c hc
      apply std_replace_no_hash t
      unfold substr at hc
      exact List.mem_of_mem_take hc
    rw [hbase] at ih
    unfold EqIgnoreCase at ih ⊢
    rw [String.data_append, List.map_append, ih, ← List.map_append, ← String.data_append,
      ← hsplit]
  · intro t value _ hl
    have hkey := (value_plain hl).1
    unfold str_to_lower at hkey
    exact congrArg String.data hkey
  · intro t _ _
    rfl

/-- C24. `mapType` changes nothing but letter case and `#`: for every string `t`, `mapType t` has
the length of `t` and is equal, ignoring the case of ASCII letters, to `t` with every `#` replaced
by `:`. -/
theorem mapType_case_only (t : String) :
    (mapType t).length = t.length ∧ EqIgnoreCase (mapType t) (std_replace t '#' ':') := by
  refine ⟨?_, mapType_eqIgnoreCase t⟩
  rw [EqIgnoreCase_length (mapType_eqIgnoreCase t), length_std_replace]

theorem mapType_case_only_witness :
    mapType "myquest#OBJECTreference[]" = "myquest:OBJECTreference[]" ∧
    mapType "OBJECTreference[]" = "ObjectReference[]" ∧
    (mapType "OBJECTreference[]").length = ("OBJECTreference[]" : String).length ∧
    EqIgnoreCase (mapType "OBJECTreference[]") (std_replace "OBJECTreference[]" '#' ':') :=
  ⟨by decide, by decide, (mapType_case_only "OBJECTreference[]").1,
    (mapType_case_only "OBJECTreference[]").2⟩

/-! ## The comparators of `Binary::sort` -/

theorem strictWeakOrdering_of_key {α β : Type} [LinearOrder β] (comp : α → α → Bool) (f : α → β)
    (h : ∀ a b, comp a b = true ↔ f a < f b) : StrictWeakOrdering comp := by
  have hf : ∀ a b, comp a b = false ↔ ¬ f a < f b := by
    intro a b
    rw [← h a b]
    cases comp a b <;> simp
  refine ⟨?_, ?_, ?_⟩
  · intro a
    rw [hf]
    exact lt_irrefl _
  · intro a b c hab hbc
    rw [h] at hab hbc ⊢
    exact lt_trans hab hbc
  · intro a b c hab hbc
    rw [hf, hf] at hab hbc
    rw [hf, hf]
    have h1 : f a = f b := le_antisymm (not_lt.1 hab.2) (not_lt.1 hab.1)
    have h2 : f b = f c := le_antisymm (not_lt.1 hbc.2) (not_lt.1 hbc.1)
    rw [h1, h2]
    exact ⟨lt_irrefl _, lt_irrefl _⟩

theorem sort_compare_byId (self : Pex.Binary) (obj : Pex.Object) (state : Pex.State)
    (a b : Pex.Function) :
    self.sort_compare true obj state a b = true ↔
      toLex (firstLine self obj.getName state.getName a, a.getName.asIndex) <
        toLex (firstLine self obj.getName state.getName b, b.getName.asIndex) := by
  rw [sort_compare_eq, Prod.Lex.lt_iff]
  unfold Pex.Binary.sortFunc nameIdLessThan
  simp only [if_true, Pex.NamedItem.getName]
  by_cases he : firstLine self obj.getName state.getName a =
      firstLine self obj.getName state.getName b
  · rw [if_pos he, decide_eq_true_eq]
    constructor
    · intro hlt
      exact Or.inr ⟨he, hlt⟩
    · rintro (hlt | ⟨_, hlt⟩)
      · omega
      · exact hlt
  · rw [if_neg he, decide_eq_true_eq]
    constructor
    · intro hlt
      exact Or.inl hlt
    · rintro (hlt | ⟨heq, _⟩)
      · exact hlt
      · exact absurd heq he

theorem sort_compare_byName (self : Pex.Binary) (obj : Pex.Object) (state : Pex.State)
    (a b : Pex.Function) :
    self.sort_compare false obj state a b = true ↔
      toLex (firstLine self obj.getName state.getName a, a.getName.asString.data) <
        toLex (firstLine self obj.getName state.getName b, b.getName.asString.data) := by
  rw [sort_compare_eq, Prod.Lex.lt_iff]
  unfold Pex.Binary.sortFunc namedLessThan
  simp only [Bool.false_eq_true, if_false, Pex.NamedItem.getName]
  by_cases he : firstLine self obj.getName state.getName a =
      firstLine self obj.getName state.getName b
  · rw [if_pos he, decide_eq_true_eq]
    constructor
    · intro hlt
      exact Or.inr ⟨he, hlt⟩
    · rintro (hlt | ⟨_, hlt⟩)
      · omega
      · exact hlt
  · rw [if_neg he, decide_eq_true_eq]
    constructor
    · intro hlt
      exact Or.inl hlt
    · rintro (hlt | ⟨heq, _⟩)
      · exact hlt
      · exact absurd heq he

/-- C25. The comparators `Binary::sort` hands to `std::sort` are strict weak orderings:
`namedLessThan` and `nameIdLessThan` on every kind of named item, `sortFunc` for both values of
`sortById`, and the comparator of the functions of a state (first line number of the debug
function info, then name), for every binary, object, state and value of `sortById`. -/
theorem sort_comparators_strict_weak (α : Type) [Pex.NamedItem α] (self : Pex.Binary)
    (sortById : Bool) (obj : Pex.Object) (state : Pex.State) :
    StrictWeakOrdering (namedLessThan : α → α → Bool) ∧
    StrictWeakOrdering (nameIdLessThan : α → α → Bool) ∧
    StrictWeakOrdering (Pex.Binary.sortFunc sortById : α → α → Bool) ∧
    StrictWeakOrdering (self.sort_compare sortById obj state) := by
  have hnamed : StrictWeakOrdering (namedLessThan : α → α → Bool) :=
    strictWeakOrdering_of_key _ (fun a => (Pex.NamedItem.getName a).asString.data)
      (fun a b => by unfold namedLessThan; exact decide_eq_true_iff)
  have hid : StrictWeakOrdering (nameIdLessThan : α → α → Bool) :=
    strictWeakOrdering_of_key _ (fun a => (Pex.NamedItem.getName a).asIndex)
      (fun a b => by unfold nameIdLessThan; exact decide_eq_true_iff)
  refine ⟨hnamed, hid, ?_, ?_⟩
  · cases sortById
    · exact hnamed
    · exact hid
  · cases sortById
    · exact strictWeakOrdering_of_key _
        (fun a => toLex (firstLine self obj.getName state.getName a, a.getName.asString.data))
        (sort_compare_byName self obj state)
    · exact strictWeakOrdering_of_key _
        (fun a => toLex (firstLine self obj.getName state.getName a, a.getName.asIndex))
        (sort_compare_byId self obj state)

theorem sort_comparators_strict_weak_witness :
    sampleSortBinary.sort_compare false (sampleObject "Foo") ⟨sampleIndex 60 "Busy", []⟩
        { sampleFunction "Alpha" "None" with getName := sampleIndex 73 "Alpha" }
        { sampleFunction "Beta" "None" with getName := sampleIndex 72 "Beta" } = true ∧
    sampleSortBinary.sort_compare true (sampleObject "Foo") ⟨sampleIndex 60 "Busy", []⟩
        { sampleFunction "Zeta" "None" with getName := sampleIndex 71 "Zeta" }
        { sampleFunction "Eta" "None" with getName := sampleIndex 70 "Eta" } = false ∧
    StrictWeakOrdering
      (sampleSortBinary.sort_compare false (sampleObject "Foo") ⟨sampleIndex 60 "Busy", []⟩) ∧
    StrictWeakOrdering (namedLessThan : Pex.Object → Pex.Object → Bool) :=
  ⟨by decide, by decide,
    (sort_comparators_strict_weak Pex.Object sampleSortBinary false (sampleObject "Foo")
      ⟨sampleIndex 60 "Busy", []⟩).2.2.2,
    (sort_comparators_strict_weak Pex.Object sampleSortBinary false (sampleObject "Foo")
      ⟨sampleIndex 60 "Busy", []⟩).1⟩

/-! ## The indexings of the getter of a property -/

theorem isPropAutoReadOnly_indexed_eq (prop : Pex.Property) :
    isPropAutoReadOnly_indexed prop = some (isPropAutoReadOnly prop) := by
  unfold isPropAutoReadOnly_indexed isPropAutoReadOnly
  by_cases h1 : prop.hasAutoVar = true
  · simp [h1]
  · by_cases h2 : prop.isReadable = false
    · simp [h1, h2]
    · by_cases h3 : prop.isWritable = true
      · simp [h1, h2, h3]
      · rw [if_neg h1, if_neg h2, if_neg h3]
        simp only [Bool.not_eq_true, Bool.not_eq_false] at h1 h2 h3
        cases hi : prop.getReadFunction.getInstructions with
        | nil => simp [h1, h2, h3]
        | cons ins rest =>
          cases rest with
          | cons ins2 rest2 => simp [h1, h2, h3]
          | nil =>
            simp only [List.length_singleton, ne_eq, not_true_eq_false, if_false,
              List.getElem?_cons_zero, h1, h2, h3, Bool.not_false, Bool.not_true, Bool.and_self,
              beq_self_eq_true, Option.map_some', Option.some_bind, Bool.true_and,
              Bool.and_true]
            by_cases ho : ins.getOpCode = Pex.OpCode.RETURN
            · rw [if_neg (not_not.2 ho)]
              rcases ha : ins.getArgs with _ | ⟨arg, _ | ⟨arg2, args⟩⟩
              · simp [ho]
              · simp [ho]
              · simp [ho]
            · rw [if_pos ho]
              simp [ho]

theorem getter_of_autoReadOnly (prop : Pex.Property) (h : isPropAutoReadOnly prop = true) :
    prop.hasAutoVar = false ∧
    ∃ arg : Pex.Value, prop.getReadFunction.getInstructions = [⟨Pex.OpCode.RETURN, [arg]⟩] := by
  obtain ⟨h1, _, _, arg, ha, _⟩ := (isPropAutoReadOnly_iff prop).1 h
  exact ⟨h1, arg, ha⟩

theorem makePropertyToWrite_decl_eq (env : Env) (i : Nat) (prop : Pex.Property)
    (object : Pex.Object) (pex : Pex.Binary) :
    makePropertyToWrite_decl env i prop object pex = writeProperty_decl env i prop object pex := by
  unfold makePropertyToWrite_decl writeProperty_decl autoVarNotFound
  simp only
  by_cases h1 : prop.hasAutoVar = true
  · rw [if_pos h1, if_pos h1]
  · rw [if_neg h1, if_neg h1]
    by_cases h2 : isPropAutoReadOnly prop = true
    · rw [if_pos h2, if_pos h2]
      cases prop.getReadFunction.getInstructions[0]? with
      | none => rfl
      | some ins => simp only [Option.some_bind]
    · rw [if_neg h2, if_neg h2]

theorem writeProperty_decl_autoReadOnly (env : Env) (i : Nat) (prop : Pex.Property)
    (object : Pex.Object) (pex : Pex.Binary) (arg : Pex.Value)
    (h : isPropAutoReadOnly prop = true)
    (hins : prop.getReadFunction.getInstructions = [⟨Pex.OpCode.RETURN, [arg]⟩]) :
    writeProperty_decl env i prop object pex =
      Except.ok (autoReadOnlyPropertyLine env i prop arg pex) := by
  have h1 := (getter_of_autoReadOnly prop h).1
  unfold writeProperty_decl autoReadOnlyPropertyLine
  simp only [h1, h, hins, Bool.false_eq_true, if_false, if_true, List.getElem?_cons_zero,
    Option.some_bind]

theorem writeProperty_decl_defined (env : Env) (i : Nat) (prop : Pex.Property)
    (object : Pex.Object) (pex : Pex.Binary) :
    writeProperty_decl env i prop object pex ≠ Except.error Error.undefined_behaviour := by
  by_cases h2 : isPropAutoReadOnly prop = true
  · obtain ⟨_, arg, hins⟩ := getter_of_autoReadOnly prop h2
    rw [writeProperty_decl_autoReadOnly env i prop object pex arg h2 hins]
    simp
  · unfold writeProperty_decl autoVarNotFound
    simp only
    by_cases h1 : prop.hasAutoVar = true
    · rw [if_pos h1]
      cases Pex.findByName object.getVariables prop.getAutoVarName <;> simp
    · rw [if_neg h1, if_neg h2]
      simp

/-- C26. The indexings of the getter are in range. `isPropAutoReadOnly` reads instruction 0 and
its argument 0 only after the tests of the sizes, so it has a value for every property; when it
holds the getter has exactly one instruction, with exactly one argument. `writeProperty` and
`makePropertyToWrite` read instruction 0 and argument 0 only in the branch `isPropAutoReadOnly`
guards: their declaration never ends in an index out of range, for a property that is
`AutoReadOnly` it is the declaration with that argument, and for a property that is not it does
not depend on the getter. -/
theorem getter_indexing_in_range (env : Env) (self : PscCoder) (i : Nat) (prop : Pex.Property)
    (object : Pex.Object) (pex : Pex.Binary) :
    isPropAutoReadOnly_indexed prop = some (isPropAutoReadOnly prop) ∧
    (isPropAutoReadOnly prop = true →
      ∃ instruction arg, prop.getReadFunction.getInstructions = [instruction] ∧
        instruction.getArgs = [arg] ∧
        writeProperty_decl env i prop object pex =
          Except.ok (autoReadOnlyPropertyLine env i prop arg pex) ∧
        makePropertyToWrite env self i prop object pex =
          Except.ok { PropertyToWrite.new with
            name := prop.getName,
            propertyDecl := autoReadOnlyPropertyLine env i prop arg pex,
            docString := indent env i ++ "\x7b " ++ prop.getDocString.asString ++ " \x7d" }) ∧
    writeProperty_decl env i prop object pex ≠ Except.error Error.undefined_behaviour ∧
    makePropertyToWrite_decl env i prop object pex ≠ Except.error Error.undefined_behaviour ∧
    (∀ getter : Pex.Function, isPropAutoReadOnly prop = false →
      isPropAutoReadOnly { prop with getReadFunction := getter } = false →
      writeProperty_decl env i { prop with getReadFunction := getter } object pex =
        writeProperty_decl env i prop object pex ∧
      makePropertyToWrite_decl env i { prop with getReadFunction := getter } object pex =
        makePropertyToWrite_decl env i prop object pex) := by
  refine ⟨isPropAutoReadOnly_indexed_eq prop, ?_, writeProperty_decl_defined env i prop object pex,
    ?_, ?_⟩
  · intro h
    obtain ⟨h1, arg, hins⟩ := getter_of_autoReadOnly prop h
    have hdecl := writeProperty_decl_autoReadOnly env i prop object pex arg h hins
    refine ⟨_, arg, hins, rfl, hdecl, ?_⟩
    unfold makePropertyToWrite
    rw [makePropertyToWrite_decl_eq, hdecl]
    simp only [h1, h, Bool.true_eq_false, and_false, if_false]
  · rw [makePropertyToWrite_decl_eq]
    exact writeProperty_decl_defined env i prop object pex
  · intro getter h h'
    have key : writeProperty_decl env i { prop with getReadFunction := getter } object pex =
        writeProperty_decl env i prop object pex := by
      unfold writeProperty_decl
      simp only [h, h', Bool.false_eq_true, if_false]
    exact ⟨key, by rw [makePropertyToWrite_decl_eq, makePropertyToWrite_decl_eq, key]⟩

theorem getter_indexing_in_range_witness :
    isPropAutoReadOnly sampleLiteralProperty = true ∧
    (makePropertyToWrite (sampleEnv (sampleDecomp [] false)) (sampleCoder false false) 0
        sampleLiteralProperty (sampleObjectWith "Foo" [sampleLiteralProperty])
        (sampleBinary Pex.Binary.ScriptType.SkyrimScript)).toOption.map
        (fun p => p.propertyDecl) =
      some "Int Property MaxHealth = 100 AutoReadOnly" ∧
    (∃ instruction arg,
      sampleLiteralProperty.getReadFunction.getInstructions = [instruction] ∧
      instruction.getArgs = [arg] ∧
      writeProperty_decl (sampleEnv (sampleDecomp [] false)) 0 sampleLiteralProperty
          (sampleObjectWith "Foo" [sampleLiteralProperty])
          (sampleBinary Pex.Binary.ScriptType.SkyrimScript) =
        Except.ok (autoReadOnlyPropertyLine (sampleEnv (sampleDecomp [] false)) 0
          sampleLiteralProperty arg (sampleBinary Pex.Binary.ScriptType.SkyrimScript)) ∧
      makePropertyToWrite (sampleEnv (sampleDecomp [] false)) (sampleCoder false false) 0
          sampleLiteralProperty (sampleObjectWith "Foo" [sampleLiteralProperty])
          (sampleBinary Pex.Binary.ScriptType.SkyrimScript) =
        Except.ok { PropertyToWrite.new with
          name := sampleLiteralProperty.getName,
          propertyDecl := autoReadOnlyPropertyLine (sampleEnv (sampleDecomp [] false)) 0
            sampleLiteralProperty arg (sampleBinary Pex.Binary.ScriptType.SkyrimScript),
          docString := indent (sampleEnv (sampleDecomp [] false)) 0 ++ "\x7b " ++
            sampleLiteralProperty.getDocString.asString ++ " \x7d" }) :=
  ⟨by decide, by decide,
    (getter_indexing_in_range (sampleEnv (sampleDecomp [] false)) (sampleCoder false false) 0
      sampleLiteralProperty (sampleObjectWith "Foo" [sampleLiteralProperty])
      (sampleBinary Pex.Binary.ScriptType.SkyrimScript)).2.1 (by decide)⟩

end Champollion
